import Mathlib

/-!
# FX Manager: tag gates, activation, tracking and termination of effect packs

A shallow embedding of `FXTypes.h`, `FXManagerSubsystem.h` and
`FXManagerSubsystem.cpp`.

Conventions of the embedding:

* object pointers are `Option`s (`none` is `nullptr`); spawned components, assets and
  actors are identified by a natural number;
* `int` identities live in `Int`; signed overflow of `Internal_NextId++` is undefined
  behaviour in C++ and is not modelled;
* vector and quaternion coordinates are exact integers;
* a read through a reference to a destroyed local has no defined value: a lookup that
  makes one yields `LookupResult.Undefined`;
* the engine (particle, Niagara and audio spawning, component deactivation, the timer
  manager) is external: its answers are a parameter (`Renderer`) and every call made to
  it is recorded in an `EngineTrace` that is threaded through the operations.
-/

namespace FXManager

/-! ## Engine value types -/

/-- Gameplay tags are interned names; a tag is identified with its index. -/
abbrev FGameplayTag := Nat

/-- Engine names (socket names) are interned; a name is identified with its index. -/
abbrev FName := Nat

/-- The explicit tags of an engine tag container. -/
structure FGameplayTagContainer where
  GameplayTags : List FGameplayTag
deriving DecidableEq, Repr

/-- The container `FGameplayTagContainer::EmptyContainer`. -/
def FGameplayTagContainer.EmptyContainer : FGameplayTagContainer := ⟨[]⟩

/-- Engine `IsEmpty`: the container holds no explicit tag. -/
def FGameplayTagContainer.IsEmpty (c : FGameplayTagContainer) : Bool :=
  c.GameplayTags.isEmpty

/-- Engine `HasTagExact`: the tag is one of the explicit tags. -/
def FGameplayTagContainer.HasTagExact (c : FGameplayTagContainer) (t : FGameplayTag) : Bool :=
  c.GameplayTags.contains t

/-- Engine `HasAllExact`: every tag of `other` is an explicit tag of `c`
(true when `other` is empty). -/
def FGameplayTagContainer.HasAllExact (c other : FGameplayTagContainer) : Bool :=
  other.GameplayTags.all (fun t => c.HasTagExact t)

/-- Engine `HasAnyExact`: some tag of `other` is an explicit tag of `c`
(false when `other` is empty). -/
def FGameplayTagContainer.HasAnyExact (c other : FGameplayTagContainer) : Bool :=
  other.GameplayTags.any (fun t => c.HasTagExact t)

/-- Engine vector, over exact integer coordinates. -/
structure FVector where
  X : Int
  Y : Int
  Z : Int
deriving DecidableEq, Repr

/-- Engine `FVector::operator+`, component-wise. -/
def FVector.add (a b : FVector) : FVector := ⟨a.X + b.X, a.Y + b.Y, a.Z + b.Z⟩

/-- Engine `FVector::operator*` on two vectors, component-wise. -/
def FVector.mul (a b : FVector) : FVector := ⟨a.X * b.X, a.Y * b.Y, a.Z * b.Z⟩

/-- Engine quaternion, over exact integer coordinates. -/
structure FQuat where
  X : Int
  Y : Int
  Z : Int
  W : Int
deriving DecidableEq, Repr

/-- Engine `FQuat::operator+`, component-wise addition. -/
def FQuat.add (a b : FQuat) : FQuat := ⟨a.X + b.X, a.Y + b.Y, a.Z + b.Z, a.W + b.W⟩

/-- Engine `FQuat::operator*`, the Hamilton product (the rotation composition). -/
def FQuat.mul (a b : FQuat) : FQuat :=
  ⟨a.W * b.X + a.X * b.W + a.Y * b.Z - a.Z * b.Y,
   a.W * b.Y - a.X * b.Z + a.Y * b.W + a.Z * b.X,
   a.W * b.Z + a.X * b.Y - a.Y * b.X + a.Z * b.W,
   a.W * b.W - a.X * b.X - a.Y * b.Y - a.Z * b.Z⟩

/-- The quaternion `FQuat::Identity`. -/
def FQuat.Identity : FQuat := ⟨0, 0, 0, 1⟩

/-- Engine transform: rotation, translation and scale. -/
structure FTransform where
  Rotation : FQuat
  Translation : FVector
  Scale3D : FVector
deriving DecidableEq, Repr

/-- The transform `FTransform::Identity`. -/
def FTransform.Identity : FTransform := ⟨FQuat.Identity, ⟨0, 0, 0⟩, ⟨1, 1, 1⟩⟩

/-- Engine `GetLocation`. -/
def FTransform.GetLocation (t : FTransform) : FVector := t.Translation

/-- Engine `GetRotation`. -/
def FTransform.GetRotation (t : FTransform) : FQuat := t.Rotation

/-- Engine `GetScale3D`. -/
def FTransform.GetScale3D (t : FTransform) : FVector := t.Scale3D

/-- Engine enumeration of attachment rules. -/
inductive EAttachmentRule where
  | KeepRelative
  | KeepWorld
  | SnapToTarget
deriving DecidableEq, Repr

/-- Engine enumeration `EAttachLocation::Type`. -/
inductive EAttachLocation where
  | KeepRelativeOffset
  | KeepWorldPosition
  | SnapToTarget
  | SnapToTargetIncludingScale
deriving DecidableEq, Repr

/-! ## FXTypes.h -/

/-- Source enumeration `EAttachType`. -/
inductive EAttachType where
  | AtSocketLocation
  | AttachToSocket
deriving DecidableEq, Repr

/-- Source enumeration `EAudioType`. -/
inductive EAudioType where
  | TwoDimensional
  | ThreeDimensional
deriving DecidableEq, Repr

/-- Source struct `FAttachData`. -/
structure FAttachData where
  RelativeTransform : FTransform := FTransform.Identity
  AttachType : EAttachType := EAttachType.AtSocketLocation
  SocketName : FName := 0
  AttachmentRule : EAttachmentRule := EAttachmentRule.SnapToTarget
deriving DecidableEq, Repr

/-- Source struct `FTagRequirements`: the four tag sets of a descriptor gate. -/
structure FTagRequirements where
  SourceRequiredTags : FGameplayTagContainer := FGameplayTagContainer.EmptyContainer
  SourceBlockingTags : FGameplayTagContainer := FGameplayTagContainer.EmptyContainer
  TargetRequiredTags : FGameplayTagContainer := FGameplayTagContainer.EmptyContainer
  TargetBlockingTags : FGameplayTagContainer := FGameplayTagContainer.EmptyContainer
deriving DecidableEq, Repr

/-- Source `FTagRequirements::MeetsTagCriteria`. The two emptiness tests read the
member sets `SourceRequiredTags` and `SourceBlockingTags` of the gate, the two
containment tests read the argument sets. -/
def FTagRequirements.MeetsTagCriteria (g : FTagRequirements)
    (OwningTags RequiredToCheckAgainst BlockingToCheckAgainst : FGameplayTagContainer) : Bool :=
  let bMeetsRequired :=
    if !g.SourceRequiredTags.IsEmpty then OwningTags.HasAllExact RequiredToCheckAgainst else true
  let bMeetsBlocking :=
    if !g.SourceBlockingTags.IsEmpty then !OwningTags.HasAnyExact BlockingToCheckAgainst else true
  bMeetsRequired && bMeetsBlocking

/-- Source `FTagRequirements::MeetsSourceTagCriteria`. -/
def FTagRequirements.MeetsSourceTagCriteria (g : FTagRequirements)
    (SourceTags : FGameplayTagContainer) : Bool :=
  g.MeetsTagCriteria SourceTags g.SourceRequiredTags g.SourceBlockingTags

/-- Source `FTagRequirements::MeetsTargetTagCriteria`. -/
def FTagRequirements.MeetsTargetTagCriteria (g : FTagRequirements)
    (TargetTags : FGameplayTagContainer) : Bool :=
  g.MeetsTagCriteria TargetTags g.TargetRequiredTags g.TargetBlockingTags

/-- Source `FTagRequirements::MeetsSourceAndTargetCriteria`. -/
def FTagRequirements.MeetsSourceAndTargetCriteria (g : FTagRequirements)
    (SourceTags TargetTags : FGameplayTagContainer) : Bool :=
  g.MeetsSourceTagCriteria SourceTags && g.MeetsTargetTagCriteria TargetTags

/-- Source struct `FFXData`, the base of both descriptor kinds. -/
structure FFXData where
  AccessTag : FGameplayTag
  AttachmentData : FAttachData := {}
  TagRequirements : FTagRequirements := {}
deriving DecidableEq, Repr

/-- Source `FFXData::GetRelativeTransform`. -/
def FFXData.GetRelativeTransform (d : FFXData) : FTransform := d.AttachmentData.RelativeTransform

/-- Source `FFXData::CanPlay`. -/
def FFXData.CanPlay (d : FFXData) (SourceTags TargetTags : FGameplayTagContainer) : Bool :=
  d.TagRequirements.MeetsSourceAndTargetCriteria SourceTags TargetTags

/-- The dynamic class of an effect asset, as seen by the two `Cast`s of the spawn code. -/
inductive EFXAssetClass where
  | Cascade
  | Niagara
  | Other
deriving DecidableEq, Repr

/-- An engine effect asset: its identity and its dynamic class. -/
structure UFXSystemAsset where
  AssetId : Nat
  AssetClass : EFXAssetClass
deriving DecidableEq, Repr

/-- Source struct `FVFXData`: a visual descriptor. -/
structure FVFXData extends FFXData where
  ParticleSystem : Option UFXSystemAsset := none
deriving DecidableEq, Repr

/-- Source struct `FSFXData`: an audio descriptor; `Sound` is the identity of the asset. -/
structure FSFXData extends FFXData where
  Sound : Option Nat := none
  AudioType : EAudioType := EAudioType.TwoDimensional
deriving DecidableEq, Repr

/-- Source struct `FEffectPack`. -/
structure FEffectPack where
  VFXData : List FVFXData := []
  SFXData : List FSFXData := []
deriving DecidableEq, Repr

/-- Source `FEffectPack::HasSFX`. -/
def FEffectPack.HasSFX (p : FEffectPack) : Bool := decide (p.SFXData.length > 0)

/-- Source `FEffectPack::HasVFX`. -/
def FEffectPack.HasVFX (p : FEffectPack) : Bool := decide (p.VFXData.length > 0)

/-- Source `FEffectPack::IsValid`. -/
def FEffectPack.IsValid (p : FEffectPack) : Bool := p.HasSFX || p.HasVFX

/-- Source enumeration `EEffectActivationType`. -/
inductive EEffectActivationType where
  | None
  | Instant
  | Active
deriving DecidableEq, Repr

/-- Source struct `FActiveEffectPackHandle`; the default constructor gives `(-1, None)`. -/
structure FActiveEffectPackHandle where
  Id : Int := -1
  ActivationType : EEffectActivationType := EEffectActivationType.None
deriving DecidableEq, Repr

/-- Source `FActiveEffectPackHandle::GetId`. -/
def FActiveEffectPackHandle.GetId (h : FActiveEffectPackHandle) : Int := h.Id

/-- Source `FActiveEffectPackHandle::GetPackType`. -/
def FActiveEffectPackHandle.GetPackType (h : FActiveEffectPackHandle) : EEffectActivationType :=
  h.ActivationType

/-- Source `FActiveEffectPackHandle::IsValid`. -/
def FActiveEffectPackHandle.IsValid (h : FActiveEffectPackHandle) : Bool := h.Id != -1

/-- Source template `FActiveEffect<T>`: a component pointer keyed by an access tag. -/
structure FActiveEffect (T : Type) where
  AccessTag : FGameplayTag
  Object : T
deriving DecidableEq, Repr

/-- A component pointer: `none` is `nullptr`, `some c` the spawned component `c`. -/
abbrev ComponentPtr := Option Nat

/-- Source struct `FActiveEffectPack`; the weak actor and component references are
kept as identities. -/
structure FActiveEffectPack where
  Id : Int := -1
  ActivationType : EEffectActivationType := EEffectActivationType.None
  SourceActor : Option Nat := none
  TargetActor : Option Nat := none
  AttachComponent : Option Nat := none
  ActiveFXSystemComponents : List (FActiveEffect ComponentPtr) := []
  ActiveSoundComponents : List (FActiveEffect ComponentPtr) := []
deriving DecidableEq, Repr

/-- Source `FActiveEffectPack::AddActiveVFX`. -/
def FActiveEffectPack.AddActiveVFX (p : FActiveEffectPack) (VFX : ComponentPtr)
    (AccessTag : FGameplayTag) : FActiveEffectPack :=
  { p with ActiveFXSystemComponents := p.ActiveFXSystemComponents ++ [⟨AccessTag, VFX⟩] }

/-- Source `FActiveEffectPack::AddActiveSound`. -/
def FActiveEffectPack.AddActiveSound (p : FActiveEffectPack) (Sound : ComponentPtr)
    (AccessTag : FGameplayTag) : FActiveEffectPack :=
  { p with ActiveSoundComponents := p.ActiveSoundComponents ++ [⟨AccessTag, Sound⟩] }

/-- Source `FActiveEffectPack::HasVFX`. -/
def FActiveEffectPack.HasVFX (p : FActiveEffectPack) : Bool :=
  decide (p.ActiveFXSystemComponents.length > 0)

/-- Source `FActiveEffectPack::HasSFX`. -/
def FActiveEffectPack.HasSFX (p : FActiveEffectPack) : Bool :=
  decide (p.ActiveSoundComponents.length > 0)

/-- Source `FActiveEffectPack::IsValid`. -/
def FActiveEffectPack.IsValid (p : FActiveEffectPack) : Bool := decide (p.Id > -1)

/-- Source `FActiveEffectPack::IsActive`. -/
def FActiveEffectPack.IsActive (p : FActiveEffectPack) : Bool :=
  p.IsValid && (p.HasSFX || p.HasVFX)

/-- Source `FActiveEffectPack::CreateHandle`. -/
def FActiveEffectPack.CreateHandle (p : FActiveEffectPack) : FActiveEffectPackHandle :=
  ⟨p.Id, p.ActivationType⟩

/-- Source `FActiveEffectPack::operator==` against a handle. -/
def FActiveEffectPack.eqHandle (p : FActiveEffectPack) (Other : FActiveEffectPackHandle) : Bool :=
  p.Id == Other.GetId

/-! ## The engine boundary -/

/-- An actor as the manager sees it: its identity and the tags it owns through the
gameplay tag interface (`none` when the actor does not implement the interface). -/
structure AActor where
  ActorId : Nat
  OwnedGameplayTags : Option FGameplayTagContainer := none

/-- A scene component as the manager sees it: its identity and its socket transforms. -/
structure USceneComponent where
  ComponentId : Nat
  GetSocketTransform : FName → FTransform

/-- The spawn calls the manager makes on the engine, with the arguments it passes.
The rotation recorded is the quaternion handed to the `FRotator` conversion. -/
inductive SpawnRequest where
  | EmitterAtLocation (WorldContext : Option Nat) (Asset : Nat) (Location : FVector)
      (Rotation : FQuat) (Scale : FVector)
  | SystemAtLocation (WorldContext : Option Nat) (Asset : Nat) (Location : FVector)
      (Rotation : FQuat) (Scale : FVector)
  | Sound2D (WorldContext : Option Nat) (Asset : Nat)
  | SoundAtLocation (WorldContext : Option Nat) (Asset : Nat) (Location : FVector)
      (Rotation : FQuat)
  | EmitterAttached (Asset : Nat) (AttachTo : Nat) (Socket : FName) (Location : FVector)
      (Rotation : FQuat) (Scale : FVector) (Rule : EAttachLocation)
  | SystemAttached (Asset : Nat) (AttachTo : Nat) (Socket : FName) (Location : FVector)
      (Rotation : FQuat) (Rule : EAttachLocation)
  | SoundAttached (Asset : Nat) (AttachTo : Nat) (Socket : FName) (Location : FVector)
      (Rotation : FQuat) (Rule : EAttachLocation)
deriving DecidableEq, Repr

/-- A deactivate call on a live component. -/
inductive DeactivateCall where
  | FXSystem (Component : Nat)
  | Audio (Component : Nat)
deriving DecidableEq, Repr

/-- The external renderer: the component (or `nullptr`) it answers to a spawn request,
which may depend on how many requests it has served before. -/
structure Renderer where
  Respond : Nat → SpawnRequest → ComponentPtr

/-- Everything the manager has asked of the engine so far, and the state of the
next-tick timer behind `InstantPackTimerHandle`. -/
structure EngineTrace where
  SpawnRequests : List SpawnRequest := []
  DeactivateCalls : List DeactivateCall := []
  TimerActive : Bool := false
  TimersSet : Nat := 0
deriving DecidableEq, Repr

/-- One spawn call on the engine: the request is recorded and the renderer answers. -/
def EngineTrace.Spawn (R : Renderer) (req : SpawnRequest) (e : EngineTrace) :
    ComponentPtr × EngineTrace :=
  (R.Respond e.SpawnRequests.length req, { e with SpawnRequests := e.SpawnRequests ++ [req] })

/-- One `Deactivate` call on a live component. -/
def EngineTrace.Deactivate (c : DeactivateCall) (e : EngineTrace) : EngineTrace :=
  { e with DeactivateCalls := e.DeactivateCalls ++ [c] }

/-- Source `FActiveEffectPack::DeactivateFXSystems`: every non-null component is
deactivated in list order, then the list is emptied. -/
def FActiveEffectPack.DeactivateFXSystems (p : FActiveEffectPack) (e : EngineTrace) :
    FActiveEffectPack × EngineTrace :=
  if p.ActiveFXSystemComponents.isEmpty then (p, e)
  else
    ({ p with ActiveFXSystemComponents := [] },
     p.ActiveFXSystemComponents.foldl
       (fun acc Effect =>
         match Effect.Object with
         | some c => acc.Deactivate (DeactivateCall.FXSystem c)
         | none => acc) e)

/-- Source `FActiveEffectPack::DeactivateSFXSystems`. -/
def FActiveEffectPack.DeactivateSFXSystems (p : FActiveEffectPack) (e : EngineTrace) :
    FActiveEffectPack × EngineTrace :=
  if p.ActiveSoundComponents.isEmpty then (p, e)
  else
    ({ p with ActiveSoundComponents := [] },
     p.ActiveSoundComponents.foldl
       (fun acc Effect =>
         match Effect.Object with
         | some c => acc.Deactivate (DeactivateCall.Audio c)
         | none => acc) e)

/-- Source `FActiveEffectPack::Invalidate`. -/
def FActiveEffectPack.Invalidate (p : FActiveEffectPack) (e : EngineTrace) :
    FActiveEffectPack × EngineTrace :=
  let r := p.DeactivateFXSystems e
  r.1.DeactivateSFXSystems r.2

/-! ## FXManagerSubsystem -/

/-- Source class `UFXManagerSubsystem`: the id counter and the two collections, together
with the trace of the engine the subsystem runs in. -/
structure UFXManagerSubsystem where
  Internal_NextId : Int := 0
  ActiveEffectPacks : List FActiveEffectPack := []
  InstantEffectPacks : List FActiveEffectPack := []
  Engine : EngineTrace := {}
deriving DecidableEq, Repr

/-- The subsystem as constructed: counter at zero, both collections empty. -/
def UFXManagerSubsystem.Initial : UFXManagerSubsystem := {}

/-- Source `UFXManagerSubsystem::AttachmentMap` read through `GetAttachLocationType`. -/
def GetAttachLocationType (Rule : EAttachmentRule) : EAttachLocation :=
  match Rule with
  | EAttachmentRule.SnapToTarget => EAttachLocation.SnapToTarget
  | EAttachmentRule.KeepRelative => EAttachLocation.KeepRelativeOffset
  | EAttachmentRule.KeepWorld => EAttachLocation.KeepWorldPosition

/-- Source `UFXManagerSubsystem::GetActorTags`: the owned tags of an actor that
implements the tag interface, the empty container otherwise (also for a null actor). -/
def GetActorTags (Actor : Option AActor) : FGameplayTagContainer :=
  match Actor with
  | some a =>
    match a.OwnedGameplayTags with
    | some c => c
    | none => FGameplayTagContainer.EmptyContainer
  | none => FGameplayTagContainer.EmptyContainer

/-- Source `UFXManagerSubsystem::GenerateNewActivePackId`: post-increment of the counter. -/
def UFXManagerSubsystem.GenerateNewActivePackId (s : UFXManagerSubsystem) :
    Int × UFXManagerSubsystem :=
  (s.Internal_NextId, { s with Internal_NextId := s.Internal_NextId + 1 })

/-- Source `UFXManagerSubsystem::SpawnVFXDataAtLocation`. -/
def SpawnVFXDataAtLocation (R : Renderer) (VFXData : FVFXData) (SourceActor : Option AActor)
    (Transform : FTransform)
    (e : EngineTrace) : ComponentPtr × EngineTrace :=
  match VFXData.ParticleSystem with
  | none => (none, e)
  | some Asset =>
    let Location := Transform.GetLocation.add VFXData.AttachmentData.RelativeTransform.GetLocation
    let Rotation := Transform.GetRotation.add VFXData.AttachmentData.RelativeTransform.GetRotation
    let Scale := Transform.GetScale3D.mul VFXData.AttachmentData.RelativeTransform.GetScale3D
    match Asset.AssetClass with
    | EFXAssetClass.Cascade =>
      e.Spawn R (SpawnRequest.EmitterAtLocation (SourceActor.map AActor.ActorId) Asset.AssetId
        Location Rotation Scale)
    | EFXAssetClass.Niagara =>
      e.Spawn R (SpawnRequest.SystemAtLocation (SourceActor.map AActor.ActorId) Asset.AssetId
        Location Rotation Scale)
    | EFXAssetClass.Other => (none, e)

/-- Source `UFXManagerSubsystem::SpawnSFXDataAtLocation`. -/
def SpawnSFXDataAtLocation (R : Renderer) (SFXData : FSFXData) (SourceActor : Option AActor)
    (Transform : FTransform)
    (e : EngineTrace) : ComponentPtr × EngineTrace :=
  match SFXData.Sound with
  | none => (none, e)
  | some Asset =>
    match SFXData.AudioType with
    | EAudioType.TwoDimensional =>
      e.Spawn R (SpawnRequest.Sound2D (SourceActor.map AActor.ActorId) Asset)
    | EAudioType.ThreeDimensional =>
      let Location := Transform.GetLocation.add SFXData.AttachmentData.RelativeTransform.GetLocation
      let Rotation := Transform.GetRotation.add SFXData.AttachmentData.RelativeTransform.GetRotation
      e.Spawn R (SpawnRequest.SoundAtLocation (SourceActor.map AActor.ActorId) Asset
        Location Rotation)

/-- Source `UFXManagerSubsystem::SpawnVFXDataAtComponent`. -/
def SpawnVFXDataAtComponent (R : Renderer) (VFXData : FVFXData) (SourceActor : Option AActor)
    (AttachComponent : USceneComponent)
    (e : EngineTrace) : ComponentPtr × EngineTrace :=
  match VFXData.ParticleSystem with
  | none => (none, e)
  | some Asset =>
    if VFXData.AttachmentData.AttachType = EAttachType.AtSocketLocation then
      SpawnVFXDataAtLocation R VFXData SourceActor
        (AttachComponent.GetSocketTransform VFXData.AttachmentData.SocketName) e
    else
      let RelativeTransform := VFXData.GetRelativeTransform
      let AttachRule := GetAttachLocationType VFXData.AttachmentData.AttachmentRule
      match Asset.AssetClass with
      | EFXAssetClass.Cascade =>
        e.Spawn R (SpawnRequest.EmitterAttached Asset.AssetId AttachComponent.ComponentId
          VFXData.AttachmentData.SocketName RelativeTransform.GetLocation
          RelativeTransform.GetRotation RelativeTransform.GetScale3D AttachRule)
      | EFXAssetClass.Niagara =>
        e.Spawn R (SpawnRequest.SystemAttached Asset.AssetId AttachComponent.ComponentId
          VFXData.AttachmentData.SocketName RelativeTransform.GetLocation
          RelativeTransform.GetRotation AttachRule)
      | EFXAssetClass.Other => (none, e)

/-- Source `UFXManagerSubsystem::SpawnSFXDataAtComponent`. -/
def SpawnSFXDataAtComponent (R : Renderer) (SFXData : FSFXData) (SourceActor : Option AActor)
    (AttachComponent : USceneComponent)
    (e : EngineTrace) : ComponentPtr × EngineTrace :=
  match SFXData.Sound with
  | none => (none, e)
  | some Asset =>
    if SFXData.AttachmentData.AttachType = EAttachType.AtSocketLocation
        ∨ SFXData.AudioType = EAudioType.TwoDimensional then
      SpawnSFXDataAtLocation R SFXData SourceActor
        (AttachComponent.GetSocketTransform SFXData.AttachmentData.SocketName) e
    else
      let RelativeTransform := SFXData.GetRelativeTransform
      let AttachRule := GetAttachLocationType SFXData.AttachmentData.AttachmentRule
      e.Spawn R (SpawnRequest.SoundAttached Asset AttachComponent.ComponentId
        SFXData.AttachmentData.SocketName RelativeTransform.GetLocation
        RelativeTransform.GetRotation AttachRule)

/-- The range-for loops of the two activation entry points: for each descriptor in pack
order, skip it when its gate fails, otherwise spawn it and add whatever the spawn
returned to the pack under the access tag of the descriptor. -/
def ForEachEffect {D : Type} (CanPlay : D → Bool)
    (Spawn : D → EngineTrace → ComponentPtr × EngineTrace)
    (Add : FActiveEffectPack → ComponentPtr → D → FActiveEffectPack) :
    List D → FActiveEffectPack → EngineTrace → FActiveEffectPack × EngineTrace
  | [], ActivePack, e => (ActivePack, e)
  | Data :: rest, ActivePack, e =>
    if !CanPlay Data then ForEachEffect CanPlay Spawn Add rest ActivePack e
    else
      let r := Spawn Data e
      ForEachEffect CanPlay Spawn Add rest (Add ActivePack r.1 Data) r.2

/-- Source `UFXManagerSubsystem::AddInstantPack`: the pack joins the Instant collection
and the next-tick timer is set unless it is already active. -/
def UFXManagerSubsystem.AddInstantPack (s : UFXManagerSubsystem) (ActivePack : FActiveEffectPack) :
    UFXManagerSubsystem :=
  let s1 := { s with InstantEffectPacks := s.InstantEffectPacks ++ [ActivePack] }
  if !s1.Engine.TimerActive then
    { s1 with
      Engine := { s1.Engine with TimerActive := true, TimersSet := s1.Engine.TimersSet + 1 } }
  else s1

/-- Source `UFXManagerSubsystem::ClearInstantPacks`. -/
def UFXManagerSubsystem.ClearInstantPacks (s : UFXManagerSubsystem) : UFXManagerSubsystem :=
  { s with InstantEffectPacks := [] }

/-- The engine reaching the next tick: an active timer fires once, running
`ClearInstantPacks`, and is no longer active. -/
def UFXManagerSubsystem.NextTick (s : UFXManagerSubsystem) : UFXManagerSubsystem :=
  if s.Engine.TimerActive then
    let s1 := s.ClearInstantPacks
    { s1 with Engine := { s1.Engine with TimerActive := false } }
  else s

/-- The common tail of both activation entry points, after the two loops. -/
def UFXManagerSubsystem.Register (s : UFXManagerSubsystem) (ActivePack : FActiveEffectPack)
    (ActivationType : EEffectActivationType) : FActiveEffectPackHandle × UFXManagerSubsystem :=
  if !ActivePack.IsActive then (({} : FActiveEffectPackHandle), s)
  else
    (ActivePack.CreateHandle,
     if ActivationType = EEffectActivationType.Active then
       { s with ActiveEffectPacks := s.ActiveEffectPacks ++ [ActivePack] }
     else s.AddInstantPack ActivePack)

/-- Source `UFXManagerSubsystem::PlayEffectAtLocation`. -/
def UFXManagerSubsystem.PlayEffectAtLocation (R : Renderer) (s : UFXManagerSubsystem)
    (SourceActor TargetActor : Option AActor) (EffectPack : FEffectPack)
    (ActivationType : EEffectActivationType) (Transform : FTransform) :
    FActiveEffectPackHandle × UFXManagerSubsystem :=
  if !EffectPack.IsValid then (({} : FActiveEffectPackHandle), s)
  else if SourceActor.isNone then (({} : FActiveEffectPackHandle), s)
  else
    let g := s.GenerateNewActivePackId
    let ActivePack : FActiveEffectPack :=
      { Id := g.1, ActivationType := ActivationType,
        SourceActor := SourceActor.map AActor.ActorId,
        TargetActor := TargetActor.map AActor.ActorId, AttachComponent := none }
    let SourceTags := GetActorTags SourceActor
    let TargetTags := GetActorTags TargetActor
    let v := ForEachEffect (fun (d : FVFXData) => d.CanPlay SourceTags TargetTags)
      (fun d e => SpawnVFXDataAtLocation R d SourceActor Transform e)
      (fun p c d => p.AddActiveVFX c d.AccessTag) EffectPack.VFXData ActivePack g.2.Engine
    let a := ForEachEffect (fun (d : FSFXData) => d.CanPlay SourceTags TargetTags)
      (fun d e => SpawnSFXDataAtLocation R d SourceActor Transform e)
      (fun p c d => p.AddActiveSound c d.AccessTag) EffectPack.SFXData v.1 v.2
    UFXManagerSubsystem.Register { g.2 with Engine := a.2 } a.1 ActivationType

/-- Source `UFXManagerSubsystem::PlayEffectAttached`. -/
def UFXManagerSubsystem.PlayEffectAttached (R : Renderer) (s : UFXManagerSubsystem)
    (SourceActor TargetActor : Option AActor) (AttachComponent : Option USceneComponent)
    (EffectPack : FEffectPack) (ActivationType : EEffectActivationType) :
    FActiveEffectPackHandle × UFXManagerSubsystem :=
  if !EffectPack.IsValid then (({} : FActiveEffectPackHandle), s)
  else
    match SourceActor, AttachComponent with
    | none, _ => (({} : FActiveEffectPackHandle), s)
    | some _, none => (({} : FActiveEffectPackHandle), s)
    | some _, some Attach =>
      let g := s.GenerateNewActivePackId
      let ActivePack : FActiveEffectPack :=
        { Id := g.1, ActivationType := ActivationType,
          SourceActor := SourceActor.map AActor.ActorId,
          TargetActor := TargetActor.map AActor.ActorId,
          AttachComponent := some Attach.ComponentId }
      let SourceTags := GetActorTags SourceActor
      let TargetTags := GetActorTags TargetActor
      let v := ForEachEffect (fun (d : FVFXData) => d.CanPlay SourceTags TargetTags)
        (fun d e => SpawnVFXDataAtComponent R d SourceActor Attach e)
        (fun p c d => p.AddActiveVFX c d.AccessTag) EffectPack.VFXData ActivePack g.2.Engine
      let a := ForEachEffect (fun (d : FSFXData) => d.CanPlay SourceTags TargetTags)
        (fun d e => SpawnSFXDataAtComponent R d SourceActor Attach e)
        (fun p c d => p.AddActiveSound c d.AccessTag) EffectPack.SFXData v.1 v.2
      UFXManagerSubsystem.Register { g.2 with Engine := a.2 } a.1 ActivationType

/-- Engine `TIndexedContainerIterator::operator bool`: the index is a valid index. -/
def IteratorValid (Packs : List FActiveEffectPack) (Index : Int) : Bool :=
  decide (0 ≤ Index) && decide (Index < Packs.length)

/-- Engine `TIndexedContainerIterator::RemoveCurrent`: `RemoveAt(Index)` followed by
`Index--`. -/
def RemoveCurrent (Packs : List FActiveEffectPack) (Index : Int) : List FActiveEffectPack × Int :=
  (Packs.eraseIdx Index.toNat, Index - 1)

/-- The iterator loop of `StopActivePack`, started at a given index. The first argument
bounds the number of iterations. -/
def StopActivePackLoop (HandleId : Int) :
    Nat → List FActiveEffectPack → Int → EngineTrace → List FActiveEffectPack × EngineTrace
  | 0, Packs, _, e => (Packs, e)
  | fuel + 1, Packs, Index, e =>
    if IteratorValid Packs Index then
      match Packs.get? Index.toNat with
      | none => (Packs, e)
      | some Pack =>
        if Pack.Id = HandleId then
          let r := Pack.Invalidate e
          ((RemoveCurrent (Packs.set Index.toNat r.1) Index).1, r.2)
        else StopActivePackLoop HandleId fuel Packs (Index + 1) e
    else (Packs, e)

/-- Source `UFXManagerSubsystem::StopActivePack`. -/
def UFXManagerSubsystem.StopActivePack (s : UFXManagerSubsystem)
    (Handle : FActiveEffectPackHandle) : UFXManagerSubsystem :=
  let r := StopActivePackLoop Handle.GetId (s.ActiveEffectPacks.length + 1)
    s.ActiveEffectPacks 0 s.Engine
  { s with ActiveEffectPacks := r.1, Engine := r.2 }

/-- The first loop of `StopActivePacks`: the set of the ids of the handles
(`TSet<int>::Add` keeps one copy of each id). -/
def CollectPackIds (Handles : List FActiveEffectPackHandle) : List Int :=
  Handles.foldl (fun PackIdsToRemove Handle => List.insert Handle.GetId PackIdsToRemove) []

/-- The second loop of `StopActivePacks`, started at a given index: a pack whose id is in
the set is invalidated and removed through the iterator, which steps its index back
before the loop increment. The first argument bounds the number of iterations. -/
def StopActivePacksLoop (PackIdsToRemove : List Int) :
    Nat → List FActiveEffectPack → Int → EngineTrace → List FActiveEffectPack × EngineTrace
  | 0, Packs, _, e => (Packs, e)
  | fuel + 1, Packs, Index, e =>
    if IteratorValid Packs Index then
      match Packs.get? Index.toNat with
      | none => (Packs, e)
      | some Pack =>
        if PackIdsToRemove.contains Pack.Id then
          let r := Pack.Invalidate e
          let it := RemoveCurrent (Packs.set Index.toNat r.1) Index
          StopActivePacksLoop PackIdsToRemove fuel it.1 (it.2 + 1) r.2
        else StopActivePacksLoop PackIdsToRemove fuel Packs (Index + 1) e
    else (Packs, e)

/-- Source `UFXManagerSubsystem::StopActivePacks`. -/
def UFXManagerSubsystem.StopActivePacks (s : UFXManagerSubsystem)
    (Handles : List FActiveEffectPackHandle) : UFXManagerSubsystem :=
  let r := StopActivePacksLoop (CollectPackIds Handles) (s.ActiveEffectPacks.length + 1)
    s.ActiveEffectPacks 0 s.Engine
  { s with ActiveEffectPacks := r.1, Engine := r.2 }

/-- What the reference returned by `GetActivePack` refers to: a pack stored in one of the
collections, or the local `TempPack` of the function, which is destroyed when the
function returns. -/
inductive PackReference where
  | Stored (Pack : FActiveEffectPack)
  | DestroyedLocal
deriving DecidableEq, Repr

/-- What a lookup hands back: a component pointer, or nothing defined when the lookup
reads a pack through a reference to a destroyed local, which is undefined behaviour. -/
inductive LookupResult where
  | Returns (Component : ComponentPtr)
  | Undefined
deriving DecidableEq, Repr

/-- Source `UFXManagerSubsystem::GetActivePack`: a reference to the first pack with the id
of the handle in the collection chosen by the kind of the handle. For an invalid handle,
and when no pack of that collection has the id, the source returns a reference to its
local `TempPack`. -/
def UFXManagerSubsystem.GetActivePack (s : UFXManagerSubsystem)
    (Handle : FActiveEffectPackHandle) : PackReference :=
  if !Handle.IsValid then PackReference.DestroyedLocal
  else
    let Array :=
      if Handle.GetPackType = EEffectActivationType.Active then s.ActiveEffectPacks
      else s.InstantEffectPacks
    match Array.find? (fun Pack => Pack.Id == Handle.GetId) with
    | some Pack => PackReference.Stored Pack
    | none => PackReference.DestroyedLocal

/-- Source `UFXManagerSubsystem::Internal_GetVfxSystemComponent`. The call `Pack.IsValid()`
reads the pack behind the reference `GetActivePack` returned: when that is the destroyed
local, the read and so the result are undefined. No path writes a member of the
subsystem. -/
def UFXManagerSubsystem.Internal_GetVfxSystemComponent (s : UFXManagerSubsystem)
    (Handle : FActiveEffectPackHandle) (Pred : FActiveEffect ComponentPtr → Bool) :
    LookupResult × UFXManagerSubsystem :=
  match s.GetActivePack Handle with
  | PackReference.DestroyedLocal => (LookupResult.Undefined, s)
  | PackReference.Stored Pack =>
    if !Pack.IsValid then (LookupResult.Returns none, s)
    else
      match Pack.ActiveFXSystemComponents.find? Pred with
      | some FoundValue => (LookupResult.Returns FoundValue.Object, s)
      | none => (LookupResult.Returns none, s)

/-- Source `UFXManagerSubsystem::Internal_FindSfxSystemComponent`, with the same read
through the reference `GetActivePack` returned. -/
def UFXManagerSubsystem.Internal_FindSfxSystemComponent (s : UFXManagerSubsystem)
    (Handle : FActiveEffectPackHandle) (Pred : FActiveEffect ComponentPtr → Bool) :
    LookupResult × UFXManagerSubsystem :=
  match s.GetActivePack Handle with
  | PackReference.DestroyedLocal => (LookupResult.Undefined, s)
  | PackReference.Stored Pack =>
    if !Pack.IsValid then (LookupResult.Returns none, s)
    else
      match Pack.ActiveSoundComponents.find? Pred with
      | some FoundValue => (LookupResult.Returns FoundValue.Object, s)
      | none => (LookupResult.Returns none, s)

/-- Source `UFXManagerSubsystem::GetVfxSystemComponentByTag`. -/
def UFXManagerSubsystem.GetVfxSystemComponentByTag (s : UFXManagerSubsystem)
    (Handle : FActiveEffectPackHandle) (Tag : FGameplayTag) : LookupResult × UFXManagerSubsystem :=
  s.Internal_GetVfxSystemComponent Handle (fun ActiveEffect => ActiveEffect.AccessTag == Tag)

/-- Source `UFXManagerSubsystem::GetSfxSystemComponentByTag`. -/
def UFXManagerSubsystem.GetSfxSystemComponentByTag (s : UFXManagerSubsystem)
    (Handle : FActiveEffectPackHandle) (Tag : FGameplayTag) : LookupResult × UFXManagerSubsystem :=
  s.Internal_FindSfxSystemComponent Handle (fun ActiveEffect => ActiveEffect.AccessTag == Tag)

/-! ## Runs of the subsystem -/

/-- One public operation of the subsystem, or the engine reaching the next tick. -/
inductive Step : UFXManagerSubsystem → UFXManagerSubsystem → Prop where
  | playAtLocation (R : Renderer) (s : UFXManagerSubsystem) (SourceActor TargetActor : Option AActor)
      (EffectPack : FEffectPack) (ActivationType : EEffectActivationType) (Transform : FTransform) :
      Step s (s.PlayEffectAtLocation R SourceActor TargetActor EffectPack ActivationType Transform).2
  | playAttached (R : Renderer) (s : UFXManagerSubsystem) (SourceActor TargetActor : Option AActor)
      (AttachComponent : Option USceneComponent) (EffectPack : FEffectPack)
      (ActivationType : EEffectActivationType) :
      Step s (s.PlayEffectAttached R SourceActor TargetActor AttachComponent EffectPack
        ActivationType).2
  | stopActivePack (s : UFXManagerSubsystem) (Handle : FActiveEffectPackHandle) :
      Step s (s.StopActivePack Handle)
  | stopActivePacks (s : UFXManagerSubsystem) (Handles : List FActiveEffectPackHandle) :
      Step s (s.StopActivePacks Handles)
  | getVfx (s : UFXManagerSubsystem) (Handle : FActiveEffectPackHandle) (Tag : FGameplayTag) :
      Step s (s.GetVfxSystemComponentByTag Handle Tag).2
  | getSfx (s : UFXManagerSubsystem) (Handle : FActiveEffectPackHandle) (Tag : FGameplayTag) :
      Step s (s.GetSfxSystemComponentByTag Handle Tag).2
  | nextTick (s : UFXManagerSubsystem) : Step s s.NextTick

/-- The states a run can be in: the initial state and whatever a step leads to. -/
inductive Reachable : UFXManagerSubsystem → Prop where
  | initial : Reachable UFXManagerSubsystem.Initial
  | step {s t : UFXManagerSubsystem} : Reachable s → Step s t → Reachable t

/-- A finite run from one state to another. -/
inductive Steps : UFXManagerSubsystem → UFXManagerSubsystem → Prop where
  | refl (s : UFXManagerSubsystem) : Steps s s
  | tail {s t u : UFXManagerSubsystem} : Steps s t → Step t u → Steps s u

/-! ## Notions used by the statements -/

/-- The deactivate calls `Invalidate` issues for a pack: one for each non-null visual
component in list order, then one for each non-null audio component in list order. -/
def FActiveEffectPack.LiveCalls (p : FActiveEffectPack) : List DeactivateCall :=
  p.ActiveFXSystemComponents.filterMap (fun a => a.Object.map DeactivateCall.FXSystem)
    ++ p.ActiveSoundComponents.filterMap (fun a => a.Object.map DeactivateCall.Audio)

/-- The trace after a further sequence of deactivate calls. -/
def EngineTrace.withCalls (e : EngineTrace) (cs : List DeactivateCall) : EngineTrace :=
  { e with DeactivateCalls := e.DeactivateCalls ++ cs }

/-- The pack an activation has assembled when it reaches its registration step. -/
structure Assembled (s : UFXManagerSubsystem) (EffectPack : FEffectPack)
    (SourceActor TargetActor : Option AActor) (ActivationType : EEffectActivationType)
    (pk : FActiveEffectPack) : Prop where
  id_eq : pk.Id = s.Internal_NextId
  kind_eq : pk.ActivationType = ActivationType
  vfx_tags : pk.ActiveFXSystemComponents.map (fun a => a.AccessTag)
    = (EffectPack.VFXData.filter
        (fun d => d.CanPlay (GetActorTags SourceActor) (GetActorTags TargetActor))).map
        (fun d => d.AccessTag)
  sfx_tags : pk.ActiveSoundComponents.map (fun a => a.AccessTag)
    = (EffectPack.SFXData.filter
        (fun d => d.CanPlay (GetActorTags SourceActor) (GetActorTags TargetActor))).map
        (fun d => d.AccessTag)

/-- A call of one of the two activation entry points, with its arguments. -/
inductive Activation where
  | AtLocation (SourceActor TargetActor : Option AActor) (EffectPack : FEffectPack)
      (ActivationType : EEffectActivationType) (Transform : FTransform)
  | Attached (SourceActor TargetActor : Option AActor) (AttachComponent : Option USceneComponent)
      (EffectPack : FEffectPack) (ActivationType : EEffectActivationType)

/-- The source actor argument of an activation. -/
def Activation.SourceActor : Activation → Option AActor
  | .AtLocation src _ _ _ _ => src
  | .Attached src _ _ _ _ => src

/-- The target actor argument of an activation. -/
def Activation.TargetActor : Activation → Option AActor
  | .AtLocation _ tgt _ _ _ => tgt
  | .Attached _ tgt _ _ _ => tgt

/-- The effect pack argument of an activation. -/
def Activation.EffectPack : Activation → FEffectPack
  | .AtLocation _ _ pack _ _ => pack
  | .Attached _ _ _ pack _ => pack

/-- The activation kind argument of an activation. -/
def Activation.ActivationType : Activation → EEffectActivationType
  | .AtLocation _ _ _ kind _ => kind
  | .Attached _ _ _ _ kind => kind

/-- An activation fails an input check: the pack has no visual and no audio descriptor,
or the source is null, or, for the attached variant, the attach point is null. -/
def Activation.FailsInputCheck : Activation → Bool
  | .AtLocation src _ pack _ _ =>
    (pack.VFXData.isEmpty && pack.SFXData.isEmpty) || src.isNone
  | .Attached src _ attach pack _ =>
    (pack.VFXData.isEmpty && pack.SFXData.isEmpty) || src.isNone || attach.isNone

/-- The gate of a descriptor evaluated against the tag snapshot of an activation. -/
def Activation.GatePasses (a : Activation) (d : FFXData) : Bool :=
  d.CanPlay (GetActorTags a.SourceActor) (GetActorTags a.TargetActor)

/-- Running an activation on the subsystem. -/
def Activation.Play (R : Renderer) (s : UFXManagerSubsystem) :
    Activation → FActiveEffectPackHandle × UFXManagerSubsystem
  | .AtLocation src tgt pack kind tr => s.PlayEffectAtLocation R src tgt pack kind tr
  | .Attached src tgt attach pack kind => s.PlayEffectAttached R src tgt attach pack kind

/-- The bookkeeping invariant of the subsystem: the counter is non-negative, every stored
id lies below it, stored ids are pairwise distinct, and each collection holds the kinds
the registration step sends to it. -/
structure WellFormed (s : UFXManagerSubsystem) : Prop where
  nonneg : 0 ≤ s.Internal_NextId
  bound : ∀ p ∈ s.ActiveEffectPacks ++ s.InstantEffectPacks,
    0 ≤ p.Id ∧ p.Id < s.Internal_NextId
  nodup : ((s.ActiveEffectPacks ++ s.InstantEffectPacks).map (fun p => p.Id)).Nodup
  activeKind : ∀ p ∈ s.ActiveEffectPacks, p.ActivationType = EEffectActivationType.Active
  instantKind : ∀ p ∈ s.InstantEffectPacks, p.ActivationType ≠ EEffectActivationType.Active

/-- The tag predicate in the words of the specification: a non-empty required set must be
contained in the owned tags, a non-empty blocking set must be disjoint from them. -/
def SpecMeets (owned required blocking : FGameplayTagContainer) : Bool :=
  (required.IsEmpty || owned.HasAllExact required)
    && (blocking.IsEmpty || !owned.HasAnyExact blocking)

/-- The descriptor gate in the words of the specification: the source-side and the
target-side check, each on its own sets. -/
def SpecCanPlay (g : FTagRequirements) (sourceOwned targetOwned : FGameplayTagContainer) : Bool :=
  SpecMeets sourceOwned g.SourceRequiredTags g.SourceBlockingTags
    && SpecMeets targetOwned g.TargetRequiredTags g.TargetBlockingTags

/-- A renderer that answers every request with the component numbered after the request. -/
def CountingRenderer : Renderer := ⟨fun n _ => some (100 + n)⟩

/-- An actor that owns no tags. -/
def PlainActor : AActor := { ActorId := 1 }

/-- A visual descriptor with access tag 7, an empty gate and no asset. -/
def UnsetVisual : FVFXData := { AccessTag := 7 }

/-- A visual descriptor with access tag 7, an empty gate and a Cascade asset. -/
def CascadeVisual : FVFXData :=
  { AccessTag := 7, ParticleSystem := some ⟨3, EFXAssetClass.Cascade⟩ }

/-- A descriptor gate that only requires tag 1 on the target. -/
def TargetOnlyGate : FTagRequirements := { TargetRequiredTags := ⟨[1]⟩ }

/-! ## Concrete inputs -/

/-- A visual descriptor with access tag 7 and a Cascade asset, gated on the source owning tag 1. -/
def GatedVisual : FVFXData :=
  { AccessTag := 7, TagRequirements := { SourceRequiredTags := ⟨[1]⟩ },
    ParticleSystem := some ⟨3, EFXAssetClass.Cascade⟩ }

/-- The state after one activation of kind `None` from the initial state. -/
def AfterNoneActivation : UFXManagerSubsystem :=
  (UFXManagerSubsystem.Initial.PlayEffectAtLocation CountingRenderer (some PlainActor) none
    { VFXData := [CascadeVisual] } EEffectActivationType.None FTransform.Identity).2

/-- An Active pack with id 0 holding a live visual, a null visual entry and a live sound. -/
def FirstPack : FActiveEffectPack :=
  { Id := 0, ActivationType := EEffectActivationType.Active, SourceActor := some 1,
    ActiveFXSystemComponents := [⟨7, some 100⟩, ⟨8, none⟩],
    ActiveSoundComponents := [⟨9, some 101⟩] }

/-- An Active pack with id 1 holding one live visual. -/
def SecondPack : FActiveEffectPack :=
  { Id := 1, ActivationType := EEffectActivationType.Active, SourceActor := some 1,
    ActiveFXSystemComponents := [⟨7, some 102⟩] }

/-- A state with the two example packs in its Active collection. -/
def TwoActivePacks : UFXManagerSubsystem :=
  { Internal_NextId := 2, ActiveEffectPacks := [FirstPack, SecondPack] }

/-- An activation that passes the input checks and whose only descriptor is gated on a
tag the source does not own. -/
def GatedActivation : Activation :=
  Activation.AtLocation (some PlainActor) none { VFXData := [GatedVisual] }
    EEffectActivationType.Active FTransform.Identity

/-- An activation of an empty pack. -/
def EmptyPackActivation : Activation :=
  Activation.AtLocation (some PlainActor) none {} EEffectActivationType.Active
    FTransform.Identity

/-! ## Notions used by the statements on timers, lookups and placement -/

/-- Going from one engine trace to another by spawn requests only: no deactivate call,
no change of the timer. -/
structure OnlySpawns (e t : EngineTrace) : Prop where
  calls : t.DeactivateCalls = e.DeactivateCalls
  timer : t.TimerActive = e.TimerActive
  timers : t.TimersSet = e.TimersSet
  requests : ∃ reqs, t.SpawnRequests = e.SpawnRequests ++ reqs

/-- Running a sequence of activations one after the other with nothing in between: the
handles returned, in order, and the final state. -/
def PlaySequence :
    List (Renderer × Activation) → UFXManagerSubsystem →
      List FActiveEffectPackHandle × UFXManagerSubsystem
  | [], s => ([], s)
  | x :: rest, s =>
    let r := x.2.Play x.1 s
    let q := PlaySequence rest r.2
    (r.1 :: q.1, q.2)

/-- A spawn request that establishes an attachment to a component. -/
def SpawnRequest.IsAttached : SpawnRequest → Bool
  | .EmitterAtLocation _ _ _ _ _ => false
  | .SystemAtLocation _ _ _ _ _ => false
  | .Sound2D _ _ => false
  | .SoundAtLocation _ _ _ _ => false
  | .EmitterAttached _ _ _ _ _ _ _ => true
  | .SystemAttached _ _ _ _ _ _ => true
  | .SoundAttached _ _ _ _ _ _ => true

/-- The rotation in the words of the specification: the placement rotation composed with
the relative rotation of the descriptor. -/
def SpecRotation (placement relative : FQuat) : FQuat := placement.mul relative

/-- An activation of kind Instant of the Cascade descriptor. -/
def InstantActivation : Activation :=
  Activation.AtLocation (some PlainActor) none { VFXData := [CascadeVisual] }
    EEffectActivationType.Instant FTransform.Identity

/-- A placement turned by half a turn about the vertical axis, at the origin. -/
def HalfTurnPlacement : FTransform := ⟨⟨0, 0, 1, 0⟩, ⟨0, 0, 0⟩, ⟨1, 1, 1⟩⟩

/-- A placement at location (10, 20, 30) with scale (2, 3, 4). -/
def OffsetPlacement : FTransform := ⟨FQuat.Identity, ⟨10, 20, 30⟩, ⟨2, 3, 4⟩⟩

/-- A Cascade descriptor with relative location (1, 2, 3) and relative scale (5, 6, 7). -/
def OffsetVisual : FVFXData :=
  { AccessTag := 7,
    AttachmentData := { RelativeTransform := ⟨FQuat.Identity, ⟨1, 2, 3⟩, ⟨5, 6, 7⟩⟩ },
    ParticleSystem := some ⟨3, EFXAssetClass.Cascade⟩ }

/-- A three-dimensional sound descriptor with access tag 9 and the default attachment. -/
def SpatialSound : FSFXData :=
  { AccessTag := 9, Sound := some 4, AudioType := EAudioType.ThreeDimensional }

/-- A scene component whose every socket sits at the offset placement. -/
def SocketComponent : USceneComponent :=
  { ComponentId := 5, GetSocketTransform := fun _ => OffsetPlacement }

/-- A state holding the first example pack as Active and the second as Instant. -/
def MixedPacks : UFXManagerSubsystem :=
  { Internal_NextId := 2, ActiveEffectPacks := [FirstPack],
    InstantEffectPacks := [{ SecondPack with ActivationType := EEffectActivationType.Instant }] }

/-- A state whose only Active pack holds two live visuals under the same access tag. -/
def RepeatedTagPacks : UFXManagerSubsystem :=
  { Internal_NextId := 1,
    ActiveEffectPacks :=
      [{ Id := 0, ActivationType := EEffectActivationType.Active, SourceActor := some 1,
         ActiveFXSystemComponents := [⟨7, some 100⟩, ⟨7, some 200⟩] }] }

/-! ## Notions used by the statements on gating, batch stops and the counter -/

/-- Spawning the descriptors of a list one after the other, in list order: for each the
entry made of its access tag and of what its spawn returned, and the trace at the end. -/
def SpawnEach {D : Type} (tag : D → FGameplayTag)
    (Spawn : D → EngineTrace → ComponentPtr × EngineTrace) :
    List D → EngineTrace → List (FActiveEffect ComponentPtr) × EngineTrace
  | [], e => ([], e)
  | d :: rest, e =>
    let r := Spawn d e
    let q := SpawnEach tag Spawn rest r.2
    (⟨tag d, r.1⟩ :: q.1, q.2)

/-- The identity of the attach component an activation records in its pack. -/
def Activation.AttachId : Activation → Option Nat
  | .AtLocation _ _ _ _ _ => none
  | .Attached _ _ attach _ _ => attach.map USceneComponent.ComponentId

/-- The visual spawn function an activation uses: at-location for the at-location entry
point, at-component for the attached one. -/
def Activation.SpawnVisual (R : Renderer) :
    Activation → FVFXData → EngineTrace → ComponentPtr × EngineTrace
  | .AtLocation src _ _ _ tr, d, e => SpawnVFXDataAtLocation R d src tr e
  | .Attached src _ (some c) _ _, d, e => SpawnVFXDataAtComponent R d src c e
  | .Attached _ _ none _ _, _, e => (none, e)

/-- The audio spawn function an activation uses. -/
def Activation.SpawnAudio (R : Renderer) :
    Activation → FSFXData → EngineTrace → ComponentPtr × EngineTrace
  | .AtLocation src _ _ _ tr, d, e => SpawnSFXDataAtLocation R d src tr e
  | .Attached src _ (some c) _ _, d, e => SpawnSFXDataAtComponent R d src c e
  | .Attached _ _ none _ _, _, e => (none, e)

/-- The visual entries of an activation: the visual descriptors that pass their gate,
and only those, spawned in pack order from the trace of the state. -/
def Activation.SpawnedVisuals (R : Renderer) (s : UFXManagerSubsystem) (a : Activation) :
    List (FActiveEffect ComponentPtr) × EngineTrace :=
  SpawnEach (fun d => d.AccessTag) (a.SpawnVisual R)
    (a.EffectPack.VFXData.filter (fun d => a.GatePasses d.toFFXData)) s.Engine

/-- The audio entries of an activation: the audio descriptors that pass their gate, and
only those, spawned in pack order after the visual ones. -/
def Activation.SpawnedAudio (R : Renderer) (s : UFXManagerSubsystem) (a : Activation) :
    List (FActiveEffect ComponentPtr) × EngineTrace :=
  SpawnEach (fun d => d.AccessTag) (a.SpawnAudio R)
    (a.EffectPack.SFXData.filter (fun d => a.GatePasses d.toFFXData))
    (a.SpawnedVisuals R s).2

/-- Calling `StopActivePack` on each handle of a list in turn. -/
def UFXManagerSubsystem.StopEach (s : UFXManagerSubsystem) :
    List FActiveEffectPackHandle → UFXManagerSubsystem
  | [] => s
  | Handle :: rest => (s.StopActivePack Handle).StopEach rest

/-- The access tag "hit" of the scenario. -/
def HitTag : FGameplayTag := 10

/-- The access tag "sound" of the scenario. -/
def SoundTag : FGameplayTag := 11

/-- The tag "burning" of the scenario. -/
def BurningTag : FGameplayTag := 12

/-- The visual of the scenario: access tag "hit", no gate, a Cascade asset. -/
def HitVisual : FVFXData :=
  { AccessTag := HitTag, ParticleSystem := some ⟨3, EFXAssetClass.Cascade⟩ }

/-- The audio of the scenario: access tag "sound", gated on the source owning "burning". -/
def BurningSound : FSFXData :=
  { AccessTag := SoundTag, TagRequirements := { SourceRequiredTags := ⟨[BurningTag]⟩ },
    Sound := some 4 }

/-- A source actor that owns tag 13 and lacks "burning". -/
def DampActor : AActor := { ActorId := 2, OwnedGameplayTags := some ⟨[13]⟩ }

/-- The activation of the scenario: the two-descriptor pack at the origin, kind Instant. -/
def ScenarioActivation : Activation :=
  Activation.AtLocation (some DampActor) none
    { VFXData := [HitVisual], SFXData := [BurningSound] }
    EEffectActivationType.Instant FTransform.Identity

/-- A gate with empty source sets and non-empty target sets. -/
def TargetSetsGate : FTagRequirements :=
  { TargetRequiredTags := ⟨[1]⟩, TargetBlockingTags := ⟨[2]⟩ }

/-! ## Lemmas on the loops, the activation and the invariant -/

theorem foldl_deactivate (mk : Nat → DeactivateCall) (l : List (FActiveEffect ComponentPtr))
    (e : EngineTrace) :
    l.foldl (fun acc Effect =>
         match Effect.Object with
         | some c => acc.Deactivate (mk c)
         | none => acc) e
      = e.withCalls (l.filterMap (fun a => a.Object.map mk)) := by
  induction l generalizing e with
  | nil => simp [EngineTrace.withCalls]
  | cons a l ih =>
    rw [List.foldl_cons, ih]
    cases h : a.Object with
    | none => simp [List.filterMap_cons, h]
    | some c =>
      simp [List.filterMap_cons, h, EngineTrace.withCalls, EngineTrace.Deactivate]

theorem invalidate_trace (p : FActiveEffectPack) (e : EngineTrace) :
    (p.Invalidate e).2 = e.withCalls p.LiveCalls := by
  unfold FActiveEffectPack.Invalidate FActiveEffectPack.DeactivateFXSystems
    FActiveEffectPack.DeactivateSFXSystems FActiveEffectPack.LiveCalls
  by_cases h1 : p.ActiveFXSystemComponents = [] <;> by_cases h2 : p.ActiveSoundComponents = []
  all_goals simp [h1, h2, foldl_deactivate, EngineTrace.withCalls]

theorem iteratorValid_append (pre rest : List FActiveEffectPack) :
    IteratorValid (pre ++ rest) (pre.length : Int) = !rest.isEmpty := by
  cases rest <;> simp [IteratorValid]

theorem removeCurrent_set (pre xs : List FActiveEffectPack) (x y : FActiveEffectPack) :
    RemoveCurrent ((pre ++ x :: xs).set (Int.toNat (pre.length : Int)) y) (pre.length : Int)
      = (pre ++ xs, (pre.length : Int) - 1) := by
  simp [RemoveCurrent, List.eraseIdx_append_of_length_le]

theorem stopActivePacksLoop_eq (ids : List Int) (rest : List FActiveEffectPack) :
    ∀ (fuel : Nat) (pre : List FActiveEffectPack) (e : EngineTrace),
      rest.length + 1 ≤ fuel →
      StopActivePacksLoop ids fuel (pre ++ rest) (pre.length : Int) e
        = (pre ++ rest.filter (fun p => !ids.contains p.Id),
           e.withCalls ((rest.filter (fun p => ids.contains p.Id)).flatMap
             FActiveEffectPack.LiveCalls)) := by
  induction rest with
  | nil =>
    intro fuel pre e hf
    obtain ⟨f, rfl⟩ : ∃ f, fuel = f + 1 := ⟨fuel - 1, by omega⟩
    simp [StopActivePacksLoop, iteratorValid_append, EngineTrace.withCalls]
  | cons x xs ih =>
    intro fuel pre e hf
    obtain ⟨f, rfl⟩ : ∃ f, fuel = f + 1 := ⟨fuel - 1, by omega⟩
    have hf2 : xs.length + 1 ≤ f := by simpa using hf
    have hget : (pre ++ x :: xs).get? (Int.toNat (pre.length : Int)) = some x := by
      rw [Int.toNat_natCast, List.get?_eq_getElem?, List.getElem?_append_right (le_refl _)]
      simp
    rw [StopActivePacksLoop]
    simp only [iteratorValid_append, hget]
    by_cases hx : ids.contains x.Id = true
    · simp only [hx, removeCurrent_set, sub_add_cancel]
      rw [ih f pre _ hf2, invalidate_trace]
      have hm : x.Id ∈ ids := by simpa using hx
      simp [List.filter_cons, hm, EngineTrace.withCalls, List.flatMap_cons]
    · have hx2 : ids.contains x.Id = false := by simpa using hx
      have h1 : ((pre.length : Int) + 1) = ((pre ++ [x]).length : Int) := by simp
      have h2 : pre ++ x :: xs = (pre ++ [x]) ++ xs := by simp
      simp only [hx2]
      rw [h1, h2, ih f (pre ++ [x]) e hf2]
      have hm : x.Id ∉ ids := by simpa using hx
      simp [List.filter_cons, hm]

theorem stopActivePackLoop_eq (id : Int) (rest : List FActiveEffectPack) :
    ∀ (fuel : Nat) (pre : List FActiveEffectPack) (e : EngineTrace),
      rest.length + 1 ≤ fuel →
      StopActivePackLoop id fuel (pre ++ rest) (pre.length : Int) e
        = (pre ++ rest.eraseP (fun p => p.Id == id),
           e.withCalls (((rest.find? (fun p => p.Id == id)).map
             FActiveEffectPack.LiveCalls).getD [])) := by
  induction rest with
  | nil =>
    intro fuel pre e hf
    obtain ⟨f, rfl⟩ : ∃ f, fuel = f + 1 := ⟨fuel - 1, by omega⟩
    simp [StopActivePackLoop, iteratorValid_append, EngineTrace.withCalls]
  | cons x xs ih =>
    intro fuel pre e hf
    obtain ⟨f, rfl⟩ : ∃ f, fuel = f + 1 := ⟨fuel - 1, by omega⟩
    have hf2 : xs.length + 1 ≤ f := by simpa using hf
    have hget : (pre ++ x :: xs).get? (Int.toNat (pre.length : Int)) = some x := by
      rw [Int.toNat_natCast, List.get?_eq_getElem?, List.getElem?_append_right (le_refl _)]
      simp
    rw [StopActivePackLoop]
    simp only [iteratorValid_append, hget]
    by_cases hx : x.Id = id
    · simp only [hx, removeCurrent_set, invalidate_trace]
      simp [List.eraseP_cons, List.find?_cons, hx]
    · have h1 : ((pre.length : Int) + 1) = ((pre ++ [x]).length : Int) := by simp
      have h2 : pre ++ x :: xs = (pre ++ [x]) ++ xs := by simp
      simp only [hx]
      rw [h1, h2, ih f (pre ++ [x]) e hf2]
      simp [List.eraseP_cons, List.find?_cons, hx]

theorem stopActivePack_eq (s : UFXManagerSubsystem) (h : FActiveEffectPackHandle) :
    s.StopActivePack h =
      { s with
        ActiveEffectPacks := s.ActiveEffectPacks.eraseP (fun p => p.Id == h.GetId),
        Engine := s.Engine.withCalls (((s.ActiveEffectPacks.find? (fun p => p.Id == h.GetId)).map
             FActiveEffectPack.LiveCalls).getD []) } := by
  have := stopActivePackLoop_eq h.GetId s.ActiveEffectPacks (s.ActiveEffectPacks.length + 1) []
    s.Engine (le_refl _)
  simp only [List.nil_append, List.length_nil, Nat.cast_zero] at this
  simp [UFXManagerSubsystem.StopActivePack, this]

theorem mem_collectPackIds (hs : List FActiveEffectPackHandle) (x : Int) :
    x ∈ CollectPackIds hs ↔ ∃ h ∈ hs, h.GetId = x := by
  unfold CollectPackIds
  have key : ∀ (hs : List FActiveEffectPackHandle) (acc : List Int),
      x ∈ hs.foldl (fun PackIdsToRemove Handle => List.insert Handle.GetId PackIdsToRemove) acc
        ↔ x ∈ acc ∨ ∃ h ∈ hs, h.GetId = x := by
    intro hs
    induction hs with
    | nil => intro acc; simp
    | cons a l ih =>
      intro acc
      rw [List.foldl_cons, ih]
      simp only [List.mem_insert_iff, List.mem_cons, exists_eq_or_imp]
      constructor
      · rintro ((h | h) | h)
        · exact Or.inr (Or.inl h.symm)
        · exact Or.inl h
        · exact Or.inr (Or.inr h)
      · rintro (h | h | h)
        · exact Or.inl (Or.inr h)
        · exact Or.inl (Or.inl h.symm)
        · exact Or.inr h
  simpa using key hs []

theorem stopActivePacks_eq (s : UFXManagerSubsystem) (hs : List FActiveEffectPackHandle) :
    s.StopActivePacks hs =
      { s with
        ActiveEffectPacks :=
          s.ActiveEffectPacks.filter (fun p => !(CollectPackIds hs).contains p.Id),
        Engine := s.Engine.withCalls
          ((s.ActiveEffectPacks.filter (fun p => (CollectPackIds hs).contains p.Id)).flatMap
             FActiveEffectPack.LiveCalls) } := by
  have := stopActivePacksLoop_eq (CollectPackIds hs) s.ActiveEffectPacks
    (s.ActiveEffectPacks.length + 1) [] s.Engine (le_refl _)
  simp only [List.nil_append, List.length_nil, Nat.cast_zero] at this
  simp [UFXManagerSubsystem.StopActivePacks, this]

theorem forEach_none {D : Type} (CanPlay : D → Bool)
    (Spawn : D → EngineTrace → ComponentPtr × EngineTrace)
    (Add : FActiveEffectPack → ComponentPtr → D → FActiveEffectPack) (ds : List D)
    (hno : ∀ d ∈ ds, CanPlay d = false) (p : FActiveEffectPack) (e : EngineTrace) :
    ForEachEffect CanPlay Spawn Add ds p e = (p, e) := by
  induction ds with
  | nil => rfl
  | cons d ds ih =>
    have hd : CanPlay d = false := hno d (List.mem_cons_self _ _)
    simp only [ForEachEffect, hd, Bool.not_false, if_true]
    exact ih (fun x hx => hno x (List.mem_cons_of_mem _ hx))

theorem forEach_vfx {D : Type} (CanPlay : D → Bool)
    (Spawn : D → EngineTrace → ComponentPtr × EngineTrace) (tag : D → FGameplayTag)
    (ds : List D) :
    ∀ (p : FActiveEffectPack) (e : EngineTrace),
      ∃ entries : List (FActiveEffect ComponentPtr),
        entries.map (fun a => a.AccessTag) = (ds.filter CanPlay).map tag ∧
        (ForEachEffect CanPlay Spawn (fun q c d => q.AddActiveVFX c (tag d)) ds p e).1
          = { p with ActiveFXSystemComponents := p.ActiveFXSystemComponents ++ entries } := by
  induction ds with
  | nil => intro p e; exact ⟨[], by simp [ForEachEffect]⟩
  | cons d ds ih =>
    intro p e
    cases hd : CanPlay d with
    | false =>
      obtain ⟨entries, h1, h2⟩ := ih p e
      exact ⟨entries, by simp [List.filter_cons, hd, h1], by simp [ForEachEffect, hd, h2]⟩
    | true =>
      obtain ⟨entries, h1, h2⟩ := ih (p.AddActiveVFX (Spawn d e).1 (tag d)) (Spawn d e).2
      refine ⟨⟨tag d, (Spawn d e).1⟩ :: entries, by simp [List.filter_cons, hd, h1], ?_⟩
      simp only [ForEachEffect, hd, Bool.not_true, Bool.false_eq_true, if_false]
      rw [h2]
      simp [FActiveEffectPack.AddActiveVFX]

theorem forEach_sfx {D : Type} (CanPlay : D → Bool)
    (Spawn : D → EngineTrace → ComponentPtr × EngineTrace) (tag : D → FGameplayTag)
    (ds : List D) :
    ∀ (p : FActiveEffectPack) (e : EngineTrace),
      ∃ entries : List (FActiveEffect ComponentPtr),
        entries.map (fun a => a.AccessTag) = (ds.filter CanPlay).map tag ∧
        (ForEachEffect CanPlay Spawn (fun q c d => q.AddActiveSound c (tag d)) ds p e).1
          = { p with ActiveSoundComponents := p.ActiveSoundComponents ++ entries } := by
  induction ds with
  | nil => intro p e; exact ⟨[], by simp [ForEachEffect]⟩
  | cons d ds ih =>
    intro p e
    cases hd : CanPlay d with
    | false =>
      obtain ⟨entries, h1, h2⟩ := ih p e
      exact ⟨entries, by simp [List.filter_cons, hd, h1], by simp [ForEachEffect, hd, h2]⟩
    | true =>
      obtain ⟨entries, h1, h2⟩ := ih (p.AddActiveSound (Spawn d e).1 (tag d)) (Spawn d e).2
      refine ⟨⟨tag d, (Spawn d e).1⟩ :: entries, by simp [List.filter_cons, hd, h1], ?_⟩
      simp only [ForEachEffect, hd, Bool.not_true, Bool.false_eq_true, if_false]
      rw [h2]
      simp [FActiveEffectPack.AddActiveSound]

theorem playAtLocation_cases (R : Renderer) (s : UFXManagerSubsystem)
    (SourceActor TargetActor : Option AActor) (EffectPack : FEffectPack)
    (ActivationType : EEffectActivationType) (Transform : FTransform)
    (hp : EffectPack.IsValid = true) (hs : SourceActor ≠ none) :
    ∃ (pk : FActiveEffectPack) (e : EngineTrace),
      Assembled s EffectPack SourceActor TargetActor ActivationType pk ∧
      s.PlayEffectAtLocation R SourceActor TargetActor EffectPack ActivationType Transform
        = UFXManagerSubsystem.Register
            { s with Internal_NextId := s.Internal_NextId + 1, Engine := e } pk ActivationType := by
  obtain ⟨a, rfl⟩ := Option.ne_none_iff_exists'.mp hs
  simp only [UFXManagerSubsystem.PlayEffectAtLocation, hp, Bool.not_true, Option.isNone_some,
    UFXManagerSubsystem.GenerateNewActivePackId]
  simp only [Bool.false_eq_true, if_false]
  refine ⟨_, _, ?_, rfl⟩
  obtain ⟨vs, hv1, hv2⟩ := forEach_vfx
    (fun (d : FVFXData) => d.CanPlay (GetActorTags (some a)) (GetActorTags TargetActor))
    (fun d e => SpawnVFXDataAtLocation R d (some a) Transform e) (fun d => d.AccessTag)
    EffectPack.VFXData
    { Id := s.Internal_NextId, ActivationType := ActivationType,
      SourceActor := Option.map AActor.ActorId (some a),
      TargetActor := TargetActor.map AActor.ActorId, AttachComponent := none } s.Engine
  rw [hv2]
  generalize (ForEachEffect _ _ _ EffectPack.VFXData _ s.Engine).2 = e1
  obtain ⟨ss, hs1, hs2⟩ := forEach_sfx
    (fun (d : FSFXData) => d.CanPlay (GetActorTags (some a)) (GetActorTags TargetActor))
    (fun d e => SpawnSFXDataAtLocation R d (some a) Transform e) (fun d => d.AccessTag)
    EffectPack.SFXData
    { Id := s.Internal_NextId, ActivationType := ActivationType,
      SourceActor := Option.map AActor.ActorId (some a),
      TargetActor := TargetActor.map AActor.ActorId, AttachComponent := none,
      ActiveFXSystemComponents := [] ++ vs } e1
  rw [hs2]
  exact ⟨rfl, rfl, by simpa using hv1, by simpa using hs1⟩

theorem playAttached_cases (R : Renderer) (s : UFXManagerSubsystem)
    (SourceActor TargetActor : Option AActor) (AttachComponent : Option USceneComponent)
    (EffectPack : FEffectPack) (ActivationType : EEffectActivationType)
    (hp : EffectPack.IsValid = true) (hs : SourceActor ≠ none) (ha : AttachComponent ≠ none) :
    ∃ (pk : FActiveEffectPack) (e : EngineTrace),
      Assembled s EffectPack SourceActor TargetActor ActivationType pk ∧
      s.PlayEffectAttached R SourceActor TargetActor AttachComponent EffectPack ActivationType
        = UFXManagerSubsystem.Register
            { s with Internal_NextId := s.Internal_NextId + 1, Engine := e } pk ActivationType := by
  obtain ⟨a, rfl⟩ := Option.ne_none_iff_exists'.mp hs
  obtain ⟨c, rfl⟩ := Option.ne_none_iff_exists'.mp ha
  simp only [UFXManagerSubsystem.PlayEffectAttached, hp, Bool.not_true,
    UFXManagerSubsystem.GenerateNewActivePackId]
  simp only [Bool.false_eq_true, if_false]
  refine ⟨_, _, ?_, rfl⟩
  obtain ⟨vs, hv1, hv2⟩ := forEach_vfx
    (fun (d : FVFXData) => d.CanPlay (GetActorTags (some a)) (GetActorTags TargetActor))
    (fun d e => SpawnVFXDataAtComponent R d (some a) c e) (fun d => d.AccessTag)
    EffectPack.VFXData
    { Id := s.Internal_NextId, ActivationType := ActivationType,
      SourceActor := Option.map AActor.ActorId (some a),
      TargetActor := TargetActor.map AActor.ActorId,
      AttachComponent := some c.ComponentId } s.Engine
  rw [hv2]
  generalize (ForEachEffect _ _ _ EffectPack.VFXData _ s.Engine).2 = e1
  obtain ⟨ss, hs1, hs2⟩ := forEach_sfx
    (fun (d : FSFXData) => d.CanPlay (GetActorTags (some a)) (GetActorTags TargetActor))
    (fun d e => SpawnSFXDataAtComponent R d (some a) c e) (fun d => d.AccessTag)
    EffectPack.SFXData
    { Id := s.Internal_NextId, ActivationType := ActivationType,
      SourceActor := Option.map AActor.ActorId (some a),
      TargetActor := TargetActor.map AActor.ActorId,
      AttachComponent := some c.ComponentId,
      ActiveFXSystemComponents := [] ++ vs } e1
  rw [hs2]
  exact ⟨rfl, rfl, by simpa using hv1, by simpa using hs1⟩

theorem effectPack_isValid_iff (p : FEffectPack) :
    p.IsValid = !(p.VFXData.isEmpty && p.SFXData.isEmpty) := by
  unfold FEffectPack.IsValid FEffectPack.HasSFX FEffectPack.HasVFX
  cases p.VFXData <;> cases p.SFXData <;> simp

theorem play_of_fails (R : Renderer) (s : UFXManagerSubsystem) (a : Activation)
    (h : a.FailsInputCheck = true) : a.Play R s = (({} : FActiveEffectPackHandle), s) := by
  cases a with
  | AtLocation src tgt pack kind tr =>
    simp only [Activation.FailsInputCheck, Bool.or_eq_true] at h
    simp only [Activation.Play, UFXManagerSubsystem.PlayEffectAtLocation, effectPack_isValid_iff]
    rcases h with h | h
    · simp [h]
    · simp [h]
  | Attached src tgt attach pack kind =>
    simp only [Activation.FailsInputCheck, Bool.or_eq_true] at h
    simp only [Activation.Play, UFXManagerSubsystem.PlayEffectAttached, effectPack_isValid_iff]
    rcases h with (h | h) | h
    · simp [h]
    · cases src with
      | none => simp
      | some x => simp at h
    · cases attach with
      | none => cases src <;> simp
      | some x => simp at h

theorem play_of_passes (R : Renderer) (s : UFXManagerSubsystem) (a : Activation)
    (h : a.FailsInputCheck = false) :
    ∃ (pk : FActiveEffectPack) (e : EngineTrace),
      Assembled s a.EffectPack a.SourceActor a.TargetActor a.ActivationType pk ∧
      a.Play R s = UFXManagerSubsystem.Register
        { s with Internal_NextId := s.Internal_NextId + 1, Engine := e } pk a.ActivationType := by
  cases a with
  | AtLocation src tgt pack kind tr =>
    simp only [Activation.FailsInputCheck, Bool.or_eq_false_iff] at h
    have hp : pack.IsValid = true := by rw [effectPack_isValid_iff, h.1]; rfl
    have hs : src ≠ none := by intro hc; rw [hc] at h; simp at h
    exact playAtLocation_cases R s src tgt pack kind tr hp hs
  | Attached src tgt attach pack kind =>
    simp only [Activation.FailsInputCheck, Bool.or_eq_false_iff] at h
    have hp : pack.IsValid = true := by rw [effectPack_isValid_iff, h.1.1]; rfl
    have hs : src ≠ none := by intro hc; rw [hc] at h; simp at h
    have ha : attach ≠ none := by intro hc; rw [hc] at h; simp at h
    exact playAttached_cases R s src tgt attach pack kind hp hs ha

theorem addInstantPack_fields (s : UFXManagerSubsystem) (pk : FActiveEffectPack) :
    (s.AddInstantPack pk).InstantEffectPacks = s.InstantEffectPacks ++ [pk] ∧
    (s.AddInstantPack pk).ActiveEffectPacks = s.ActiveEffectPacks ∧
    (s.AddInstantPack pk).Internal_NextId = s.Internal_NextId := by
  unfold UFXManagerSubsystem.AddInstantPack
  by_cases h : s.Engine.TimerActive = true <;> simp [h]

theorem wellFormed_initial : WellFormed UFXManagerSubsystem.Initial := by
  constructor <;> simp [UFXManagerSubsystem.Initial]

theorem register_wellFormed (s : UFXManagerSubsystem) (pk : FActiveEffectPack)
    (kind : EEffectActivationType) (e : EngineTrace) (hw : WellFormed s)
    (hid : pk.Id = s.Internal_NextId) (hk : pk.ActivationType = kind) :
    WellFormed (UFXManagerSubsystem.Register
      { s with Internal_NextId := s.Internal_NextId + 1, Engine := e } pk kind).2 := by
  have hn := hw.nonneg
  have hfresh : ∀ q ∈ s.ActiveEffectPacks ++ s.InstantEffectPacks, q.Id ≠ pk.Id := by
    intro q hq
    have := (hw.bound q hq).2
    omega
  unfold UFXManagerSubsystem.Register
  by_cases hact : pk.IsActive = true
  · simp only [hact, Bool.not_true, Bool.false_eq_true, if_false]
    by_cases hkind : kind = EEffectActivationType.Active
    · simp only [hkind, if_true]
      constructor
      · show 0 ≤ s.Internal_NextId + 1
        omega
      · intro p hp
        show 0 ≤ p.Id ∧ p.Id < s.Internal_NextId + 1
        simp only [List.mem_append, List.mem_singleton] at hp
        rcases hp with (hp | hp) | hp
        · have := hw.bound p (List.mem_append_left _ hp); omega
        · subst hp; omega
        · have := hw.bound p (List.mem_append_right _ hp); omega
      · show (((s.ActiveEffectPacks ++ [pk]) ++ s.InstantEffectPacks).map (fun p => p.Id)).Nodup
        rw [show (s.ActiveEffectPacks ++ [pk]) ++ s.InstantEffectPacks
          = s.ActiveEffectPacks ++ pk :: s.InstantEffectPacks by simp]
        rw [(List.perm_middle.map _).nodup_iff, List.map_cons]
        refine List.nodup_cons.mpr ⟨?_, hw.nodup⟩
        intro hmem
        obtain ⟨q, hq, hqe⟩ := List.mem_map.mp hmem
        exact hfresh q hq hqe
      · intro p hp
        simp only [List.mem_append, List.mem_singleton] at hp
        rcases hp with hp | hp
        · exact hw.activeKind p hp
        · subst hp; rw [hk, hkind]
      · exact hw.instantKind
    · simp only [hkind, if_false]
      obtain ⟨h1, h2, h3⟩ := addInstantPack_fields
        { s with Internal_NextId := s.Internal_NextId + 1, Engine := e } pk
      constructor
      · rw [h3]; show 0 ≤ s.Internal_NextId + 1; omega
      · intro p hp
        rw [h1, h2, h3] at *
        show 0 ≤ p.Id ∧ p.Id < s.Internal_NextId + 1
        simp only [List.mem_append, List.mem_singleton] at hp
        rcases hp with hp | hp | hp
        · have := hw.bound p (List.mem_append_left _ hp); omega
        · have := hw.bound p (List.mem_append_right _ hp); omega
        · subst hp; omega
      · rw [h1, h2]
        show ((s.ActiveEffectPacks ++ (s.InstantEffectPacks ++ [pk])).map (fun p => p.Id)).Nodup
        rw [← List.append_assoc]
        rw [((List.perm_append_singleton _ _).map _).nodup_iff, List.map_cons]
        refine List.nodup_cons.mpr ⟨?_, hw.nodup⟩
        intro hmem
        obtain ⟨q, hq, hqe⟩ := List.mem_map.mp hmem
        exact hfresh q hq hqe
      · rw [h2]; exact hw.activeKind
      · rw [h1]
        intro p hp
        simp only [List.mem_append, List.mem_singleton] at hp
        rcases hp with hp | hp
        · exact hw.instantKind p hp
        · subst hp; rw [hk]; exact hkind
  · simp only [hact, Bool.not_false, if_true]
    exact ⟨by show 0 ≤ s.Internal_NextId + 1; omega,
      fun p hp => by
        have := hw.bound p hp
        show 0 ≤ p.Id ∧ p.Id < s.Internal_NextId + 1
        omega,
      hw.nodup, hw.activeKind, hw.instantKind⟩

theorem wellFormed_of_sublist (s : UFXManagerSubsystem) (A : List FActiveEffectPack)
    (e : EngineTrace) (hw : WellFormed s) (hsub : A.Sublist s.ActiveEffectPacks) :
    WellFormed { s with ActiveEffectPacks := A, Engine := e } := by
  constructor
  · exact hw.nonneg
  · intro p hp
    simp only [List.mem_append] at hp
    rcases hp with hp | hp
    · exact hw.bound p (List.mem_append_left _ (hsub.subset hp))
    · exact hw.bound p (List.mem_append_right _ hp)
  · exact List.Nodup.sublist
      ((hsub.append (List.Sublist.refl s.InstantEffectPacks)).map _) hw.nodup
  · exact fun p hp => hw.activeKind p (hsub.subset hp)
  · exact hw.instantKind

theorem getVfx_state (s : UFXManagerSubsystem) (h : FActiveEffectPackHandle) (t : FGameplayTag) :
    (s.GetVfxSystemComponentByTag h t).2 = s := by
  unfold UFXManagerSubsystem.GetVfxSystemComponentByTag
    UFXManagerSubsystem.Internal_GetVfxSystemComponent
  split
  · rfl
  · split
    · rfl
    · split <;> rfl

theorem getSfx_state (s : UFXManagerSubsystem) (h : FActiveEffectPackHandle) (t : FGameplayTag) :
    (s.GetSfxSystemComponentByTag h t).2 = s := by
  unfold UFXManagerSubsystem.GetSfxSystemComponentByTag
    UFXManagerSubsystem.Internal_FindSfxSystemComponent
  split
  · rfl
  · split
    · rfl
    · split <;> rfl

theorem play_wellFormed (R : Renderer) (s : UFXManagerSubsystem) (a : Activation)
    (hw : WellFormed s) : WellFormed (a.Play R s).2 := by
  cases hf : a.FailsInputCheck with
  | true => rw [play_of_fails R s a hf]; exact hw
  | false =>
    obtain ⟨pk, e, hasm, heq⟩ := play_of_passes R s a hf
    rw [heq]
    exact register_wellFormed s pk a.ActivationType e hw hasm.id_eq hasm.kind_eq

theorem nextTick_wellFormed (s : UFXManagerSubsystem) (hw : WellFormed s) :
    WellFormed s.NextTick := by
  unfold UFXManagerSubsystem.NextTick UFXManagerSubsystem.ClearInstantPacks
  by_cases h : s.Engine.TimerActive = true
  · simp only [h, if_true]
    constructor
    · exact hw.nonneg
    · intro p hp
      simp only [List.append_nil] at hp
      exact hw.bound p (List.mem_append_left _ hp)
    · simp only [List.append_nil]
      have := hw.nodup
      rw [List.map_append] at this
      exact (List.nodup_append.mp this).1
    · exact hw.activeKind
    · intro p hp; simp at hp
  · simp only [h]
    exact hw

theorem step_wellFormed {s t : UFXManagerSubsystem} (hw : WellFormed s) (hst : Step s t) :
    WellFormed t := by
  cases hst with
  | playAtLocation R _ src tgt pack kind tr =>
    exact play_wellFormed R s (Activation.AtLocation src tgt pack kind tr) hw
  | playAttached R _ src tgt attach pack kind =>
    exact play_wellFormed R s (Activation.Attached src tgt attach pack kind) hw
  | stopActivePack _ h =>
    rw [stopActivePack_eq]
    exact wellFormed_of_sublist s _ _ hw (List.eraseP_sublist _)
  | stopActivePacks _ hs =>
    rw [stopActivePacks_eq]
    exact wellFormed_of_sublist s _ _ hw (List.filter_sublist _)
  | getVfx _ h t => rw [getVfx_state]; exact hw
  | getSfx _ h t => rw [getSfx_state]; exact hw
  | nextTick _ => exact nextTick_wellFormed s hw

theorem reachable_wellFormed {s : UFXManagerSubsystem} (hr : Reachable s) : WellFormed s := by
  induction hr with
  | initial => exact wellFormed_initial
  | step _ hst ih => exact step_wellFormed ih hst

theorem register_nextId (s0 : UFXManagerSubsystem) (pk : FActiveEffectPack)
    (kind : EEffectActivationType) :
    (UFXManagerSubsystem.Register s0 pk kind).2.Internal_NextId = s0.Internal_NextId := by
  unfold UFXManagerSubsystem.Register
  by_cases hact : pk.IsActive = true
  · by_cases hkind : kind = EEffectActivationType.Active
    · simp [hact, hkind]
    · simp [hact, hkind, (addInstantPack_fields s0 pk).2.2]
  · simp [hact]

theorem play_nextId_le (R : Renderer) (s : UFXManagerSubsystem) (a : Activation) :
    s.Internal_NextId ≤ (a.Play R s).2.Internal_NextId := by
  cases hf : a.FailsInputCheck with
  | true => rw [play_of_fails R s a hf]
  | false =>
    obtain ⟨pk, e, _, heq⟩ := play_of_passes R s a hf
    rw [heq, register_nextId]
    show s.Internal_NextId ≤ s.Internal_NextId + 1
    omega

theorem step_nextId_le {s t : UFXManagerSubsystem} (hst : Step s t) :
    s.Internal_NextId ≤ t.Internal_NextId := by
  cases hst with
  | playAtLocation R _ src tgt pack kind tr =>
    exact play_nextId_le R s (Activation.AtLocation src tgt pack kind tr)
  | playAttached R _ src tgt attach pack kind =>
    exact play_nextId_le R s (Activation.Attached src tgt attach pack kind)
  | stopActivePack _ h => rw [stopActivePack_eq]
  | stopActivePacks _ hs => rw [stopActivePacks_eq]
  | getVfx _ h t => rw [getVfx_state]
  | getSfx _ h t => rw [getSfx_state]
  | nextTick _ =>
    unfold UFXManagerSubsystem.NextTick UFXManagerSubsystem.ClearInstantPacks
    by_cases h : s.Engine.TimerActive = true <;> simp [h]

theorem steps_nextId_le {s t : UFXManagerSubsystem} (hst : Steps s t) :
    s.Internal_NextId ≤ t.Internal_NextId := by
  induction hst with
  | refl => exact le_refl _
  | tail _ h ih => exact le_trans ih (step_nextId_le h)

theorem steps_reachable {s t : UFXManagerSubsystem} (hr : Reachable s) (hst : Steps s t) :
    Reachable t := by
  induction hst with
  | refl => exact hr
  | tail _ h ih => exact Reachable.step ih h

/-! ## The claims -/

/-- C1: the code departs from the stated gate. With only a target-required tag in the
gate and a target that owns nothing, `CanPlay` answers true, while the gate as the
specification words it (source and target checked independently, each on the emptiness
of its own sets) answers false. -/
theorem C1_canPlay_skips_target_when_source_sets_empty :
    FFXData.CanPlay { AccessTag := 0, TagRequirements := TargetOnlyGate } ⟨[]⟩ ⟨[]⟩ = true
      ∧ SpecCanPlay TargetOnlyGate ⟨[]⟩ ⟨[]⟩ = false := by
  decide

/-- C2: the code departs from the claim. An activation whose only descriptor passes its
gate but has no asset makes no spawn request and gets no live instance; the claim says
the invalid handle is returned and no pack is added, but the null spawn result is added
to the pack unchecked, so the pack counts as active: the valid handle (0, Active) is
returned and a pack holding one null entry is added to the Active collection. -/
theorem C2_null_spawn_still_registers :
    UFXManagerSubsystem.Initial.PlayEffectAtLocation CountingRenderer (some PlainActor) none
        { VFXData := [UnsetVisual] } EEffectActivationType.Active FTransform.Identity
      = (⟨0, EEffectActivationType.Active⟩,
         { Internal_NextId := 1,
           ActiveEffectPacks :=
             [{ Id := 0, ActivationType := EEffectActivationType.Active, SourceActor := some 1,
                ActiveFXSystemComponents := [⟨7, none⟩] }] }) := by
  decide

theorem assembled_isActive (s : UFXManagerSubsystem) (a : Activation) (pk : FActiveEffectPack)
    (hn : 0 ≤ s.Internal_NextId)
    (hasm : Assembled s a.EffectPack a.SourceActor a.TargetActor a.ActivationType pk) :
    pk.IsActive = false ↔
      (∀ d ∈ a.EffectPack.VFXData, a.GatePasses d.toFFXData = false)
        ∧ (∀ d ∈ a.EffectPack.SFXData, a.GatePasses d.toFFXData = false) := by
  have hv := congrArg List.length hasm.vfx_tags
  have hs := congrArg List.length hasm.sfx_tags
  simp only [List.length_map] at hv hs
  have hid : pk.Id > -1 := by rw [hasm.id_eq]; omega
  have hv0 : pk.ActiveFXSystemComponents.length = 0 ↔
      ∀ d ∈ a.EffectPack.VFXData, a.GatePasses d.toFFXData = false := by
    rw [hv, List.length_eq_zero, List.filter_eq_nil_iff]
    simp [Activation.GatePasses]
  have hs0 : pk.ActiveSoundComponents.length = 0 ↔
      ∀ d ∈ a.EffectPack.SFXData, a.GatePasses d.toFFXData = false := by
    rw [hs, List.length_eq_zero, List.filter_eq_nil_iff]
    simp [Activation.GatePasses]
  rw [← hv0, ← hs0]
  simp only [FActiveEffectPack.IsActive, FActiveEffectPack.IsValid, FActiveEffectPack.HasSFX,
    FActiveEffectPack.HasVFX, hid, decide_True, Bool.true_and, Bool.or_eq_false_iff,
    decide_eq_false_iff_not]
  omega

theorem register_of_not_active (s0 : UFXManagerSubsystem) (pk : FActiveEffectPack)
    (kind : EEffectActivationType) (h : pk.IsActive = false) :
    UFXManagerSubsystem.Register s0 pk kind = (({} : FActiveEffectPackHandle), s0) := by
  simp [UFXManagerSubsystem.Register, h]

theorem register_of_active (s0 : UFXManagerSubsystem) (pk : FActiveEffectPack)
    (kind : EEffectActivationType) (h : pk.IsActive = true) :
    UFXManagerSubsystem.Register s0 pk kind
      = (pk.CreateHandle,
         if kind = EEffectActivationType.Active then
           { s0 with ActiveEffectPacks := s0.ActiveEffectPacks ++ [pk] }
         else s0.AddInstantPack pk) := by
  simp [UFXManagerSubsystem.Register, h]

/-- For an activation that passes the input checks in a state whose counter is
non-negative, the invalid handle is returned exactly when no descriptor passes its gate,
and then neither collection changes: what a spawn returned plays no part. -/
theorem invalid_handle_iff_no_gate_passes (R : Renderer) (s : UFXManagerSubsystem)
    (a : Activation) (hin : a.FailsInputCheck = false) (hn : 0 ≤ s.Internal_NextId) :
    ((a.Play R s).1.IsValid = false ↔
        (∀ d ∈ a.EffectPack.VFXData, a.GatePasses d.toFFXData = false)
          ∧ (∀ d ∈ a.EffectPack.SFXData, a.GatePasses d.toFFXData = false))
      ∧ ((a.Play R s).1.IsValid = false →
          (a.Play R s).1.Id = -1
            ∧ (a.Play R s).2.ActiveEffectPacks = s.ActiveEffectPacks
            ∧ (a.Play R s).2.InstantEffectPacks = s.InstantEffectPacks) := by
  obtain ⟨pk, e, hasm, heq⟩ := play_of_passes R s a hin
  have hiff := assembled_isActive s a pk hn hasm
  rw [heq]
  cases hact : pk.IsActive with
  | false =>
    rw [register_of_not_active _ _ _ hact]
    exact ⟨⟨fun _ => hiff.mp hact, fun _ => rfl⟩, fun _ => ⟨rfl, rfl, rfl⟩⟩
  | true =>
    rw [register_of_active _ _ _ hact]
    have hvalid : pk.CreateHandle.IsValid = true := by
      have : pk.Id ≠ -1 := by rw [hasm.id_eq]; omega
      simp [FActiveEffectPack.CreateHandle, FActiveEffectPackHandle.IsValid, this]
    constructor
    · constructor
      · intro h; rw [hvalid] at h; cases h
      · intro h; rw [hiff.mpr h] at hact; cases hact
    · intro h; rw [hvalid] at h; cases h

/-- The previous statement at the activation of a descriptor without asset: its gate
passes, so the handle is valid. -/
theorem invalid_handle_iff_no_gate_passes_example :
    ((Activation.AtLocation (some PlainActor) none { VFXData := [UnsetVisual] }
        EEffectActivationType.Active FTransform.Identity).FailsInputCheck = false
      ∧ 0 ≤ UFXManagerSubsystem.Initial.Internal_NextId)
    ∧ ((Activation.AtLocation (some PlainActor) none { VFXData := [UnsetVisual] }
        EEffectActivationType.Active FTransform.Identity).Play CountingRenderer
          UFXManagerSubsystem.Initial).1.IsValid = true :=
  ⟨⟨by decide, by decide⟩, by
    have h := (invalid_handle_iff_no_gate_passes CountingRenderer UFXManagerSubsystem.Initial
      (Activation.AtLocation (some PlainActor) none { VFXData := [UnsetVisual] }
        EEffectActivationType.Active FTransform.Identity) (by decide) (by decide)).1
    cases hv : ((Activation.AtLocation (some PlainActor) none { VFXData := [UnsetVisual] }
        EEffectActivationType.Active FTransform.Identity).Play CountingRenderer
          UFXManagerSubsystem.Initial).1.IsValid with
    | true => rfl
    | false =>
      have hg := (h.mp hv).1 UnsetVisual (List.mem_singleton.mpr rfl)
      exact absurd hg (by decide)⟩

/-- C3: whatever the registry state, an activation that passes the input checks and in
which the gate of every visual and every audio descriptor fails returns the invalid
handle and leaves the Active and the Instant collection as they were. -/
theorem C3_all_gates_fail_returns_invalid (R : Renderer) (s : UFXManagerSubsystem)
    (a : Activation) (hin : a.FailsInputCheck = false)
    (hv : ∀ d ∈ a.EffectPack.VFXData, a.GatePasses d.toFFXData = false)
    (hs : ∀ d ∈ a.EffectPack.SFXData, a.GatePasses d.toFFXData = false) :
    (a.Play R s).1 = { Id := -1, ActivationType := EEffectActivationType.None }
      ∧ (a.Play R s).2.ActiveEffectPacks = s.ActiveEffectPacks
      ∧ (a.Play R s).2.InstantEffectPacks = s.InstantEffectPacks := by
  obtain ⟨pk, e, hasm, heq⟩ := play_of_passes R s a hin
  have hv0 : pk.ActiveFXSystemComponents = [] := by
    have h := hasm.vfx_tags
    rw [List.filter_eq_nil_iff.mpr (fun d hd => by
      have := hv d hd
      simpa [Activation.GatePasses] using this)] at h
    simpa using h
  have hs0 : pk.ActiveSoundComponents = [] := by
    have h := hasm.sfx_tags
    rw [List.filter_eq_nil_iff.mpr (fun d hd => by
      have := hs d hd
      simpa [Activation.GatePasses] using this)] at h
    simpa using h
  have hact : pk.IsActive = false := by
    simp [FActiveEffectPack.IsActive, FActiveEffectPack.HasSFX, FActiveEffectPack.HasVFX,
      hv0, hs0]
  rw [heq, register_of_not_active _ _ _ hact]
  exact ⟨rfl, rfl, rfl⟩

/-- Witness for C3: an activation whose only descriptor requires a source tag the source
does not own returns the invalid handle and stores nothing. -/
theorem C3_all_gates_fail_returns_invalid_witness :
    (GatedActivation.FailsInputCheck = false
      ∧ (∀ d ∈ GatedActivation.EffectPack.VFXData, GatedActivation.GatePasses d.toFFXData = false)
      ∧ (∀ d ∈ GatedActivation.EffectPack.SFXData, GatedActivation.GatePasses d.toFFXData = false))
    ∧ ((GatedActivation.Play CountingRenderer TwoActivePacks).1
          = { Id := -1, ActivationType := EEffectActivationType.None }
        ∧ (GatedActivation.Play CountingRenderer TwoActivePacks).2.ActiveEffectPacks
          = TwoActivePacks.ActiveEffectPacks
        ∧ (GatedActivation.Play CountingRenderer TwoActivePacks).2.InstantEffectPacks
          = TwoActivePacks.InstantEffectPacks) :=
  ⟨⟨by decide, by decide, by decide⟩,
   C3_all_gates_fail_returns_invalid CountingRenderer TwoActivePacks GatedActivation
     (by decide) (by decide) (by decide)⟩

theorem find_fresh (l : List FActiveEffectPack) (pk : FActiveEffectPack)
    (h : ∀ q ∈ l, q.Id ≠ pk.Id) :
    (l ++ [pk]).find? (fun p => p.Id == pk.Id) = some pk := by
  induction l with
  | nil => simp
  | cons x xs ih =>
    have hx : x.Id ≠ pk.Id := h x (List.mem_cons_self _ _)
    simp only [List.cons_append, List.find?_cons]
    have : (x.Id == pk.Id) = false := by simpa using hx
    rw [this]
    exact ih (fun q hq => h q (List.mem_cons_of_mem _ hq))

/-- C4: in a reachable state, activating at a location a pack made of one visual
descriptor whose gate passes and whose spawn returns the live instance `c`, with a
non-null source and any activation kind, returns a valid handle, and looking the handle
up right away under the access tag of the descriptor returns `c`. -/
theorem C4_single_visual_found_by_tag (R : Renderer) (s : UFXManagerSubsystem)
    (SourceActor TargetActor : Option AActor) (d : FVFXData)
    (ActivationType : EEffectActivationType) (Transform : FTransform) (c : Nat)
    (hr : Reachable s) (hsrc : SourceActor ≠ none)
    (hgate : d.CanPlay (GetActorTags SourceActor) (GetActorTags TargetActor) = true)
    (hspawn : (SpawnVFXDataAtLocation R d SourceActor Transform s.Engine).1 = some c) :
    (s.PlayEffectAtLocation R SourceActor TargetActor { VFXData := [d], SFXData := [] }
        ActivationType Transform).1.IsValid = true
      ∧ ((s.PlayEffectAtLocation R SourceActor TargetActor { VFXData := [d], SFXData := [] }
            ActivationType Transform).2.GetVfxSystemComponentByTag
          (s.PlayEffectAtLocation R SourceActor TargetActor { VFXData := [d], SFXData := [] }
            ActivationType Transform).1 d.AccessTag).1 = LookupResult.Returns (some c) := by
  obtain ⟨a, rfl⟩ := Option.ne_none_iff_exists'.mp hsrc
  have hw := reachable_wellFormed hr
  have hn := hw.nonneg
  have heq : s.PlayEffectAtLocation R (some a) TargetActor { VFXData := [d], SFXData := [] }
        ActivationType Transform
      = UFXManagerSubsystem.Register
          { s with Internal_NextId := s.Internal_NextId + 1,
                   Engine := (SpawnVFXDataAtLocation R d (some a) Transform s.Engine).2 }
          { Id := s.Internal_NextId, ActivationType := ActivationType,
            SourceActor := some a.ActorId, TargetActor := TargetActor.map AActor.ActorId,
            ActiveFXSystemComponents := [⟨d.AccessTag, some c⟩] } ActivationType := by
    simp [UFXManagerSubsystem.PlayEffectAtLocation, FEffectPack.IsValid, FEffectPack.HasVFX,
      FEffectPack.HasSFX, ForEachEffect, hgate, hspawn,
      UFXManagerSubsystem.GenerateNewActivePackId, FActiveEffectPack.AddActiveVFX]
  have hact : FActiveEffectPack.IsActive
      { Id := s.Internal_NextId, ActivationType := ActivationType,
        SourceActor := some a.ActorId, TargetActor := TargetActor.map AActor.ActorId,
        ActiveFXSystemComponents := [⟨d.AccessTag, some c⟩] } = true := by
    have : s.Internal_NextId > -1 := by omega
    simp [FActiveEffectPack.IsActive, FActiveEffectPack.IsValid, FActiveEffectPack.HasVFX, this]
  have hne : s.Internal_NextId ≠ -1 := by omega
  have hgt : ¬ s.Internal_NextId ≤ -1 := by omega
  rw [heq, register_of_active _ _ _ hact]
  refine ⟨by simp [FActiveEffectPack.CreateHandle, FActiveEffectPackHandle.IsValid, hne], ?_⟩
  by_cases hk : ActivationType = EEffectActivationType.Active
  · subst hk
    have hfind := find_fresh s.ActiveEffectPacks
      { Id := s.Internal_NextId, ActivationType := EEffectActivationType.Active,
        SourceActor := some a.ActorId, TargetActor := TargetActor.map AActor.ActorId,
        ActiveFXSystemComponents := [⟨d.AccessTag, some c⟩] }
      (fun q hq => by
        have := (hw.bound q (List.mem_append_left _ hq)).2
        show q.Id ≠ s.Internal_NextId
        omega)
    simp only [if_true, UFXManagerSubsystem.GetVfxSystemComponentByTag,
      UFXManagerSubsystem.Internal_GetVfxSystemComponent, UFXManagerSubsystem.GetActivePack,
      FActiveEffectPack.CreateHandle, FActiveEffectPackHandle.IsValid,
      FActiveEffectPackHandle.GetPackType, FActiveEffectPackHandle.GetId]
    simp only [hfind]
    simp [hne, FActiveEffectPack.IsValid, hgt]
  · have hfind := find_fresh s.InstantEffectPacks
      { Id := s.Internal_NextId, ActivationType := ActivationType,
        SourceActor := some a.ActorId, TargetActor := TargetActor.map AActor.ActorId,
        ActiveFXSystemComponents := [⟨d.AccessTag, some c⟩] }
      (fun q hq => by
        have := (hw.bound q (List.mem_append_right _ hq)).2
        show q.Id ≠ s.Internal_NextId
        omega)
    obtain ⟨h1, _, _⟩ := addInstantPack_fields
      { s with Internal_NextId := s.Internal_NextId + 1,
               Engine := (SpawnVFXDataAtLocation R d (some a) Transform s.Engine).2 }
      { Id := s.Internal_NextId, ActivationType := ActivationType,
        SourceActor := some a.ActorId, TargetActor := TargetActor.map AActor.ActorId,
        ActiveFXSystemComponents := [⟨d.AccessTag, some c⟩] }
    simp only [hk, if_false, UFXManagerSubsystem.GetVfxSystemComponentByTag,
      UFXManagerSubsystem.Internal_GetVfxSystemComponent, UFXManagerSubsystem.GetActivePack,
      FActiveEffectPack.CreateHandle, FActiveEffectPackHandle.IsValid,
      FActiveEffectPackHandle.GetPackType, FActiveEffectPackHandle.GetId, h1]
    simp only [hfind]
    simp [hne, FActiveEffectPack.IsValid, hgt]

/-- Witness for C4: from the initial state, the Cascade descriptor spawned as component
100 is found again under its access tag 7. -/
theorem C4_single_visual_found_by_tag_witness :
    (Reachable UFXManagerSubsystem.Initial
      ∧ CascadeVisual.CanPlay (GetActorTags (some PlainActor)) (GetActorTags none) = true
      ∧ (SpawnVFXDataAtLocation CountingRenderer CascadeVisual (some PlainActor)
          FTransform.Identity UFXManagerSubsystem.Initial.Engine).1 = some 100)
    ∧ ((UFXManagerSubsystem.Initial.PlayEffectAtLocation CountingRenderer (some PlainActor) none
          { VFXData := [CascadeVisual], SFXData := [] } EEffectActivationType.Instant
          FTransform.Identity).1.IsValid = true
      ∧ ((UFXManagerSubsystem.Initial.PlayEffectAtLocation CountingRenderer (some PlainActor)
            none { VFXData := [CascadeVisual], SFXData := [] } EEffectActivationType.Instant
            FTransform.Identity).2.GetVfxSystemComponentByTag
          (UFXManagerSubsystem.Initial.PlayEffectAtLocation CountingRenderer (some PlainActor)
            none { VFXData := [CascadeVisual], SFXData := [] } EEffectActivationType.Instant
            FTransform.Identity).1 CascadeVisual.AccessTag).1
          = LookupResult.Returns (some 100)) :=
  ⟨⟨Reachable.initial, by decide, by decide⟩,
   C4_single_visual_found_by_tag CountingRenderer UFXManagerSubsystem.Initial (some PlainActor)
     none CascadeVisual EEffectActivationType.Instant FTransform.Identity 100
     Reachable.initial (Option.some_ne_none _) (by decide) (by decide)⟩

/-- C5: after `StopActivePacks` the Active collection is the previous one filtered, in
its original order, to the packs whose id is the id of no handle of the list; and the
handles whose id matches no Active pack can be dropped from the list without changing
the resulting state. -/
theorem C5_stopActivePacks_filters (s : UFXManagerSubsystem)
    (Handles : List FActiveEffectPackHandle) :
    (s.StopActivePacks Handles).ActiveEffectPacks
        = s.ActiveEffectPacks.filter (fun p => !Handles.any (fun h => h.GetId == p.Id))
      ∧ s.StopActivePacks Handles
        = s.StopActivePacks
            (Handles.filter (fun h => s.ActiveEffectPacks.any (fun p => p.Id == h.GetId))) := by
  have hmem : ∀ p : FActiveEffectPack,
      (CollectPackIds Handles).contains p.Id = Handles.any (fun h => h.GetId == p.Id) := by
    intro p
    rw [Bool.eq_iff_iff]
    simp [mem_collectPackIds]
  have hmem2 : ∀ p ∈ s.ActiveEffectPacks,
      (CollectPackIds
          (Handles.filter (fun h => s.ActiveEffectPacks.any (fun p => p.Id == h.GetId)))).contains
        p.Id = (CollectPackIds Handles).contains p.Id := by
    intro p hp
    have hiff : p.Id ∈ CollectPackIds
          (Handles.filter (fun h => s.ActiveEffectPacks.any (fun p => p.Id == h.GetId)))
        ↔ p.Id ∈ CollectPackIds Handles := by
      simp only [mem_collectPackIds, List.mem_filter, List.any_eq_true, beq_iff_eq]
      constructor
      · rintro ⟨h, ⟨hh, _⟩, he⟩
        exact ⟨h, hh, he⟩
      · rintro ⟨h, hh, he⟩
        exact ⟨h, ⟨hh, p, hp, he.symm⟩, he⟩
    rw [Bool.eq_iff_iff]
    simpa using hiff
  constructor
  · rw [stopActivePacks_eq]
    exact List.filter_congr (fun p _ => by rw [hmem p])
  · have e1 : s.ActiveEffectPacks.filter (fun p => !(CollectPackIds
          (Handles.filter (fun h => s.ActiveEffectPacks.any (fun p => p.Id == h.GetId)))).contains
            p.Id)
        = s.ActiveEffectPacks.filter (fun p => !(CollectPackIds Handles).contains p.Id) :=
      List.filter_congr (fun p hp => by rw [hmem2 p hp])
    have e2 : s.ActiveEffectPacks.filter (fun p => (CollectPackIds
          (Handles.filter (fun h => s.ActiveEffectPacks.any (fun p => p.Id == h.GetId)))).contains
            p.Id)
        = s.ActiveEffectPacks.filter (fun p => (CollectPackIds Handles).contains p.Id) :=
      List.filter_congr (fun p hp => hmem2 p hp)
    rw [stopActivePacks_eq, stopActivePacks_eq, e1, e2]

/-- C6: when the Active collection is `pre ++ p :: post` with `p` the first pack whose id
is the id of the handle, `StopActivePack` leaves `pre ++ post` as the Active collection,
appends to the trace exactly the deactivate calls of the non-null visual and audio
components of `p`, and changes nothing else; when no Active pack has that id the state
is unchanged. -/
theorem C6_stopActivePack_removes_first_match (s : UFXManagerSubsystem)
    (Handle : FActiveEffectPackHandle) :
    (∀ (pre post : List FActiveEffectPack) (p : FActiveEffectPack),
        s.ActiveEffectPacks = pre ++ p :: post → (∀ q ∈ pre, q.Id ≠ Handle.GetId) →
        p.Id = Handle.GetId →
        s.StopActivePack Handle
          = { s with
              ActiveEffectPacks := pre ++ post,
              Engine := { s.Engine with
                DeactivateCalls := s.Engine.DeactivateCalls ++ p.LiveCalls } })
      ∧ ((∀ q ∈ s.ActiveEffectPacks, q.Id ≠ Handle.GetId) → s.StopActivePack Handle = s) := by
  constructor
  · intro pre post p hsplit hpre hp
    have hfind : s.ActiveEffectPacks.find? (fun q => q.Id == Handle.GetId) = some p := by
      rw [hsplit, List.find?_append]
      have : pre.find? (fun q => q.Id == Handle.GetId) = none := by
        rw [List.find?_eq_none]
        intro q hq
        simpa using hpre q hq
      simp [this, List.find?_cons, hp]
    have herase : s.ActiveEffectPacks.eraseP (fun q => q.Id == Handle.GetId) = pre ++ post := by
      rw [hsplit, List.eraseP_append_right _ (fun q hq => by simpa using hpre q hq)]
      simp [List.eraseP_cons, hp]
    rw [stopActivePack_eq, hfind, herase]
    rfl
  · intro hno
    have hfind : s.ActiveEffectPacks.find? (fun q => q.Id == Handle.GetId) = none := by
      rw [List.find?_eq_none]
      intro q hq
      simpa using hno q hq
    have herase : s.ActiveEffectPacks.eraseP (fun q => q.Id == Handle.GetId)
        = s.ActiveEffectPacks :=
      List.eraseP_of_forall_not (fun q hq => by simpa using hno q hq)
    rw [stopActivePack_eq, hfind, herase]
    simp [EngineTrace.withCalls]

/-- Witness for C6: stopping the handle with id 1 removes the second pack and deactivates
its one live visual; stopping a handle with the unknown id 5 changes nothing. -/
theorem C6_stopActivePack_removes_first_match_witness :
    TwoActivePacks.StopActivePack ⟨1, EEffectActivationType.Active⟩
        = { TwoActivePacks with
            ActiveEffectPacks := [FirstPack] ++ [],
            Engine := { TwoActivePacks.Engine with
              DeactivateCalls := TwoActivePacks.Engine.DeactivateCalls ++ SecondPack.LiveCalls } }
      ∧ TwoActivePacks.StopActivePack ⟨5, EEffectActivationType.Active⟩ = TwoActivePacks :=
  ⟨(C6_stopActivePack_removes_first_match TwoActivePacks ⟨1, EEffectActivationType.Active⟩).1
      [FirstPack] [] SecondPack rfl (by decide) rfl,
   (C6_stopActivePack_removes_first_match TwoActivePacks ⟨5, EEffectActivationType.Active⟩).2
      (by decide)⟩

/-- C7: an activation that fails an input check returns the invalid handle (id -1) and
leaves the whole state as it was: both collections, the counter and the trace of engine
calls, so that no spawn request is made. -/
theorem C7_failed_input_check_changes_nothing (R : Renderer) (s : UFXManagerSubsystem)
    (a : Activation) (h : a.FailsInputCheck = true) :
    a.Play R s = ({ Id := -1, ActivationType := EEffectActivationType.None }, s) :=
  play_of_fails R s a h

/-- Witness for C7: activating an empty pack returns the invalid handle and leaves the
state with its two Active packs as it was. -/
theorem C7_failed_input_check_changes_nothing_witness :
    EmptyPackActivation.FailsInputCheck = true
      ∧ EmptyPackActivation.Play CountingRenderer TwoActivePacks
        = ({ Id := -1, ActivationType := EEffectActivationType.None }, TwoActivePacks) :=
  ⟨by decide,
   C7_failed_input_check_changes_nothing CountingRenderer TwoActivePacks EmptyPackActivation
     (by decide)⟩

/-- C8, as stated, fails: an activation of kind `None` from the initial state is a step
of a run, returns the handle `(0, None)` and stores a pack of kind `None` in the Instant
collection. -/
theorem C8_pack_of_kind_none_is_stored :
    Reachable AfterNoneActivation
      ∧ (UFXManagerSubsystem.Initial.PlayEffectAtLocation CountingRenderer (some PlainActor) none
          { VFXData := [CascadeVisual] } EEffectActivationType.None FTransform.Identity).1
        = ⟨0, EEffectActivationType.None⟩
      ∧ AfterNoneActivation.InstantEffectPacks
        = [{ Id := 0, ActivationType := EEffectActivationType.None, SourceActor := some 1,
             ActiveFXSystemComponents := [⟨7, some 100⟩] }] :=
  ⟨Reachable.step Reachable.initial (Step.playAtLocation _ _ _ _ _ _ _), by decide, by decide⟩

theorem play_valid (R : Renderer) (s : UFXManagerSubsystem) (a : Activation)
    (hv : (a.Play R s).1.IsValid = true) :
    (a.Play R s).1 = ⟨s.Internal_NextId, a.ActivationType⟩
      ∧ (a.Play R s).2.Internal_NextId = s.Internal_NextId + 1 := by
  cases hf : a.FailsInputCheck with
  | true =>
    rw [play_of_fails R s a hf] at hv
    exact absurd hv (by simp [FActiveEffectPackHandle.IsValid])
  | false =>
    obtain ⟨pk, e, hasm, heq⟩ := play_of_passes R s a hf
    rw [heq] at hv ⊢
    rw [register_nextId]
    cases hact : pk.IsActive with
    | false =>
      rw [register_of_not_active _ _ _ hact] at hv
      exact absurd hv (by simp [FActiveEffectPackHandle.IsValid])
    | true =>
      rw [register_of_active _ _ _ hact]
      exact ⟨by simp [FActiveEffectPack.CreateHandle, hasm.id_eq, hasm.kind_eq], rfl⟩

theorem play_valid_stores (R : Renderer) (s : UFXManagerSubsystem) (a : Activation)
    (hv : (a.Play R s).1.IsValid = true) :
    ∃ pk : FActiveEffectPack,
      pk.Id = (a.Play R s).1.Id
        ∧ pk.ActivationType = a.ActivationType
        ∧ (a.ActivationType = EEffectActivationType.Active →
            (a.Play R s).2.ActiveEffectPacks = s.ActiveEffectPacks ++ [pk]
              ∧ (a.Play R s).2.InstantEffectPacks = s.InstantEffectPacks)
        ∧ (a.ActivationType ≠ EEffectActivationType.Active →
            (a.Play R s).2.InstantEffectPacks = s.InstantEffectPacks ++ [pk]
              ∧ (a.Play R s).2.ActiveEffectPacks = s.ActiveEffectPacks) := by
  cases hf : a.FailsInputCheck with
  | true =>
    rw [play_of_fails R s a hf] at hv
    exact absurd hv (by simp [FActiveEffectPackHandle.IsValid])
  | false =>
    obtain ⟨pk, e, hasm, heq⟩ := play_of_passes R s a hf
    rw [heq] at hv ⊢
    cases hact : pk.IsActive with
    | false =>
      rw [register_of_not_active _ _ _ hact] at hv
      exact absurd hv (by simp [FActiveEffectPackHandle.IsValid])
    | true =>
      rw [register_of_active _ _ _ hact]
      refine ⟨pk, rfl, hasm.kind_eq, ?_, ?_⟩
      · intro hk
        simp [hk]
      · intro hk
        obtain ⟨h1, h2, _⟩ := addInstantPack_fields
          { s with Internal_NextId := s.Internal_NextId + 1, Engine := e } pk
        simp only [hk, if_false]
        exact ⟨h1, h2⟩

/-- C8, amended: in every reachable state each pack of the Active collection has kind
Active and each pack of the Instant collection has kind Instant or None. An activation
that registers a pack stores a pack that carries the kind the caller passed, in the
Active collection when that kind is Active and in the Instant collection otherwise (kind
None included), the other collection being unchanged; the returned handle carries the id
of that pack and the same kind. -/
theorem C8_stored_kinds (s : UFXManagerSubsystem) (hr : Reachable s) :
    (∀ p ∈ s.ActiveEffectPacks, p.ActivationType = EEffectActivationType.Active)
      ∧ (∀ p ∈ s.InstantEffectPacks,
          p.ActivationType = EEffectActivationType.Instant
            ∨ p.ActivationType = EEffectActivationType.None)
      ∧ (∀ (R : Renderer) (a : Activation), (a.Play R s).1.IsValid = true →
          (a.Play R s).1.ActivationType = a.ActivationType
            ∧ ∃ pk : FActiveEffectPack,
                pk.Id = (a.Play R s).1.Id
                  ∧ pk.ActivationType = a.ActivationType
                  ∧ (a.ActivationType = EEffectActivationType.Active →
                      (a.Play R s).2.ActiveEffectPacks = s.ActiveEffectPacks ++ [pk]
                        ∧ (a.Play R s).2.InstantEffectPacks = s.InstantEffectPacks)
                  ∧ (a.ActivationType ≠ EEffectActivationType.Active →
                      (a.Play R s).2.InstantEffectPacks = s.InstantEffectPacks ++ [pk]
                        ∧ (a.Play R s).2.ActiveEffectPacks = s.ActiveEffectPacks)) := by
  have hw := reachable_wellFormed hr
  refine ⟨hw.activeKind, ?_, ?_⟩
  · intro p hp
    have := hw.instantKind p hp
    cases hk : p.ActivationType with
    | None => exact Or.inr rfl
    | Instant => exact Or.inl rfl
    | Active => exact absurd hk this
  · intro R a hv
    exact ⟨by rw [(play_valid R s a hv).1], play_valid_stores R s a hv⟩

/-- Witness for C8: from the initial state, the activation of kind `None` stores a pack
of kind `None` in the Instant collection and the activation of kind `Instant` stores a
pack of kind `Instant` there, each as the only pack of the collection. -/
theorem C8_stored_kinds_witness :
    Reachable UFXManagerSubsystem.Initial
      ∧ (∃ pk : FActiveEffectPack,
          pk.ActivationType = EEffectActivationType.None
            ∧ ((Activation.AtLocation (some PlainActor) none { VFXData := [CascadeVisual] }
                  EEffectActivationType.None FTransform.Identity).Play CountingRenderer
                UFXManagerSubsystem.Initial).2.InstantEffectPacks = [pk])
      ∧ (∃ pk : FActiveEffectPack,
          pk.ActivationType = EEffectActivationType.Instant
            ∧ (InstantActivation.Play CountingRenderer
                UFXManagerSubsystem.Initial).2.InstantEffectPacks = [pk]) := by
  refine ⟨Reachable.initial, ?_, ?_⟩
  · obtain ⟨_, pk, _, hk, _, hi⟩ :=
      (C8_stored_kinds UFXManagerSubsystem.Initial Reachable.initial).2.2 CountingRenderer
        (Activation.AtLocation (some PlainActor) none { VFXData := [CascadeVisual] }
          EEffectActivationType.None FTransform.Identity) (by decide)
    exact ⟨pk, hk, (hi (by decide)).1⟩
  · obtain ⟨_, pk, _, hk, _, hi⟩ :=
      (C8_stored_kinds UFXManagerSubsystem.Initial Reachable.initial).2.2 CountingRenderer
        InstantActivation (by decide)
    exact ⟨pk, hk, (hi (by decide)).1⟩

/-- C9: in every reachable state the ids of all stored packs, Active and Instant taken
together, are pairwise distinct, each is non-negative and below the counter, and a
handle returned by a registering activation carries the value of the counter, which is
smaller than the id of the handle returned by any registering activation later in the
run (integer overflow set aside: the counter lives in the integers). -/
theorem C9_ids_distinct_bounded_increasing (s : UFXManagerSubsystem) (hr : Reachable s) :
    ((s.ActiveEffectPacks ++ s.InstantEffectPacks).map (fun p => p.Id)).Nodup
      ∧ (∀ p ∈ s.ActiveEffectPacks ++ s.InstantEffectPacks,
          0 ≤ p.Id ∧ p.Id < s.Internal_NextId)
      ∧ (∀ (R : Renderer) (a : Activation), (a.Play R s).1.IsValid = true →
          (a.Play R s).1.Id = s.Internal_NextId
            ∧ ∀ (t : UFXManagerSubsystem), Steps (a.Play R s).2 t →
                ∀ (R2 : Renderer) (a2 : Activation), (a2.Play R2 t).1.IsValid = true →
                  (a.Play R s).1.Id < (a2.Play R2 t).1.Id) := by
  have hw := reachable_wellFormed hr
  refine ⟨hw.nodup, hw.bound, ?_⟩
  intro R a hv
  obtain ⟨h1, h2⟩ := play_valid R s a hv
  refine ⟨by rw [h1], ?_⟩
  intro t hst R2 a2 hv2
  obtain ⟨h3, _⟩ := play_valid R2 t a2 hv2
  have hle := steps_nextId_le hst
  rw [h1, h3]
  show s.Internal_NextId < t.Internal_NextId
  omega

/-- Witness for C9: in the state reached by one registering activation the stored ids are
distinct and below the counter, and a second activation gets the larger id 1. -/
theorem C9_ids_distinct_bounded_increasing_witness :
    Reachable AfterNoneActivation
      ∧ ((AfterNoneActivation.ActiveEffectPacks ++ AfterNoneActivation.InstantEffectPacks).map
          (fun p => p.Id)).Nodup
      ∧ ((Activation.AtLocation (some PlainActor) none { VFXData := [UnsetVisual] }
            EEffectActivationType.Active FTransform.Identity).Play CountingRenderer
              AfterNoneActivation).1.Id = 1 :=
  ⟨Reachable.step Reachable.initial (Step.playAtLocation _ _ _ _ _ _ _),
   (C9_ids_distinct_bounded_increasing AfterNoneActivation
      (Reachable.step Reachable.initial (Step.playAtLocation _ _ _ _ _ _ _))).1,
   ((C9_ids_distinct_bounded_increasing AfterNoneActivation
      (Reachable.step Reachable.initial (Step.playAtLocation _ _ _ _ _ _ _))).2.2
        CountingRenderer _ (by decide)).1⟩

/-- C10: `StopActivePack` and `StopActivePacks` leave the Instant collection as it was,
every deactivate call they issue is a call of an Active pack whose id is the id of a
handle, and their effect on the rest of the state does not depend on the Instant
collection, whatever ids its packs carry. -/
theorem C10_stop_leaves_instant_packs (s : UFXManagerSubsystem)
    (Handle : FActiveEffectPackHandle) (Handles : List FActiveEffectPackHandle) :
    (s.StopActivePack Handle).InstantEffectPacks = s.InstantEffectPacks
      ∧ (s.StopActivePacks Handles).InstantEffectPacks = s.InstantEffectPacks
      ∧ (∃ cs, (s.StopActivePack Handle).Engine.DeactivateCalls
            = s.Engine.DeactivateCalls ++ cs
          ∧ ∀ c ∈ cs, ∃ p ∈ s.ActiveEffectPacks, p.Id = Handle.GetId ∧ c ∈ p.LiveCalls)
      ∧ (∃ cs, (s.StopActivePacks Handles).Engine.DeactivateCalls
            = s.Engine.DeactivateCalls ++ cs
          ∧ ∀ c ∈ cs, ∃ p ∈ s.ActiveEffectPacks,
              (∃ h ∈ Handles, h.GetId = p.Id) ∧ c ∈ p.LiveCalls)
      ∧ (∀ Instant : List FActiveEffectPack,
          UFXManagerSubsystem.StopActivePack { s with InstantEffectPacks := Instant } Handle
              = { s.StopActivePack Handle with InstantEffectPacks := Instant }
            ∧ UFXManagerSubsystem.StopActivePacks { s with InstantEffectPacks := Instant } Handles
              = { s.StopActivePacks Handles with InstantEffectPacks := Instant }) := by
  refine ⟨by rw [stopActivePack_eq], by rw [stopActivePacks_eq], ?_, ?_, ?_⟩
  · refine ⟨_, by rw [stopActivePack_eq]; rfl, ?_⟩
    intro c hc
    cases hfind : s.ActiveEffectPacks.find? (fun p => p.Id == Handle.GetId) with
    | none => rw [hfind] at hc; simp at hc
    | some p =>
      rw [hfind] at hc
      exact ⟨p, List.mem_of_find?_eq_some hfind,
        by simpa using List.find?_some hfind, by simpa using hc⟩
  · refine ⟨_, by rw [stopActivePacks_eq]; rfl, ?_⟩
    intro c hc
    simp only [List.mem_flatMap, List.mem_filter] at hc
    obtain ⟨p, ⟨hp, hid⟩, hcp⟩ := hc
    have : p.Id ∈ CollectPackIds Handles := by simpa using hid
    exact ⟨p, hp, (mem_collectPackIds Handles p.Id).mp this, hcp⟩
  · intro Instant
    constructor
    · rw [stopActivePack_eq, stopActivePack_eq]
    · rw [stopActivePacks_eq, stopActivePacks_eq]

theorem onlySpawns_refl (e : EngineTrace) : OnlySpawns e e :=
  ⟨rfl, rfl, rfl, ⟨[], by simp⟩⟩

theorem onlySpawns_trans {e t u : EngineTrace} (h1 : OnlySpawns e t) (h2 : OnlySpawns t u) :
    OnlySpawns e u := by
  obtain ⟨r1, hr1⟩ := h1.requests
  obtain ⟨r2, hr2⟩ := h2.requests
  exact ⟨h2.calls.trans h1.calls, h2.timer.trans h1.timer, h2.timers.trans h1.timers,
    ⟨r1 ++ r2, by rw [hr2, hr1, List.append_assoc]⟩⟩

theorem onlySpawns_spawn (R : Renderer) (req : SpawnRequest) (e : EngineTrace) :
    OnlySpawns e (e.Spawn R req).2 :=
  ⟨rfl, rfl, rfl, ⟨[req], rfl⟩⟩

theorem onlySpawns_vfxAtLocation (R : Renderer) (d : FVFXData) (src : Option AActor)
    (T : FTransform) (e : EngineTrace) : OnlySpawns e (SpawnVFXDataAtLocation R d src T e).2 := by
  unfold SpawnVFXDataAtLocation
  cases d.ParticleSystem with
  | none => exact onlySpawns_refl e
  | some A =>
    cases hA : A.AssetClass <;> simp only [hA]
    · exact onlySpawns_spawn R _ e
    · exact onlySpawns_spawn R _ e
    · exact onlySpawns_refl e

theorem onlySpawns_sfxAtLocation (R : Renderer) (d : FSFXData) (src : Option AActor)
    (T : FTransform) (e : EngineTrace) : OnlySpawns e (SpawnSFXDataAtLocation R d src T e).2 := by
  unfold SpawnSFXDataAtLocation
  cases d.Sound with
  | none => exact onlySpawns_refl e
  | some A =>
    cases hA : d.AudioType <;> simp only [hA]
    · exact onlySpawns_spawn R _ e
    · exact onlySpawns_spawn R _ e

theorem onlySpawns_vfxAtComponent (R : Renderer) (d : FVFXData) (src : Option AActor)
    (c : USceneComponent) (e : EngineTrace) :
    OnlySpawns e (SpawnVFXDataAtComponent R d src c e).2 := by
  unfold SpawnVFXDataAtComponent
  cases d.ParticleSystem with
  | none => exact onlySpawns_refl e
  | some A =>
    simp only
    split
    · exact onlySpawns_vfxAtLocation R d src _ e
    · cases hA : A.AssetClass <;> simp only [hA]
      · exact onlySpawns_spawn R _ e
      · exact onlySpawns_spawn R _ e
      · exact onlySpawns_refl e

theorem onlySpawns_sfxAtComponent (R : Renderer) (d : FSFXData) (src : Option AActor)
    (c : USceneComponent) (e : EngineTrace) :
    OnlySpawns e (SpawnSFXDataAtComponent R d src c e).2 := by
  unfold SpawnSFXDataAtComponent
  cases d.Sound with
  | none => exact onlySpawns_refl e
  | some A =>
    simp only
    split
    · exact onlySpawns_sfxAtLocation R d src _ e
    · exact onlySpawns_spawn R _ e

theorem forEach_onlySpawns {D : Type} (CanPlay : D → Bool)
    (Spawn : D → EngineTrace → ComponentPtr × EngineTrace)
    (Add : FActiveEffectPack → ComponentPtr → D → FActiveEffectPack)
    (hS : ∀ d e, OnlySpawns e (Spawn d e).2) (ds : List D) :
    ∀ (p : FActiveEffectPack) (e : EngineTrace),
      OnlySpawns e (ForEachEffect CanPlay Spawn Add ds p e).2 := by
  induction ds with
  | nil => intro p e; exact onlySpawns_refl e
  | cons d ds ih =>
    intro p e
    cases hd : CanPlay d with
    | false =>
      simp only [ForEachEffect, hd, Bool.not_false, if_true]
      exact ih p e
    | true =>
      simp only [ForEachEffect, hd, Bool.not_true, Bool.false_eq_true, if_false]
      exact onlySpawns_trans (hS d e) (ih _ _)

theorem play_engine (R : Renderer) (s : UFXManagerSubsystem) (a : Activation) :
    ∃ (pk : FActiveEffectPack) (e : EngineTrace), OnlySpawns s.Engine e ∧
      (a.Play R s = (({} : FActiveEffectPackHandle), s) ∨
       a.Play R s = UFXManagerSubsystem.Register
          { s with Internal_NextId := s.Internal_NextId + 1, Engine := e } pk
          a.ActivationType) := by
  cases hf : a.FailsInputCheck with
  | true => exact ⟨{}, s.Engine, onlySpawns_refl _, Or.inl (play_of_fails R s a hf)⟩
  | false =>
    cases a with
    | AtLocation src tgt pack kind tr =>
      simp only [Activation.FailsInputCheck, Bool.or_eq_false_iff] at hf
      have hp : pack.IsValid = true := by rw [effectPack_isValid_iff, hf.1]; rfl
      obtain ⟨x, rfl⟩ : ∃ x, src = some x := by
        cases src with
        | none => simp at hf
        | some x => exact ⟨x, rfl⟩
      simp only [Activation.Play, UFXManagerSubsystem.PlayEffectAtLocation, hp, Bool.not_true,
        Option.isNone_some, UFXManagerSubsystem.GenerateNewActivePackId]
      simp only [Bool.false_eq_true, if_false]
      refine ⟨_, _, ?_, Or.inr rfl⟩
      exact onlySpawns_trans
        (forEach_onlySpawns _ _ _ (fun d e => onlySpawns_vfxAtLocation R d _ tr e) _ _ _)
        (forEach_onlySpawns _ _ _ (fun d e => onlySpawns_sfxAtLocation R d _ tr e) _ _ _)
    | Attached src tgt attach pack kind =>
      simp only [Activation.FailsInputCheck, Bool.or_eq_false_iff] at hf
      have hp : pack.IsValid = true := by rw [effectPack_isValid_iff, hf.1.1]; rfl
      obtain ⟨x, rfl⟩ : ∃ x, src = some x := by
        cases src with
        | none => simp at hf
        | some x => exact ⟨x, rfl⟩
      obtain ⟨c, rfl⟩ : ∃ c, attach = some c := by
        cases attach with
        | none => simp at hf
        | some c => exact ⟨c, rfl⟩
      simp only [Activation.Play, UFXManagerSubsystem.PlayEffectAttached, hp, Bool.not_true,
        UFXManagerSubsystem.GenerateNewActivePackId]
      simp only [Bool.false_eq_true, if_false]
      refine ⟨_, _, ?_, Or.inr rfl⟩
      exact onlySpawns_trans
        (forEach_onlySpawns _ _ _ (fun d e => onlySpawns_vfxAtComponent R d _ c e) _ _ _)
        (forEach_onlySpawns _ _ _ (fun d e => onlySpawns_sfxAtComponent R d _ c e) _ _ _)

theorem register_engine (s0 : UFXManagerSubsystem) (pk : FActiveEffectPack)
    (kind : EEffectActivationType) :
    (UFXManagerSubsystem.Register s0 pk kind).2.Engine
      = if pk.IsActive = true ∧ kind ≠ EEffectActivationType.Active
            ∧ s0.Engine.TimerActive = false then
          { s0.Engine with TimerActive := true, TimersSet := s0.Engine.TimersSet + 1 }
        else s0.Engine := by
  unfold UFXManagerSubsystem.Register UFXManagerSubsystem.AddInstantPack
  by_cases hact : pk.IsActive = true <;>
    by_cases hk : kind = EEffectActivationType.Active <;>
      by_cases ht : s0.Engine.TimerActive = true <;> simp [hact, hk, ht]

theorem play_timer_armed (R : Renderer) (s : UFXManagerSubsystem) (a : Activation)
    (ht : s.Engine.TimerActive = true) :
    (a.Play R s).2.Engine.TimerActive = true
      ∧ (a.Play R s).2.Engine.TimersSet = s.Engine.TimersSet := by
  obtain ⟨pk, e, he, h | h⟩ := play_engine R s a
  · rw [h]; exact ⟨ht, rfl⟩
  · rw [h, register_engine]
    have h1 : e.TimerActive = true := by rw [he.timer, ht]
    simp [h1, he.timers]

theorem play_timer_idle (R : Renderer) (s : UFXManagerSubsystem) (a : Activation)
    (ht : s.Engine.TimerActive = false) (hk : a.ActivationType ≠ EEffectActivationType.Active)
    (hv : (a.Play R s).1.IsValid = true) :
    (a.Play R s).2.Engine.TimerActive = true
      ∧ (a.Play R s).2.Engine.TimersSet = s.Engine.TimersSet + 1 := by
  obtain ⟨pk, e, he, h | h⟩ := play_engine R s a
  · rw [h] at hv
    exact absurd hv (by simp [FActiveEffectPackHandle.IsValid])
  · rw [h] at hv ⊢
    have hact : pk.IsActive = true := by
      cases hact : pk.IsActive with
      | true => rfl
      | false =>
        rw [register_of_not_active _ _ _ hact] at hv
        exact absurd hv (by simp [FActiveEffectPackHandle.IsValid])
    have h1 : e.TimerActive = false := by rw [he.timer, ht]
    rw [register_engine]
    simp [hact, hk, h1, he.timers]

theorem playSequence_armed (acts : List (Renderer × Activation)) :
    ∀ (s : UFXManagerSubsystem), s.Engine.TimerActive = true →
      (PlaySequence acts s).2.Engine.TimerActive = true
        ∧ (PlaySequence acts s).2.Engine.TimersSet = s.Engine.TimersSet := by
  induction acts with
  | nil => intro s ht; exact ⟨ht, rfl⟩
  | cons x rest ih =>
    intro s ht
    obtain ⟨h1, h2⟩ := play_timer_armed x.1 s x.2 ht
    obtain ⟨h3, h4⟩ := ih (x.2.Play x.1 s).2 h1
    exact ⟨h3, h4.trans h2⟩

/-- C11: from a state whose cleanup timer is not armed, run a sequence of Instant
activations that each register a pack, with nothing in between. The first one arms the
timer and schedules the callback, and at the end of the whole sequence the timer is still
armed and the callback has been scheduled exactly once. -/
theorem C11_instant_activations_schedule_once (s : UFXManagerSubsystem)
    (first : Renderer × Activation) (later : List (Renderer × Activation))
    (hidle : s.Engine.TimerActive = false)
    (hkind : ∀ x ∈ first :: later, x.2.ActivationType = EEffectActivationType.Instant)
    (hreg : ∀ h ∈ (PlaySequence (first :: later) s).1, h.IsValid = true) :
    ((first.2.Play first.1 s).2.Engine.TimerActive = true
        ∧ (first.2.Play first.1 s).2.Engine.TimersSet = s.Engine.TimersSet + 1)
      ∧ ((PlaySequence (first :: later) s).2.Engine.TimerActive = true
        ∧ (PlaySequence (first :: later) s).2.Engine.TimersSet = s.Engine.TimersSet + 1) := by
  have hk : first.2.ActivationType ≠ EEffectActivationType.Active := by
    rw [hkind first (List.mem_cons_self _ _)]; decide
  have hv : (first.2.Play first.1 s).1.IsValid = true :=
    hreg _ (by simp [PlaySequence])
  obtain ⟨h1, h2⟩ := play_timer_idle first.1 s first.2 hidle hk hv
  obtain ⟨h3, h4⟩ := playSequence_armed later (first.2.Play first.1 s).2 h1
  exact ⟨⟨h1, h2⟩, ⟨h3, h4.trans h2⟩⟩

/-- Witness for C11: two Instant activations in a row from the initial state leave the
callback scheduled once. -/
theorem C11_instant_activations_schedule_once_witness :
    (UFXManagerSubsystem.Initial.Engine.TimerActive = false
      ∧ (∀ x ∈ [(CountingRenderer, InstantActivation), (CountingRenderer, InstantActivation)],
          x.2.ActivationType = EEffectActivationType.Instant)
      ∧ (PlaySequence [(CountingRenderer, InstantActivation), (CountingRenderer, InstantActivation)]
          UFXManagerSubsystem.Initial).1 = [⟨0, EEffectActivationType.Instant⟩,
            ⟨1, EEffectActivationType.Instant⟩])
    ∧ (PlaySequence [(CountingRenderer, InstantActivation), (CountingRenderer, InstantActivation)]
        UFXManagerSubsystem.Initial).2.Engine.TimersSet = 1 :=
  ⟨⟨by decide, by simp [InstantActivation, Activation.ActivationType], by decide⟩, by
    have h := (C11_instant_activations_schedule_once UFXManagerSubsystem.Initial
      (CountingRenderer, InstantActivation) [(CountingRenderer, InstantActivation)]
      (by decide) (by simp [InstantActivation, Activation.ActivationType])
      (by decide)).2.2
    simpa [UFXManagerSubsystem.Initial] using h⟩

theorem getVfx_eq (s : UFXManagerSubsystem) (h : FActiveEffectPackHandle) (t : FGameplayTag) :
    (s.GetVfxSystemComponentByTag h t).1
      = match s.GetActivePack h with
        | PackReference.DestroyedLocal => LookupResult.Undefined
        | PackReference.Stored Pack =>
          if Pack.IsValid = true then
            LookupResult.Returns
              ((Pack.ActiveFXSystemComponents.find? (fun a => a.AccessTag == t)).bind
                (fun a => a.Object))
          else LookupResult.Returns none := by
  unfold UFXManagerSubsystem.GetVfxSystemComponentByTag
    UFXManagerSubsystem.Internal_GetVfxSystemComponent
  cases s.GetActivePack h with
  | DestroyedLocal => rfl
  | Stored Pack =>
    cases hv : Pack.IsValid with
    | false => simp [hv]
    | true =>
      cases hf : Pack.ActiveFXSystemComponents.find? (fun a => a.AccessTag == t)
        <;> simp [hf, hv]

theorem getSfx_eq (s : UFXManagerSubsystem) (h : FActiveEffectPackHandle) (t : FGameplayTag) :
    (s.GetSfxSystemComponentByTag h t).1
      = match s.GetActivePack h with
        | PackReference.DestroyedLocal => LookupResult.Undefined
        | PackReference.Stored Pack =>
          if Pack.IsValid = true then
            LookupResult.Returns
              ((Pack.ActiveSoundComponents.find? (fun a => a.AccessTag == t)).bind
                (fun a => a.Object))
          else LookupResult.Returns none := by
  unfold UFXManagerSubsystem.GetSfxSystemComponentByTag
    UFXManagerSubsystem.Internal_FindSfxSystemComponent
  cases s.GetActivePack h with
  | DestroyedLocal => rfl
  | Stored Pack =>
    cases hv : Pack.IsValid with
    | false => simp [hv]
    | true =>
      cases hf : Pack.ActiveSoundComponents.find? (fun a => a.AccessTag == t)
        <;> simp [hf, hv]

theorem getActivePack_of_not_found (s : UFXManagerSubsystem) (h : FActiveEffectPackHandle)
    (hno : ∀ p ∈ (if h.GetPackType = EEffectActivationType.Active then s.ActiveEffectPacks
      else s.InstantEffectPacks), p.Id ≠ h.GetId) :
    s.GetActivePack h = PackReference.DestroyedLocal := by
  unfold UFXManagerSubsystem.GetActivePack
  by_cases hv : h.IsValid = true
  · have hfind : (if h.GetPackType = EEffectActivationType.Active then s.ActiveEffectPacks
        else s.InstantEffectPacks).find? (fun Pack => Pack.Id == h.GetId) = none := by
      rw [List.find?_eq_none]
      intro p hp
      simpa using hno p hp
    simp only [hv, Bool.not_true, Bool.false_eq_true, if_false, hfind]
  · simp only [hv, Bool.not_false, if_true]

theorem getActivePack_of_invalid (s : UFXManagerSubsystem) (h : FActiveEffectPackHandle)
    (hid : h.Id = -1) : s.GetActivePack h = PackReference.DestroyedLocal := by
  have hv : h.IsValid = false := by simp [FActiveEffectPackHandle.IsValid, hid]
  simp only [UFXManagerSubsystem.GetActivePack, hv, Bool.not_false, if_true]

theorem getActivePack_of_stored (s : UFXManagerSubsystem) (h : FActiveEffectPackHandle)
    (Pack : FActiveEffectPack) (hv : s.GetActivePack h = PackReference.Stored Pack) :
    Pack.Id = h.GetId
      ∧ Pack ∈ (if h.GetPackType = EEffectActivationType.Active then
          s.ActiveEffectPacks else s.InstantEffectPacks) := by
  unfold UFXManagerSubsystem.GetActivePack at hv
  by_cases hh : h.IsValid = true
  · simp only [hh, Bool.not_true, Bool.false_eq_true, if_false] at hv
    cases hfind : (if h.GetPackType = EEffectActivationType.Active then s.ActiveEffectPacks
        else s.InstantEffectPacks).find? (fun Pack => Pack.Id == h.GetId) with
    | none =>
      rw [hfind] at hv
      cases hv
    | some p =>
      rw [hfind] at hv
      have hp : p = Pack := by
        injection hv
      subst hp
      exact ⟨by simpa using List.find?_some hfind, List.mem_of_find?_eq_some hfind⟩
  · simp only [hh, Bool.not_false, if_true] at hv
    cases hv

theorem find_first {α : Type} (p : α → Bool) (pre post : List α) (a : α)
    (hpre : ∀ b ∈ pre, p b = false) (ha : p a = true) :
    (pre ++ a :: post).find? p = some a := by
  rw [List.find?_append, List.find?_eq_none.mpr (fun b hb => by simp [hpre b hb])]
  simp [List.find?_cons, ha]

theorem getActivePack_first (s : UFXManagerSubsystem) (h : FActiveEffectPackHandle)
    (pre post : List FActiveEffectPack) (p : FActiveEffectPack)
    (hsplit : (if h.GetPackType = EEffectActivationType.Active then s.ActiveEffectPacks
      else s.InstantEffectPacks) = pre ++ p :: post)
    (hpre : ∀ q ∈ pre, q.Id ≠ h.GetId) (hp : p.Id = h.GetId) (hid : h.GetId ≠ -1) :
    s.GetActivePack h = PackReference.Stored p := by
  have hv : h.IsValid = true := by
    have : h.Id ≠ -1 := hid
    simp [FActiveEffectPackHandle.IsValid, this]
  unfold UFXManagerSubsystem.GetActivePack
  simp only [hv, Bool.not_true, Bool.false_eq_true, if_false, hsplit]
  rw [find_first _ pre post p (fun q hq => by simpa using hpre q hq) (by simpa using hp)]

/-- C12: the code departs from the claim in the lookups. The cleanup callback empties the
Instant collection and leaves the Active collection and the trace of engine calls as
they were, as the claim says; but a lookup with a handle of kind Instant then finds no
pack, so `GetActivePack` returns a reference to its destroyed local and the lookup has no
defined result, where the claim says it returns none. In the example state the handle
(1, Instant) finds component 102 under tag 7 before the cleanup. -/
theorem C12_lookup_after_cleanup_is_undefined (s : UFXManagerSubsystem) (Id : Int)
    (Tag : FGameplayTag) :
    (s.ClearInstantPacks.InstantEffectPacks = []
        ∧ s.ClearInstantPacks.ActiveEffectPacks = s.ActiveEffectPacks
        ∧ s.ClearInstantPacks.Engine = s.Engine)
      ∧ ((s.ClearInstantPacks.GetVfxSystemComponentByTag ⟨Id, EEffectActivationType.Instant⟩
            Tag).1 = LookupResult.Undefined
        ∧ (s.ClearInstantPacks.GetSfxSystemComponentByTag ⟨Id, EEffectActivationType.Instant⟩
            Tag).1 = LookupResult.Undefined)
      ∧ ((MixedPacks.GetVfxSystemComponentByTag ⟨1, EEffectActivationType.Instant⟩ 7).1
            = LookupResult.Returns (some 102)
        ∧ (MixedPacks.ClearInstantPacks.GetVfxSystemComponentByTag
            ⟨1, EEffectActivationType.Instant⟩ 7).1 = LookupResult.Undefined) := by
  have hno := getActivePack_of_not_found s.ClearInstantPacks
    ⟨Id, EEffectActivationType.Instant⟩ (by
      intro p hp
      simp [FActiveEffectPackHandle.GetPackType, UFXManagerSubsystem.ClearInstantPacks] at hp)
  refine ⟨⟨rfl, rfl, rfl⟩, ⟨?_, ?_⟩, by decide⟩
  · rw [getVfx_eq, hno]
  · rw [getSfx_eq, hno]

/-- C13: the code departs from the claim. For a handle whose id is -1, of any kind, in
any state and for any tag, `GetActivePack` returns a reference to its destroyed local
`TempPack`, which both lookups then read: the result is not defined, where the claim
says both lookups return none. In the state with two Active packs the handle
(-1, Active) has no defined result under tag 7, under which the handle (1, Active) finds
component 102. -/
theorem C13_invalid_handle_lookup_is_undefined (s : UFXManagerSubsystem)
    (Kind : EEffectActivationType) (Tag : FGameplayTag) :
    (s.GetActivePack ⟨-1, Kind⟩ = PackReference.DestroyedLocal
        ∧ (s.GetVfxSystemComponentByTag ⟨-1, Kind⟩ Tag).1 = LookupResult.Undefined
        ∧ (s.GetSfxSystemComponentByTag ⟨-1, Kind⟩ Tag).1 = LookupResult.Undefined)
      ∧ ((TwoActivePacks.GetVfxSystemComponentByTag ⟨-1, EEffectActivationType.Active⟩ 7).1
            = LookupResult.Undefined
        ∧ (TwoActivePacks.GetVfxSystemComponentByTag ⟨1, EEffectActivationType.Active⟩ 7).1
            = LookupResult.Returns (some 102)) := by
  have hp := getActivePack_of_invalid s ⟨-1, Kind⟩ rfl
  refine ⟨⟨hp, ?_, ?_⟩, by decide⟩
  · rw [getVfx_eq, hp]
  · rw [getSfx_eq, hp]

/-- C14: no lookup changes the state. When the handle resolves to a pack (`GetActivePack`
returns a reference to a stored pack, and that pack is valid), the pack is stored in the
collection of the kind of the handle under the id of the handle, and each lookup returns
the instance of the first entry, in list order, of the visual (respectively audio) list
of that pack whose access tag is the requested tag, and none when no entry carries the
tag. -/
theorem C14_lookup_first_entry_pure_read (s : UFXManagerSubsystem)
    (Handle : FActiveEffectPackHandle) (Tag : FGameplayTag) :
    ((s.GetVfxSystemComponentByTag Handle Tag).2 = s
        ∧ (s.GetSfxSystemComponentByTag Handle Tag).2 = s)
      ∧ (∀ Pack : FActiveEffectPack,
          s.GetActivePack Handle = PackReference.Stored Pack → Pack.IsValid = true →
          (Pack.Id = Handle.GetId
            ∧ Pack ∈
                (if Handle.GetPackType = EEffectActivationType.Active then s.ActiveEffectPacks
                 else s.InstantEffectPacks))
          ∧ (∀ (pre post : List (FActiveEffect ComponentPtr)) (a : FActiveEffect ComponentPtr),
              Pack.ActiveFXSystemComponents = pre ++ a :: post →
              (∀ b ∈ pre, b.AccessTag ≠ Tag) → a.AccessTag = Tag →
              (s.GetVfxSystemComponentByTag Handle Tag).1 = LookupResult.Returns a.Object)
          ∧ ((∀ b ∈ Pack.ActiveFXSystemComponents, b.AccessTag ≠ Tag) →
              (s.GetVfxSystemComponentByTag Handle Tag).1 = LookupResult.Returns none)
          ∧ (∀ (pre post : List (FActiveEffect ComponentPtr)) (a : FActiveEffect ComponentPtr),
              Pack.ActiveSoundComponents = pre ++ a :: post →
              (∀ b ∈ pre, b.AccessTag ≠ Tag) → a.AccessTag = Tag →
              (s.GetSfxSystemComponentByTag Handle Tag).1 = LookupResult.Returns a.Object)
          ∧ ((∀ b ∈ Pack.ActiveSoundComponents, b.AccessTag ≠ Tag) →
              (s.GetSfxSystemComponentByTag Handle Tag).1 = LookupResult.Returns none)) := by
  refine ⟨⟨getVfx_state s Handle Tag, getSfx_state s Handle Tag⟩, ?_⟩
  intro Pack hst hv
  refine ⟨getActivePack_of_stored s Handle Pack hst, ?_, ?_, ?_, ?_⟩
  · intro pre post a hsplit hpre ha
    rw [getVfx_eq, hst]
    simp only [hv, if_true]
    rw [hsplit,
      find_first _ pre post a (fun b hb => by simpa using hpre b hb) (by simpa using ha)]
    rfl
  · intro hno
    rw [getVfx_eq, hst]
    simp only [hv, if_true]
    rw [List.find?_eq_none.mpr (fun b hb => by simpa using hno b hb)]
    rfl
  · intro pre post a hsplit hpre ha
    rw [getSfx_eq, hst]
    simp only [hv, if_true]
    rw [hsplit,
      find_first _ pre post a (fun b hb => by simpa using hpre b hb) (by simpa using ha)]
    rfl
  · intro hno
    rw [getSfx_eq, hst]
    simp only [hv, if_true]
    rw [List.find?_eq_none.mpr (fun b hb => by simpa using hno b hb)]
    rfl

/-- Witness for C14: in a pack holding two visuals under tag 7, the lookup returns the
first one, component 100; under the unused tag 5 it returns none. -/
theorem C14_lookup_first_entry_pure_read_witness :
    RepeatedTagPacks.GetActivePack ⟨0, EEffectActivationType.Active⟩
        = PackReference.Stored
            { Id := 0, ActivationType := EEffectActivationType.Active, SourceActor := some 1,
              ActiveFXSystemComponents := [⟨7, some 100⟩, ⟨7, some 200⟩] }
      ∧ (RepeatedTagPacks.GetVfxSystemComponentByTag ⟨0, EEffectActivationType.Active⟩ 7).1
          = LookupResult.Returns (some 100)
      ∧ (RepeatedTagPacks.GetVfxSystemComponentByTag ⟨0, EEffectActivationType.Active⟩ 5).1
          = LookupResult.Returns none :=
  ⟨by decide,
   (C14_lookup_first_entry_pure_read RepeatedTagPacks ⟨0, EEffectActivationType.Active⟩ 7).2
      { Id := 0, ActivationType := EEffectActivationType.Active, SourceActor := some 1,
        ActiveFXSystemComponents := [⟨7, some 100⟩, ⟨7, some 200⟩] }
      (by decide) (by decide) |>.2.1 [] [⟨7, some 200⟩] ⟨7, some 100⟩ rfl (by decide) rfl,
   (C14_lookup_first_entry_pure_read RepeatedTagPacks ⟨0, EEffectActivationType.Active⟩ 5).2
      { Id := 0, ActivationType := EEffectActivationType.Active, SourceActor := some 1,
        ActiveFXSystemComponents := [⟨7, some 100⟩, ⟨7, some 200⟩] }
      (by decide) (by decide) |>.2.2.1 (by decide)⟩

theorem lookups_undefined_of_not_found (s : UFXManagerSubsystem) (h : FActiveEffectPackHandle)
    (t : FGameplayTag)
    (hno : ∀ p ∈ (if h.GetPackType = EEffectActivationType.Active then s.ActiveEffectPacks
      else s.InstantEffectPacks), p.Id ≠ h.GetId) :
    (s.GetVfxSystemComponentByTag h t).1 = LookupResult.Undefined
      ∧ (s.GetSfxSystemComponentByTag h t).1 = LookupResult.Undefined := by
  rw [getVfx_eq, getSfx_eq, getActivePack_of_not_found s h hno]
  exact ⟨rfl, rfl⟩

/-- C15: the code departs from the claim where the id is not in the collection of the
kind of the handle. A handle of kind Active is resolved in the Active collection, to its
first pack with the id of the handle, and a handle of kind Instant in the Instant
collection, whatever the other collection holds, as the claim says. But when the
collection of its kind holds no pack with the id, as for an id stored in the other
collection in a reachable state, `GetActivePack` returns a reference to its destroyed
local and both lookups have no defined result, where the claim says they return none. -/
theorem C15_cross_kind_lookup_is_undefined (s : UFXManagerSubsystem)
    (Handle : FActiveEffectPackHandle) (Tag : FGameplayTag) :
    (∀ (pre post : List FActiveEffectPack) (p : FActiveEffectPack),
        Handle.GetId ≠ -1 → p.Id = Handle.GetId → (∀ q ∈ pre, q.Id ≠ Handle.GetId) →
        (Handle.GetPackType = EEffectActivationType.Active →
          s.ActiveEffectPacks = pre ++ p :: post →
          s.GetActivePack Handle = PackReference.Stored p)
        ∧ (Handle.GetPackType = EEffectActivationType.Instant →
          s.InstantEffectPacks = pre ++ p :: post →
          s.GetActivePack Handle = PackReference.Stored p))
      ∧ (Handle.GetPackType = EEffectActivationType.Active →
        ∀ Instant : List FActiveEffectPack,
          UFXManagerSubsystem.GetActivePack { s with InstantEffectPacks := Instant } Handle
            = s.GetActivePack Handle
          ∧ (UFXManagerSubsystem.GetVfxSystemComponentByTag
              { s with InstantEffectPacks := Instant } Handle Tag).1
            = (s.GetVfxSystemComponentByTag Handle Tag).1
          ∧ (UFXManagerSubsystem.GetSfxSystemComponentByTag
              { s with InstantEffectPacks := Instant } Handle Tag).1
            = (s.GetSfxSystemComponentByTag Handle Tag).1)
      ∧ (Handle.GetPackType = EEffectActivationType.Instant →
        ∀ Active : List FActiveEffectPack,
          UFXManagerSubsystem.GetActivePack { s with ActiveEffectPacks := Active } Handle
            = s.GetActivePack Handle
          ∧ (UFXManagerSubsystem.GetVfxSystemComponentByTag
              { s with ActiveEffectPacks := Active } Handle Tag).1
            = (s.GetVfxSystemComponentByTag Handle Tag).1
          ∧ (UFXManagerSubsystem.GetSfxSystemComponentByTag
              { s with ActiveEffectPacks := Active } Handle Tag).1
            = (s.GetSfxSystemComponentByTag Handle Tag).1)
      ∧ (Reachable s → Handle.GetPackType = EEffectActivationType.Active →
          (∃ p ∈ s.InstantEffectPacks, p.Id = Handle.GetId) →
          (s.GetVfxSystemComponentByTag Handle Tag).1 = LookupResult.Undefined
            ∧ (s.GetSfxSystemComponentByTag Handle Tag).1 = LookupResult.Undefined)
      ∧ (Reachable s → Handle.GetPackType = EEffectActivationType.Instant →
          (∃ p ∈ s.ActiveEffectPacks, p.Id = Handle.GetId) →
          (s.GetVfxSystemComponentByTag Handle Tag).1 = LookupResult.Undefined
            ∧ (s.GetSfxSystemComponentByTag Handle Tag).1 = LookupResult.Undefined) := by
  refine ⟨?_, ?_, ?_, ?_, ?_⟩
  · intro pre post p hid hp hpre
    constructor
    · intro hk hsplit
      exact getActivePack_first s Handle pre post p (by rw [if_pos hk]; exact hsplit) hpre hp hid
    · intro hk hsplit
      exact getActivePack_first s Handle pre post p
        (by rw [if_neg (by rw [hk]; decide)]; exact hsplit) hpre hp hid
  · intro hk Instant
    have hp : UFXManagerSubsystem.GetActivePack { s with InstantEffectPacks := Instant } Handle
        = s.GetActivePack Handle := by
      simp [UFXManagerSubsystem.GetActivePack, hk]
    rw [getVfx_eq, getSfx_eq, getVfx_eq, getSfx_eq, hp]
    exact ⟨rfl, rfl, rfl⟩
  · intro hk Active
    have hp : UFXManagerSubsystem.GetActivePack { s with ActiveEffectPacks := Active } Handle
        = s.GetActivePack Handle := by
      simp [UFXManagerSubsystem.GetActivePack, hk]
    rw [getVfx_eq, getSfx_eq, getVfx_eq, getSfx_eq, hp]
    exact ⟨rfl, rfl, rfl⟩
  · rintro hr hk ⟨p, hp, hpid⟩
    have hnd := (reachable_wellFormed hr).nodup
    rw [List.map_append, List.nodup_append] at hnd
    apply lookups_undefined_of_not_found
    rw [if_pos hk]
    intro q hq hqid
    exact hnd.2.2 (List.mem_map_of_mem _ hq)
      (by rw [hqid, ← hpid]; exact List.mem_map_of_mem _ hp)
  · rintro hr hk ⟨p, hp, hpid⟩
    have hnd := (reachable_wellFormed hr).nodup
    rw [List.map_append, List.nodup_append] at hnd
    apply lookups_undefined_of_not_found
    rw [if_neg (by rw [hk]; decide)]
    intro q hq hqid
    exact hnd.2.2 (by rw [hqid, ← hpid]; exact List.mem_map_of_mem _ hp)
      (List.mem_map_of_mem _ hq)

/-- Witness for C15: after the activation that stored pack 0 in the Instant collection,
the handle (0, Instant) is resolved to that pack and finds component 100 under tag 7,
while the handle (0, Active), with the same id but the other kind, has no defined
result. -/
theorem C15_cross_kind_lookup_is_undefined_witness :
    (Reachable AfterNoneActivation
      ∧ ∃ p ∈ AfterNoneActivation.InstantEffectPacks,
          p.Id = FActiveEffectPackHandle.GetId ⟨0, EEffectActivationType.Active⟩)
    ∧ AfterNoneActivation.GetActivePack ⟨0, EEffectActivationType.Instant⟩
        = PackReference.Stored
            { Id := 0, ActivationType := EEffectActivationType.None, SourceActor := some 1,
              ActiveFXSystemComponents := [⟨7, some 100⟩] }
    ∧ (AfterNoneActivation.GetVfxSystemComponentByTag ⟨0, EEffectActivationType.Instant⟩ 7).1
        = LookupResult.Returns (some 100)
    ∧ ((AfterNoneActivation.GetVfxSystemComponentByTag ⟨0, EEffectActivationType.Active⟩ 7).1
          = LookupResult.Undefined
      ∧ (AfterNoneActivation.GetSfxSystemComponentByTag ⟨0, EEffectActivationType.Active⟩ 7).1
          = LookupResult.Undefined) :=
  ⟨⟨Reachable.step Reachable.initial (Step.playAtLocation _ _ _ _ _ _ _), by decide⟩,
   ((C15_cross_kind_lookup_is_undefined AfterNoneActivation
      ⟨0, EEffectActivationType.Instant⟩ 7).1 [] []
      { Id := 0, ActivationType := EEffectActivationType.None, SourceActor := some 1,
        ActiveFXSystemComponents := [⟨7, some 100⟩] }
      (by decide) rfl (by decide)).2 rfl (by decide),
   by decide,
   (C15_cross_kind_lookup_is_undefined AfterNoneActivation
      ⟨0, EEffectActivationType.Active⟩ 7).2.2.2.1
      (Reachable.step Reachable.initial (Step.playAtLocation _ _ _ _ _ _ _)) rfl (by decide)⟩

/-- C16: an activation that passes the input checks, in a state whose counter is
non-negative (every reachable state), and in which at least one descriptor passes its
gate and so contributes a live-list entry, appends exactly one new pack: to the Active
collection when the requested kind is Active, to the Instant collection otherwise, the
other collection being unchanged. The pack carries the counter value as id, and the
returned handle carries that id and the requested kind. -/
theorem C16_registers_one_pack_in_one_collection (R : Renderer) (s : UFXManagerSubsystem)
    (a : Activation) (hin : a.FailsInputCheck = false) (hn : 0 ≤ s.Internal_NextId)
    (hsome : (∃ d ∈ a.EffectPack.VFXData, a.GatePasses d.toFFXData = true)
      ∨ (∃ d ∈ a.EffectPack.SFXData, a.GatePasses d.toFFXData = true)) :
    ∃ pk : FActiveEffectPack,
      pk.Id = s.Internal_NextId
        ∧ pk.ActivationType = a.ActivationType
        ∧ pk.ActiveFXSystemComponents.map (fun e => e.AccessTag)
            = (a.EffectPack.VFXData.filter (fun d => a.GatePasses d.toFFXData)).map
                (fun d => d.AccessTag)
        ∧ pk.ActiveSoundComponents.map (fun e => e.AccessTag)
            = (a.EffectPack.SFXData.filter (fun d => a.GatePasses d.toFFXData)).map
                (fun d => d.AccessTag)
        ∧ (a.Play R s).1 = ⟨pk.Id, a.ActivationType⟩
        ∧ (a.ActivationType = EEffectActivationType.Active →
            (a.Play R s).2.ActiveEffectPacks = s.ActiveEffectPacks ++ [pk]
              ∧ (a.Play R s).2.InstantEffectPacks = s.InstantEffectPacks)
        ∧ (a.ActivationType ≠ EEffectActivationType.Active →
            (a.Play R s).2.InstantEffectPacks = s.InstantEffectPacks ++ [pk]
              ∧ (a.Play R s).2.ActiveEffectPacks = s.ActiveEffectPacks) := by
  obtain ⟨pk, e, hasm, heq⟩ := play_of_passes R s a hin
  have hact : pk.IsActive = true := by
    cases hact : pk.IsActive with
    | true => rfl
    | false =>
      obtain ⟨h1, h2⟩ := (assembled_isActive s a pk hn hasm).mp hact
      rcases hsome with ⟨d, hd, hg⟩ | ⟨d, hd, hg⟩
      · rw [h1 d hd] at hg; cases hg
      · rw [h2 d hd] at hg; cases hg
  refine ⟨pk, hasm.id_eq, hasm.kind_eq, hasm.vfx_tags, hasm.sfx_tags, ?_, ?_, ?_⟩
  · rw [heq, register_of_active _ _ _ hact]
    simp [FActiveEffectPack.CreateHandle, hasm.kind_eq]
  · intro hk
    rw [heq, register_of_active _ _ _ hact]
    simp [hk]
  · intro hk
    rw [heq, register_of_active _ _ _ hact]
    obtain ⟨h1, h2, _⟩ := addInstantPack_fields
      { s with Internal_NextId := s.Internal_NextId + 1, Engine := e } pk
    simp only [hk, if_false]
    exact ⟨h1, h2⟩

/-- Witness for C16: the Instant activation of the Cascade descriptor in the state with
two Active packs returns the handle (2, Instant) and leaves the Active collection as it
was. -/
theorem C16_registers_one_pack_in_one_collection_witness :
    (InstantActivation.FailsInputCheck = false
      ∧ 0 ≤ TwoActivePacks.Internal_NextId
      ∧ ∃ d ∈ InstantActivation.EffectPack.VFXData, InstantActivation.GatePasses d.toFFXData = true)
    ∧ ∃ pk : FActiveEffectPack,
        (InstantActivation.Play CountingRenderer TwoActivePacks).1 = ⟨pk.Id, EEffectActivationType.Instant⟩
          ∧ pk.Id = 2
          ∧ (InstantActivation.Play CountingRenderer TwoActivePacks).2.InstantEffectPacks = [pk]
          ∧ (InstantActivation.Play CountingRenderer TwoActivePacks).2.ActiveEffectPacks
              = [FirstPack, SecondPack] := by
  refine ⟨⟨by decide, by decide, by decide⟩, ?_⟩
  obtain ⟨pk, h1, _, _, _, h5, _, h7⟩ :=
    C16_registers_one_pack_in_one_collection CountingRenderer TwoActivePacks InstantActivation
      (by decide) (by decide) (Or.inl (by decide))
  exact ⟨pk, h5, h1, (h7 (by decide)).1, (h7 (by decide)).2⟩

theorem eraseP_no_match (x : Int) (l : List FActiveEffectPack)
    (hnd : (l.map (fun p => p.Id)).Nodup) :
    ∀ q ∈ l.eraseP (fun p => p.Id == x), q.Id ≠ x := by
  induction l with
  | nil => intro q hq; simp at hq
  | cons a l ih =>
    rw [List.map_cons, List.nodup_cons] at hnd
    by_cases ha : a.Id = x
    · intro q hq hqx
      simp [List.eraseP_cons, ha] at hq
      exact hnd.1 (by rw [ha, ← hqx]; exact List.mem_map_of_mem _ hq)
    · intro q hq
      have hb : (a.Id == x) = false := by simpa using ha
      simp [List.eraseP_cons, hb] at hq
      rcases hq with rfl | hq
      · exact ha
      · exact ih hnd.2 q hq

/-- C17: stopping is idempotent. In a state whose Active ids are pairwise distinct (every
reachable state), `StopActivePack` applied twice with the same handle gives the same
state, trace of deactivate calls included, as applying it once; `StopActivePacks` applied
twice with the same list gives the same state as applying it once. -/
theorem C17_stop_is_idempotent (s : UFXManagerSubsystem) (Handle : FActiveEffectPackHandle)
    (Handles : List FActiveEffectPackHandle)
    (hnd : (s.ActiveEffectPacks.map (fun p => p.Id)).Nodup) :
    (s.StopActivePack Handle).StopActivePack Handle = s.StopActivePack Handle
      ∧ (s.StopActivePacks Handles).StopActivePacks Handles = s.StopActivePacks Handles := by
  constructor
  · have hno := eraseP_no_match Handle.GetId s.ActiveEffectPacks hnd
    rw [stopActivePack_eq (s.StopActivePack Handle), stopActivePack_eq s]
    have hfind : (s.ActiveEffectPacks.eraseP (fun p => p.Id == Handle.GetId)).find?
        (fun p => p.Id == Handle.GetId) = none := by
      rw [List.find?_eq_none]
      intro q hq
      simpa using hno q hq
    have herase : (s.ActiveEffectPacks.eraseP (fun p => p.Id == Handle.GetId)).eraseP
        (fun p => p.Id == Handle.GetId)
        = s.ActiveEffectPacks.eraseP (fun p => p.Id == Handle.GetId) :=
      List.eraseP_of_forall_not (fun q hq => by simpa using hno q hq)
    simp only [hfind, herase]
    simp [EngineTrace.withCalls]
  · rw [stopActivePacks_eq (s.StopActivePacks Handles), stopActivePacks_eq s]
    have h1 : (s.ActiveEffectPacks.filter (fun p => !(CollectPackIds Handles).contains p.Id)).filter
        (fun p => !(CollectPackIds Handles).contains p.Id)
        = s.ActiveEffectPacks.filter (fun p => !(CollectPackIds Handles).contains p.Id) := by
      rw [List.filter_filter]
      exact List.filter_congr (fun p _ => by simp)
    have h2 : (s.ActiveEffectPacks.filter (fun p => !(CollectPackIds Handles).contains p.Id)).filter
        (fun p => (CollectPackIds Handles).contains p.Id) = [] := by
      rw [List.filter_filter, List.filter_eq_nil_iff]
      intro p _
      simp
    simp only [h1, h2]
    simp [EngineTrace.withCalls]

/-- Witness for C17: in the state with two Active packs, stopping handle 1 twice, or the
batch of handles 1 and 0 twice, gives the same state as stopping once. -/
theorem C17_stop_is_idempotent_witness :
    (TwoActivePacks.ActiveEffectPacks.map (fun p => p.Id)).Nodup
      ∧ ((TwoActivePacks.StopActivePack ⟨1, EEffectActivationType.Active⟩).StopActivePack
            ⟨1, EEffectActivationType.Active⟩
          = TwoActivePacks.StopActivePack ⟨1, EEffectActivationType.Active⟩
        ∧ (TwoActivePacks.StopActivePacks
              [⟨1, EEffectActivationType.Active⟩, ⟨0, EEffectActivationType.Active⟩]).StopActivePacks
              [⟨1, EEffectActivationType.Active⟩, ⟨0, EEffectActivationType.Active⟩]
          = TwoActivePacks.StopActivePacks
              [⟨1, EEffectActivationType.Active⟩, ⟨0, EEffectActivationType.Active⟩]) :=
  ⟨by decide,
   C17_stop_is_idempotent TwoActivePacks ⟨1, EEffectActivationType.Active⟩
     [⟨1, EEffectActivationType.Active⟩, ⟨0, EEffectActivationType.Active⟩] (by decide)⟩

theorem spawn_requests (R : Renderer) (req : SpawnRequest) (e : EngineTrace) :
    (e.Spawn R req).2.SpawnRequests = e.SpawnRequests ++ [req] := rfl

theorem vfxAtLocation_not_attached (R : Renderer) (d : FVFXData) (src : Option AActor)
    (T : FTransform) (e : EngineTrace) :
    ∃ reqs, (SpawnVFXDataAtLocation R d src T e).2.SpawnRequests = e.SpawnRequests ++ reqs
      ∧ ∀ r ∈ reqs, r.IsAttached = false := by
  unfold SpawnVFXDataAtLocation
  cases d.ParticleSystem with
  | none => exact ⟨[], by simp, by simp⟩
  | some A =>
    cases hA : A.AssetClass <;> simp only [hA]
    · exact ⟨[_], spawn_requests R _ e, by simp [SpawnRequest.IsAttached]⟩
    · exact ⟨[_], spawn_requests R _ e, by simp [SpawnRequest.IsAttached]⟩
    · exact ⟨[], by simp, by simp⟩

theorem sfxAtLocation_not_attached (R : Renderer) (d : FSFXData) (src : Option AActor)
    (T : FTransform) (e : EngineTrace) :
    ∃ reqs, (SpawnSFXDataAtLocation R d src T e).2.SpawnRequests = e.SpawnRequests ++ reqs
      ∧ ∀ r ∈ reqs, r.IsAttached = false := by
  unfold SpawnSFXDataAtLocation
  cases d.Sound with
  | none => exact ⟨[], by simp, by simp⟩
  | some A =>
    cases hA : d.AudioType <;> simp only [hA]
    · exact ⟨[_], spawn_requests R _ e, by simp [SpawnRequest.IsAttached]⟩
    · exact ⟨[_], spawn_requests R _ e, by simp [SpawnRequest.IsAttached]⟩

/-- C18: for a visual descriptor whose attach type is `AtSocketLocation`, whatever its
asset, the attach component and the source, `SpawnVFXDataAtComponent` gives exactly the
result of `SpawnVFXDataAtLocation` called with the socket transform of the component for
the socket name of the descriptor, and every spawn request it issues is an at-location
request, none an attached one. The same holds for an audio descriptor between
`SpawnSFXDataAtComponent` and `SpawnSFXDataAtLocation`. -/
theorem C18_socket_location_spawns_at_location (R : Renderer) (v : FVFXData) (a : FSFXData)
    (SourceActor : Option AActor) (AttachComponent : USceneComponent) (e : EngineTrace)
    (hv : v.AttachmentData.AttachType = EAttachType.AtSocketLocation)
    (ha : a.AttachmentData.AttachType = EAttachType.AtSocketLocation) :
    (SpawnVFXDataAtComponent R v SourceActor AttachComponent e
        = SpawnVFXDataAtLocation R v SourceActor
            (AttachComponent.GetSocketTransform v.AttachmentData.SocketName) e
      ∧ ∃ reqs, (SpawnVFXDataAtComponent R v SourceActor AttachComponent e).2.SpawnRequests
            = e.SpawnRequests ++ reqs
          ∧ ∀ r ∈ reqs, r.IsAttached = false)
    ∧ (SpawnSFXDataAtComponent R a SourceActor AttachComponent e
        = SpawnSFXDataAtLocation R a SourceActor
            (AttachComponent.GetSocketTransform a.AttachmentData.SocketName) e
      ∧ ∃ reqs, (SpawnSFXDataAtComponent R a SourceActor AttachComponent e).2.SpawnRequests
            = e.SpawnRequests ++ reqs
          ∧ ∀ r ∈ reqs, r.IsAttached = false) := by
  have h1 : SpawnVFXDataAtComponent R v SourceActor AttachComponent e
      = SpawnVFXDataAtLocation R v SourceActor
          (AttachComponent.GetSocketTransform v.AttachmentData.SocketName) e := by
    unfold SpawnVFXDataAtComponent
    cases hp : v.ParticleSystem with
    | none => simp [SpawnVFXDataAtLocation, hp]
    | some A => simp [hv]
  have h2 : SpawnSFXDataAtComponent R a SourceActor AttachComponent e
      = SpawnSFXDataAtLocation R a SourceActor
          (AttachComponent.GetSocketTransform a.AttachmentData.SocketName) e := by
    unfold SpawnSFXDataAtComponent
    cases hp : a.Sound with
    | none => simp [SpawnSFXDataAtLocation, hp]
    | some A => simp [ha]
  refine ⟨⟨h1, ?_⟩, ⟨h2, ?_⟩⟩
  · rw [h1]; exact vfxAtLocation_not_attached R v SourceActor _ e
  · rw [h2]; exact sfxAtLocation_not_attached R a SourceActor _ e

/-- Witness for C18: the offset Cascade descriptor and the three-dimensional sound, both
with the default attach type, spawned at a component whose socket sits at (10, 20, 30). -/
theorem C18_socket_location_spawns_at_location_witness :
    (OffsetVisual.AttachmentData.AttachType = EAttachType.AtSocketLocation
      ∧ SpatialSound.AttachmentData.AttachType = EAttachType.AtSocketLocation)
    ∧ SpawnVFXDataAtComponent CountingRenderer OffsetVisual (some PlainActor) SocketComponent {}
        = SpawnVFXDataAtLocation CountingRenderer OffsetVisual (some PlainActor) OffsetPlacement {}
    ∧ SpawnSFXDataAtComponent CountingRenderer SpatialSound (some PlainActor) SocketComponent {}
        = SpawnSFXDataAtLocation CountingRenderer SpatialSound (some PlainActor) OffsetPlacement
            {} :=
  ⟨⟨rfl, rfl⟩,
   (C18_socket_location_spawns_at_location CountingRenderer OffsetVisual SpatialSound
      (some PlainActor) SocketComponent {} rfl rfl).1.1,
   (C18_socket_location_spawns_at_location CountingRenderer OffsetVisual SpatialSound
      (some PlainActor) SocketComponent {} rfl rfl).2.1⟩

/-- C19: for a visual descriptor with a non-null asset, the request `SpawnVFXDataAtLocation`
issues (an emitter request for a Cascade asset, a system request for a Niagara asset, no
request for an asset of another class) carries as location the coordinate-wise sum of
the placement location and the relative location of the descriptor, and as scale the
coordinate-wise product of the placement scale and the relative scale. -/
theorem C19_location_sum_scale_product (R : Renderer) (d : FVFXData)
    (SourceActor : Option AActor) (Transform : FTransform) (e : EngineTrace)
    (Asset : UFXSystemAsset) (hasset : d.ParticleSystem = some Asset) :
    (Asset.AssetClass = EFXAssetClass.Cascade →
        ∃ Rotation : FQuat,
          SpawnVFXDataAtLocation R d SourceActor Transform e
            = e.Spawn R (SpawnRequest.EmitterAtLocation (SourceActor.map AActor.ActorId)
                Asset.AssetId
                ⟨Transform.Translation.X + d.AttachmentData.RelativeTransform.Translation.X,
                 Transform.Translation.Y + d.AttachmentData.RelativeTransform.Translation.Y,
                 Transform.Translation.Z + d.AttachmentData.RelativeTransform.Translation.Z⟩
                Rotation
                ⟨Transform.Scale3D.X * d.AttachmentData.RelativeTransform.Scale3D.X,
                 Transform.Scale3D.Y * d.AttachmentData.RelativeTransform.Scale3D.Y,
                 Transform.Scale3D.Z * d.AttachmentData.RelativeTransform.Scale3D.Z⟩))
      ∧ (Asset.AssetClass = EFXAssetClass.Niagara →
        ∃ Rotation : FQuat,
          SpawnVFXDataAtLocation R d SourceActor Transform e
            = e.Spawn R (SpawnRequest.SystemAtLocation (SourceActor.map AActor.ActorId)
                Asset.AssetId
                ⟨Transform.Translation.X + d.AttachmentData.RelativeTransform.Translation.X,
                 Transform.Translation.Y + d.AttachmentData.RelativeTransform.Translation.Y,
                 Transform.Translation.Z + d.AttachmentData.RelativeTransform.Translation.Z⟩
                Rotation
                ⟨Transform.Scale3D.X * d.AttachmentData.RelativeTransform.Scale3D.X,
                 Transform.Scale3D.Y * d.AttachmentData.RelativeTransform.Scale3D.Y,
                 Transform.Scale3D.Z * d.AttachmentData.RelativeTransform.Scale3D.Z⟩))
      ∧ (Asset.AssetClass = EFXAssetClass.Other →
          SpawnVFXDataAtLocation R d SourceActor Transform e = (none, e)) := by
  refine ⟨?_, ?_, ?_⟩
  · intro hc
    exact ⟨_, by
      simp only [SpawnVFXDataAtLocation, hasset, hc]
      rfl⟩
  · intro hc
    exact ⟨_, by
      simp only [SpawnVFXDataAtLocation, hasset, hc]
      rfl⟩
  · intro hc
    simp only [SpawnVFXDataAtLocation, hasset, hc]

/-- Witness for C19: placement at (10, 20, 30) with scale (2, 3, 4) and a descriptor with
relative location (1, 2, 3) and relative scale (5, 6, 7) give a request at (11, 22, 33)
with scale (10, 18, 28). -/
theorem C19_location_sum_scale_product_witness :
    OffsetVisual.ParticleSystem = some ⟨3, EFXAssetClass.Cascade⟩
      ∧ ∃ Rotation : FQuat,
          SpawnVFXDataAtLocation CountingRenderer OffsetVisual (some PlainActor) OffsetPlacement {}
            = EngineTrace.Spawn CountingRenderer
                (SpawnRequest.EmitterAtLocation (some 1) 3 ⟨11, 22, 33⟩ Rotation ⟨10, 18, 28⟩) {} :=
  ⟨rfl,
   (C19_location_sum_scale_product CountingRenderer OffsetVisual (some PlainActor)
      OffsetPlacement {} ⟨3, EFXAssetClass.Cascade⟩ rfl).1 rfl⟩

/-- C20: the code departs from the stated rotation. With a placement turned by half a
turn and the identity relative rotation, the quaternion handed to the rotator conversion
by the visual and by the three-dimensional audio spawn is the coordinate-wise sum
(0, 0, 1, 1), while the composition of the two rotations is the placement rotation
(0, 0, 1, 0) itself. -/
theorem C20_rotation_is_sum_not_composition :
    (SpawnVFXDataAtLocation CountingRenderer CascadeVisual (some PlainActor) HalfTurnPlacement
        {}).2.SpawnRequests
        = [SpawnRequest.EmitterAtLocation (some 1) 3 ⟨0, 0, 0⟩ ⟨0, 0, 1, 1⟩ ⟨1, 1, 1⟩]
      ∧ (SpawnSFXDataAtLocation CountingRenderer SpatialSound (some PlainActor) HalfTurnPlacement
          {}).2.SpawnRequests
        = [SpawnRequest.SoundAtLocation (some 1) 4 ⟨0, 0, 0⟩ ⟨0, 0, 1, 1⟩]
      ∧ CascadeVisual.AttachmentData.RelativeTransform.GetRotation = FQuat.Identity
      ∧ SpecRotation HalfTurnPlacement.GetRotation
            CascadeVisual.AttachmentData.RelativeTransform.GetRotation
          = HalfTurnPlacement.GetRotation
      ∧ HalfTurnPlacement.GetRotation = ⟨0, 0, 1, 0⟩ := by
  decide

/-- C23: `CanPlay` decides both sides by the emptiness of the SOURCE sets of the gate. It
is true exactly when the source-required set is empty or the source owns all of it and
the target owns all of the target-required set, and the source-blocking set is empty or
the source owns none of it and the target owns none of the target-blocking set. In
particular, with both source sets empty it is true whatever the target sets and the owned
tags are. -/
theorem C23_canPlay_gated_by_source_sets (d : FFXData)
    (SourceTags TargetTags : FGameplayTagContainer) :
    (d.CanPlay SourceTags TargetTags = true ↔
        (d.TagRequirements.SourceRequiredTags.GameplayTags = []
          ∨ ((∀ t ∈ d.TagRequirements.SourceRequiredTags.GameplayTags,
                t ∈ SourceTags.GameplayTags)
            ∧ (∀ t ∈ d.TagRequirements.TargetRequiredTags.GameplayTags,
                t ∈ TargetTags.GameplayTags)))
        ∧ (d.TagRequirements.SourceBlockingTags.GameplayTags = []
          ∨ ((∀ t ∈ d.TagRequirements.SourceBlockingTags.GameplayTags,
                t ∉ SourceTags.GameplayTags)
            ∧ (∀ t ∈ d.TagRequirements.TargetBlockingTags.GameplayTags,
                t ∉ TargetTags.GameplayTags))))
      ∧ (d.TagRequirements.SourceRequiredTags.GameplayTags = [] →
          d.TagRequirements.SourceBlockingTags.GameplayTags = [] →
          d.CanPlay SourceTags TargetTags = true) := by
  have key : d.CanPlay SourceTags TargetTags = true ↔
      (d.TagRequirements.SourceRequiredTags.GameplayTags = []
        ∨ ((∀ t ∈ d.TagRequirements.SourceRequiredTags.GameplayTags,
              t ∈ SourceTags.GameplayTags)
          ∧ (∀ t ∈ d.TagRequirements.TargetRequiredTags.GameplayTags,
              t ∈ TargetTags.GameplayTags)))
      ∧ (d.TagRequirements.SourceBlockingTags.GameplayTags = []
        ∨ ((∀ t ∈ d.TagRequirements.SourceBlockingTags.GameplayTags,
              t ∉ SourceTags.GameplayTags)
          ∧ (∀ t ∈ d.TagRequirements.TargetBlockingTags.GameplayTags,
              t ∉ TargetTags.GameplayTags))) := by
    unfold FFXData.CanPlay FTagRequirements.MeetsSourceAndTargetCriteria
      FTagRequirements.MeetsSourceTagCriteria FTagRequirements.MeetsTargetTagCriteria
      FTagRequirements.MeetsTagCriteria FGameplayTagContainer.IsEmpty
      FGameplayTagContainer.HasAllExact FGameplayTagContainer.HasAnyExact
      FGameplayTagContainer.HasTagExact
    by_cases h1 : d.TagRequirements.SourceRequiredTags.GameplayTags = [] <;>
      by_cases h2 : d.TagRequirements.SourceBlockingTags.GameplayTags = [] <;>
        simp [h1, h2]
    all_goals tauto
  exact ⟨key, fun h1 h2 => key.mpr ⟨Or.inl h1, Or.inl h2⟩⟩

/-- Witness for C23: a gate with empty source sets that requires tag 1 and blocks tag 2
on the target lets the descriptor play for a target owning only the blocked tag. -/
theorem C23_canPlay_gated_by_source_sets_witness :
    TargetSetsGate.SourceRequiredTags.GameplayTags = []
      ∧ TargetSetsGate.SourceBlockingTags.GameplayTags = []
      ∧ FFXData.CanPlay { AccessTag := 0, TagRequirements := TargetSetsGate } ⟨[]⟩ ⟨[2]⟩ = true :=
  ⟨rfl, rfl,
   (C23_canPlay_gated_by_source_sets { AccessTag := 0, TagRequirements := TargetSetsGate }
      ⟨[]⟩ ⟨[2]⟩).2 rfl rfl⟩

theorem play_nextId_of_passes (R : Renderer) (s : UFXManagerSubsystem) (a : Activation)
    (h : a.FailsInputCheck = false) :
    (a.Play R s).2.Internal_NextId = s.Internal_NextId + 1 := by
  obtain ⟨pk, e, _, heq⟩ := play_of_passes R s a h
  rw [heq, register_nextId]

/-- C24: an activation that passes the input checks moves the counter up by exactly one,
also when it returns the invalid handle; an activation that fails an input check, both
stop operations, both lookups, the cleanup callback and the next tick leave the counter
as it was. -/
theorem C24_counter_moves_only_on_checked_activation (R : Renderer) (s : UFXManagerSubsystem)
    (a : Activation) (Handle : FActiveEffectPackHandle)
    (Handles : List FActiveEffectPackHandle) (Tag : FGameplayTag) :
    (a.FailsInputCheck = false →
        (a.Play R s).2.Internal_NextId = s.Internal_NextId + 1)
      ∧ (a.FailsInputCheck = true → (a.Play R s).2.Internal_NextId = s.Internal_NextId)
      ∧ (s.StopActivePack Handle).Internal_NextId = s.Internal_NextId
      ∧ (s.StopActivePacks Handles).Internal_NextId = s.Internal_NextId
      ∧ (s.GetVfxSystemComponentByTag Handle Tag).2.Internal_NextId = s.Internal_NextId
      ∧ (s.GetSfxSystemComponentByTag Handle Tag).2.Internal_NextId = s.Internal_NextId
      ∧ s.ClearInstantPacks.Internal_NextId = s.Internal_NextId
      ∧ s.NextTick.Internal_NextId = s.Internal_NextId := by
  refine ⟨play_nextId_of_passes R s a, ?_, ?_, ?_, ?_, ?_, rfl, ?_⟩
  · intro h; rw [play_of_fails R s a h]
  · rw [stopActivePack_eq]
  · rw [stopActivePacks_eq]
  · rw [getVfx_state]
  · rw [getSfx_state]
  · unfold UFXManagerSubsystem.NextTick UFXManagerSubsystem.ClearInstantPacks
    by_cases h : s.Engine.TimerActive = true <;> simp [h]

/-- Witness for C24: the activation whose only descriptor is gated out returns the
invalid handle and still moves the counter from 2 to 3; the activation of an empty pack
leaves it at 2. -/
theorem C24_counter_moves_only_on_checked_activation_witness :
    (GatedActivation.FailsInputCheck = false ∧ EmptyPackActivation.FailsInputCheck = true)
      ∧ (GatedActivation.Play CountingRenderer TwoActivePacks).1.IsValid = false
      ∧ (GatedActivation.Play CountingRenderer TwoActivePacks).2.Internal_NextId = 3
      ∧ (EmptyPackActivation.Play CountingRenderer TwoActivePacks).2.Internal_NextId = 2 :=
  ⟨⟨by decide, by decide⟩, by decide,
   (C24_counter_moves_only_on_checked_activation CountingRenderer TwoActivePacks
      GatedActivation ⟨0, EEffectActivationType.Active⟩ [] 0).1 (by decide),
   (C24_counter_moves_only_on_checked_activation CountingRenderer TwoActivePacks
      EmptyPackActivation ⟨0, EEffectActivationType.Active⟩ [] 0).2.1 (by decide)⟩

theorem forEach_vfx_spawnEach {D : Type} (CanPlay : D → Bool)
    (Spawn : D → EngineTrace → ComponentPtr × EngineTrace) (tag : D → FGameplayTag)
    (ds : List D) :
    ∀ (p : FActiveEffectPack) (e : EngineTrace),
      ForEachEffect CanPlay Spawn (fun q c d => q.AddActiveVFX c (tag d)) ds p e
        = ({ p with ActiveFXSystemComponents :=
              p.ActiveFXSystemComponents ++ (SpawnEach tag Spawn (ds.filter CanPlay) e).1 },
           (SpawnEach tag Spawn (ds.filter CanPlay) e).2) := by
  induction ds with
  | nil => intro p e; simp [ForEachEffect, SpawnEach]
  | cons d ds ih =>
    intro p e
    cases hd : CanPlay d with
    | false =>
      simp only [ForEachEffect, hd, Bool.not_false, if_true]
      rw [ih p e]
      simp [List.filter_cons, hd]
    | true =>
      simp only [ForEachEffect, hd, Bool.not_true, Bool.false_eq_true, if_false]
      rw [ih]
      simp [List.filter_cons, hd, SpawnEach, FActiveEffectPack.AddActiveVFX]

theorem forEach_sfx_spawnEach {D : Type} (CanPlay : D → Bool)
    (Spawn : D → EngineTrace → ComponentPtr × EngineTrace) (tag : D → FGameplayTag)
    (ds : List D) :
    ∀ (p : FActiveEffectPack) (e : EngineTrace),
      ForEachEffect CanPlay Spawn (fun q c d => q.AddActiveSound c (tag d)) ds p e
        = ({ p with ActiveSoundComponents :=
              p.ActiveSoundComponents ++ (SpawnEach tag Spawn (ds.filter CanPlay) e).1 },
           (SpawnEach tag Spawn (ds.filter CanPlay) e).2) := by
  induction ds with
  | nil => intro p e; simp [ForEachEffect, SpawnEach]
  | cons d ds ih =>
    intro p e
    cases hd : CanPlay d with
    | false =>
      simp only [ForEachEffect, hd, Bool.not_false, if_true]
      rw [ih p e]
      simp [List.filter_cons, hd]
    | true =>
      simp only [ForEachEffect, hd, Bool.not_true, Bool.false_eq_true, if_false]
      rw [ih]
      simp [List.filter_cons, hd, SpawnEach, FActiveEffectPack.AddActiveSound]

theorem spawnEach_tags {D : Type} (tag : D → FGameplayTag)
    (Spawn : D → EngineTrace → ComponentPtr × EngineTrace) (ds : List D) :
    ∀ e : EngineTrace, (SpawnEach tag Spawn ds e).1.map (fun x => x.AccessTag) = ds.map tag := by
  induction ds with
  | nil => intro e; rfl
  | cons d ds ih => intro e; simp [SpawnEach, ih]

theorem play_eq_spawned (R : Renderer) (s : UFXManagerSubsystem) (a : Activation)
    (hin : a.FailsInputCheck = false) :
    a.Play R s
      = UFXManagerSubsystem.Register
          { s with Internal_NextId := s.Internal_NextId + 1, Engine := (a.SpawnedAudio R s).2 }
          { Id := s.Internal_NextId, ActivationType := a.ActivationType,
            SourceActor := a.SourceActor.map AActor.ActorId,
            TargetActor := a.TargetActor.map AActor.ActorId,
            AttachComponent := a.AttachId,
            ActiveFXSystemComponents := (a.SpawnedVisuals R s).1,
            ActiveSoundComponents := (a.SpawnedAudio R s).1 }
          a.ActivationType := by
  cases a with
  | AtLocation src tgt pack kind tr =>
    simp only [Activation.FailsInputCheck, Bool.or_eq_false_iff] at hin
    have hp : pack.IsValid = true := by rw [effectPack_isValid_iff, hin.1]; rfl
    obtain ⟨x, rfl⟩ : ∃ x, src = some x := by
      cases src with
      | none => simp at hin
      | some x => exact ⟨x, rfl⟩
    have hV : Activation.SpawnVisual R (Activation.AtLocation (some x) tgt pack kind tr)
        = fun d e => SpawnVFXDataAtLocation R d (some x) tr e := by
      funext d e; rfl
    have hA : Activation.SpawnAudio R (Activation.AtLocation (some x) tgt pack kind tr)
        = fun d e => SpawnSFXDataAtLocation R d (some x) tr e := by
      funext d e; rfl
    simp only [Activation.Play, UFXManagerSubsystem.PlayEffectAtLocation, hp, Bool.not_true,
      Option.isNone_some, UFXManagerSubsystem.GenerateNewActivePackId,
      Activation.SpawnedAudio, Activation.SpawnedVisuals, hV, hA]
    simp only [Bool.false_eq_true, if_false]
    rw [forEach_vfx_spawnEach, forEach_sfx_spawnEach]
    rfl
  | Attached src tgt attach pack kind =>
    simp only [Activation.FailsInputCheck, Bool.or_eq_false_iff] at hin
    have hp : pack.IsValid = true := by rw [effectPack_isValid_iff, hin.1.1]; rfl
    obtain ⟨x, rfl⟩ : ∃ x, src = some x := by
      cases src with
      | none => simp at hin
      | some x => exact ⟨x, rfl⟩
    obtain ⟨c, rfl⟩ : ∃ c, attach = some c := by
      cases attach with
      | none => simp at hin
      | some c => exact ⟨c, rfl⟩
    have hV : Activation.SpawnVisual R (Activation.Attached (some x) tgt (some c) pack kind)
        = fun d e => SpawnVFXDataAtComponent R d (some x) c e := by
      funext d e; rfl
    have hA : Activation.SpawnAudio R (Activation.Attached (some x) tgt (some c) pack kind)
        = fun d e => SpawnSFXDataAtComponent R d (some x) c e := by
      funext d e; rfl
    simp only [Activation.Play, UFXManagerSubsystem.PlayEffectAttached, hp, Bool.not_true,
      UFXManagerSubsystem.GenerateNewActivePackId,
      Activation.SpawnedAudio, Activation.SpawnedVisuals, hV, hA]
    simp only [Bool.false_eq_true, if_false]
    rw [forEach_vfx_spawnEach, forEach_sfx_spawnEach]
    rfl

/-- C21: an activation that passes the input checks hands to its registration step the
pack whose visual and audio entries come from spawning, in pack order, the descriptors
that pass their gate and only those: a descriptor whose gate fails reaches no spawn
function and leaves no entry, and the entries carry, in pack order, the access tags of
the passing descriptors. In the scenario (visual "hit" without gate, audio "sound"
requiring "burning" on a source that lacks it, at the origin) the handle finds the
spawned visual under "hit", finds no audio under "sound", and the only spawn request made
is the one of the visual. -/
theorem C21_gated_out_descriptors_are_skipped (R : Renderer) (s : UFXManagerSubsystem)
    (a : Activation) (hin : a.FailsInputCheck = false) :
    a.Play R s
        = UFXManagerSubsystem.Register
            { s with Internal_NextId := s.Internal_NextId + 1,
                     Engine := (a.SpawnedAudio R s).2 }
            { Id := s.Internal_NextId, ActivationType := a.ActivationType,
              SourceActor := a.SourceActor.map AActor.ActorId,
              TargetActor := a.TargetActor.map AActor.ActorId,
              AttachComponent := a.AttachId,
              ActiveFXSystemComponents := (a.SpawnedVisuals R s).1,
              ActiveSoundComponents := (a.SpawnedAudio R s).1 }
            a.ActivationType
      ∧ ((a.SpawnedVisuals R s).1.map (fun x => x.AccessTag)
            = (a.EffectPack.VFXData.filter (fun d => a.GatePasses d.toFFXData)).map
                (fun d => d.AccessTag)
          ∧ (a.SpawnedAudio R s).1.map (fun x => x.AccessTag)
            = (a.EffectPack.SFXData.filter (fun d => a.GatePasses d.toFFXData)).map
                (fun d => d.AccessTag))
      ∧ ((ScenarioActivation.Play CountingRenderer UFXManagerSubsystem.Initial).1
            = ⟨0, EEffectActivationType.Instant⟩
          ∧ ((ScenarioActivation.Play CountingRenderer
                UFXManagerSubsystem.Initial).2.GetVfxSystemComponentByTag
              (ScenarioActivation.Play CountingRenderer UFXManagerSubsystem.Initial).1
              HitTag).1 = LookupResult.Returns (some 100)
          ∧ ((ScenarioActivation.Play CountingRenderer
                UFXManagerSubsystem.Initial).2.GetSfxSystemComponentByTag
              (ScenarioActivation.Play CountingRenderer UFXManagerSubsystem.Initial).1
              SoundTag).1 = LookupResult.Returns none
          ∧ (ScenarioActivation.Play CountingRenderer
                UFXManagerSubsystem.Initial).2.Engine.SpawnRequests
            = [SpawnRequest.EmitterAtLocation (some 2) 3 ⟨0, 0, 0⟩ ⟨0, 0, 0, 2⟩ ⟨1, 1, 1⟩]) := by
  refine ⟨play_eq_spawned R s a hin, ⟨spawnEach_tags _ _ _ _, spawnEach_tags _ _ _ _⟩, ?_⟩
  decide

/-- Witness for C21: in the scenario the audio descriptor is gated out, so the audio list
of the activation is empty and the visual list holds the one entry under "hit". -/
theorem C21_gated_out_descriptors_are_skipped_witness :
    ScenarioActivation.FailsInputCheck = false
      ∧ (ScenarioActivation.SpawnedVisuals CountingRenderer UFXManagerSubsystem.Initial).1.map
          (fun x => x.AccessTag) = [HitTag]
      ∧ (ScenarioActivation.SpawnedAudio CountingRenderer UFXManagerSubsystem.Initial).1.map
          (fun x => x.AccessTag) = [] :=
  ⟨by decide,
   (C21_gated_out_descriptors_are_skipped CountingRenderer UFXManagerSubsystem.Initial
      ScenarioActivation (by decide)).2.1.1.trans (by decide),
   (C21_gated_out_descriptors_are_skipped CountingRenderer UFXManagerSubsystem.Initial
      ScenarioActivation (by decide)).2.1.2.trans (by decide)⟩

theorem filter_or_perm {α : Type} (P Q : α → Bool) (l : List α) :
    (l.filter P ++ (l.filter (fun x => !P x)).filter Q).Perm
      (l.filter (fun x => P x || Q x)) := by
  induction l with
  | nil => simp
  | cons x l ih =>
    cases hP : P x with
    | true =>
      simp only [List.filter_cons, hP, Bool.not_true, Bool.false_eq_true, if_false, if_true,
        Bool.true_or, List.cons_append]
      exact ih.cons x
    | false =>
      cases hQ : Q x with
      | true =>
        simp only [List.filter_cons, hP, hQ, Bool.not_false, Bool.false_eq_true, if_false,
          if_true, Bool.or_true]
        exact List.perm_middle.trans (ih.cons x)
      | false =>
        simp only [List.filter_cons, hP, hQ, Bool.not_false, Bool.false_eq_true, if_false,
          if_true, Bool.or_false]
        exact ih

theorem eraseP_eq_filter_of_nodup (x : Int) (l : List FActiveEffectPack)
    (hnd : (l.map (fun p => p.Id)).Nodup) :
    l.eraseP (fun p => p.Id == x) = l.filter (fun p => !(p.Id == x))
      ∧ ((l.find? (fun p => p.Id == x)).map FActiveEffectPack.LiveCalls).getD []
          = (l.filter (fun p => p.Id == x)).flatMap FActiveEffectPack.LiveCalls := by
  induction l with
  | nil => simp
  | cons a l ih =>
    rw [List.map_cons, List.nodup_cons] at hnd
    by_cases ha : a.Id = x
    · have hno : ∀ q ∈ l, (q.Id == x) = false := by
        intro q hq
        have : q.Id ≠ x := by
          intro hqx
          exact hnd.1 (by rw [ha, ← hqx]; exact List.mem_map_of_mem _ hq)
        simpa using this
      have h1 : l.filter (fun p => !(p.Id == x)) = l :=
        List.filter_eq_self.mpr (fun q hq => by simp [hno q hq])
      have h2 : l.filter (fun p => p.Id == x) = [] :=
        List.filter_eq_nil_iff.mpr (fun q hq => by simp [hno q hq])
      simp [List.eraseP_cons, List.find?_cons, List.filter_cons, ha, h1, h2]
    · have hb : (a.Id == x) = false := by simpa using ha
      obtain ⟨ih1, ih2⟩ := ih hnd.2
      simp [List.eraseP_cons, List.find?_cons, List.filter_cons, hb, ih1, ih2]

theorem stopEach_spec (hs : List FActiveEffectPackHandle) :
    ∀ s : UFXManagerSubsystem, (s.ActiveEffectPacks.map (fun p => p.Id)).Nodup →
      ∃ cs : List DeactivateCall,
        s.StopEach hs
            = { s with
                ActiveEffectPacks := s.ActiveEffectPacks.filter
                  (fun p => !hs.any (fun h => p.Id == h.GetId)),
                Engine := s.Engine.withCalls cs }
          ∧ cs.Perm ((s.ActiveEffectPacks.filter
              (fun p => hs.any (fun h => p.Id == h.GetId))).flatMap
                FActiveEffectPack.LiveCalls) := by
  induction hs with
  | nil =>
    intro s _
    exact ⟨[], by simp [UFXManagerSubsystem.StopEach, EngineTrace.withCalls], by simp⟩
  | cons h rest ih =>
    intro s hnd
    obtain ⟨he, hc⟩ := eraseP_eq_filter_of_nodup h.GetId s.ActiveEffectPacks hnd
    have hnd1 : ((s.StopActivePack h).ActiveEffectPacks.map (fun p => p.Id)).Nodup := by
      rw [stopActivePack_eq]
      exact List.Nodup.sublist ((List.eraseP_sublist _).map _) hnd
    obtain ⟨cs, hcs, hperm⟩ := ih (s.StopActivePack h) hnd1
    rw [stopActivePack_eq, he, hc] at hcs hperm
    refine ⟨(s.ActiveEffectPacks.filter (fun p => p.Id == h.GetId)).flatMap
        FActiveEffectPack.LiveCalls ++ cs, ?_, ?_⟩
    · rw [UFXManagerSubsystem.StopEach, stopActivePack_eq, he, hc, hcs]
      simp [EngineTrace.withCalls, List.filter_filter, Bool.and_comm]
    · have h1 := (List.Perm.refl ((s.ActiveEffectPacks.filter
          (fun p => p.Id == h.GetId)).flatMap FActiveEffectPack.LiveCalls)).append hperm
      refine h1.trans ?_
      rw [← List.flatMap_append]
      have h2 := filter_or_perm (fun p : FActiveEffectPack => p.Id == h.GetId)
        (fun p => rest.any (fun k => p.Id == k.GetId)) s.ActiveEffectPacks
      have h3 : s.ActiveEffectPacks.filter
            (fun p => (h :: rest).any (fun k => p.Id == k.GetId))
          = s.ActiveEffectPacks.filter
            (fun p => (p.Id == h.GetId) || rest.any (fun k => p.Id == k.GetId)) :=
        List.filter_congr (fun p _ => by simp)
      rw [h3]
      exact h2.flatMap_right _

/-- C22: in a state whose Active ids are pairwise distinct (every reachable state),
`StopActivePacks` on a list of handles and `StopActivePack` called on each handle of the
list in turn leave the same Active collection, the same Instant collection and the same
counter, and add to the trace the same deactivate calls, possibly in another order. -/
theorem C22_batch_stop_equals_stop_each (s : UFXManagerSubsystem)
    (Handles : List FActiveEffectPackHandle)
    (hnd : (s.ActiveEffectPacks.map (fun p => p.Id)).Nodup) :
    (s.StopEach Handles).ActiveEffectPacks = (s.StopActivePacks Handles).ActiveEffectPacks
      ∧ (s.StopEach Handles).InstantEffectPacks = (s.StopActivePacks Handles).InstantEffectPacks
      ∧ (s.StopEach Handles).Internal_NextId = (s.StopActivePacks Handles).Internal_NextId
      ∧ ∃ each batch : List DeactivateCall,
          (s.StopEach Handles).Engine
              = { s.Engine with DeactivateCalls := s.Engine.DeactivateCalls ++ each }
            ∧ (s.StopActivePacks Handles).Engine
              = { s.Engine with DeactivateCalls := s.Engine.DeactivateCalls ++ batch }
            ∧ each.Perm batch := by
  obtain ⟨cs, hcs, hperm⟩ := stopEach_spec Handles s hnd
  have hmem : ∀ p : FActiveEffectPack,
      (CollectPackIds Handles).contains p.Id = Handles.any (fun h => p.Id == h.GetId) := by
    intro p
    rw [Bool.eq_iff_iff]
    simp only [List.contains_eq_any_beq, List.any_eq_true, beq_iff_eq]
    constructor
    · rintro ⟨x, hx, hpx⟩
      obtain ⟨h, hh, hid⟩ := (mem_collectPackIds Handles x).mp hx
      exact ⟨h, hh, by rw [hid, hpx]⟩
    · rintro ⟨h, hh, hid⟩
      exact ⟨p.Id, (mem_collectPackIds Handles p.Id).mpr ⟨h, hh, hid.symm⟩, rfl⟩
  have e1 : s.ActiveEffectPacks.filter (fun p => !(CollectPackIds Handles).contains p.Id)
      = s.ActiveEffectPacks.filter (fun p => !Handles.any (fun h => p.Id == h.GetId)) :=
    List.filter_congr (fun p _ => by rw [hmem p])
  have e2 : s.ActiveEffectPacks.filter (fun p => (CollectPackIds Handles).contains p.Id)
      = s.ActiveEffectPacks.filter (fun p => Handles.any (fun h => p.Id == h.GetId)) :=
    List.filter_congr (fun p _ => hmem p)
  rw [hcs, stopActivePacks_eq, e1, e2]
  exact ⟨rfl, rfl, rfl, cs, _, rfl, rfl, hperm⟩

/-- Witness for C22: in the state with two Active packs, stopping handles 1 and 0 in that
order one by one empties the Active collection, as the batch stop does. -/
theorem C22_batch_stop_equals_stop_each_witness :
    (TwoActivePacks.ActiveEffectPacks.map (fun p => p.Id)).Nodup
      ∧ (TwoActivePacks.StopEach
            [⟨1, EEffectActivationType.Active⟩, ⟨0, EEffectActivationType.Active⟩]).ActiveEffectPacks
          = (TwoActivePacks.StopActivePacks
            [⟨1, EEffectActivationType.Active⟩, ⟨0, EEffectActivationType.Active⟩]).ActiveEffectPacks :=
  ⟨by decide,
   (C22_batch_stop_equals_stop_each TwoActivePacks
      [⟨1, EEffectActivationType.Active⟩, ⟨0, EEffectActivationType.Active⟩] (by decide)).1⟩

end FXManager
